import Mathlib

/-!
# Session integrity of the storefront: rate limiter, login service and auth slice

A shallow embedding of

* `src/utils/rateLimiter.js` (the local rate limiter over `localStorage`),
* `src/services/auth.js` (`registerUser`, `loginUser`, `loginWithGoogle`, `getUserData`,
  `syncEmailVerification`),
* `src/store/slices/authSlice.js` (the thunks and the reducer of the auth slice),
* `src/hooks/useAuth.js` (the `onAuthStateChange` handler),
* `src/components/common/ProtectedRoute.jsx` and `src/components/common/AuthRedirect.jsx`,
* `src/utils/validators.js` (`validatePassword`, `validateCreditCard`).

Clock values are milliseconds as natural numbers (`Date.now()` is passed in as `now`).
Calls into the browser, the identity provider and the document store are modelled as
explicit state passing; every such call can throw, and the outcome of each call site is
an input of the model.
-/

set_option autoImplicit false

namespace ECommerce

/-! ## JavaScript errors -/

/-- An exception value: `error.name`, and `error.code` for the errors of the identity
provider and of the document store (absent on plain JavaScript errors). -/
structure JsError where
  name : String
  code : Option String
  deriving DecidableEq, Repr

/-- `SyntaxError` thrown by `JSON.parse` on text that is not JSON. -/
def syntaxError : JsError := { name := "SyntaxError", code := none }

/-- `SecurityError` thrown by every access to `localStorage` when the browser denies it. -/
def securityError : JsError := { name := "SecurityError", code := none }

/-- `QuotaExceededError` thrown by `localStorage.setItem` when nothing can be written. -/
def quotaExceededError : JsError := { name := "QuotaExceededError", code := none }

/-- `TypeError`, thrown for instance when a property of `undefined` is read. -/
def typeError : JsError := { name := "TypeError", code := none }

/-! ## src/utils/rateLimiter.js -/

/-- `const RATE_LIMIT_STORAGE_KEY = 'rate_limit_attempts'`. -/
def RATE_LIMIT_STORAGE_KEY : String := "rate_limit_attempts"

/-- One entry of `RATE_LIMITS`. -/
structure RateLimitConfig where
  maxAttempts : Nat
  windowMs : Nat
  lockoutMs : Nat
  deriving DecidableEq, Repr

/-- The names of the properties that an object literal such as `RATE_LIMITS` inherits
from `Object.prototype`. -/
def objectPrototypeNames : List String :=
  ["constructor", "__defineGetter__", "__defineSetter__", "hasOwnProperty",
   "__lookupGetter__", "__lookupSetter__", "isPrototypeOf", "propertyIsEnumerable",
   "toString", "valueOf", "__proto__", "toLocaleString"]

/-- The value of the expression `RATE_LIMITS[action]`: an entry of the table; or a member
of `Object.prototype` (a function, or `Object.prototype` itself for `__proto__`), which
is truthy and has no property `maxAttempts`, `windowMs` or `lockoutMs`; or `undefined`. -/
inductive ConfigValue where
  | entry (config : RateLimitConfig)
  | inherited
  | undefined
  deriving DecidableEq, Repr

/-- The property access `RATE_LIMITS[action]` on the table `RATE_LIMITS`: its four own
properties first, then the properties inherited from `Object.prototype`. -/
def RATE_LIMITS (action : String) : ConfigValue :=
  if action = "login" then
    .entry { maxAttempts := 5, windowMs := 15 * 60 * 1000, lockoutMs := 30 * 60 * 1000 }
  else if action = "register" then
    .entry { maxAttempts := 3, windowMs := 60 * 60 * 1000, lockoutMs := 60 * 60 * 1000 }
  else if action = "passwordReset" then
    .entry { maxAttempts := 3, windowMs := 60 * 60 * 1000, lockoutMs := 60 * 60 * 1000 }
  else if action = "resendVerification" then
    .entry { maxAttempts := 5, windowMs := 60 * 60 * 1000, lockoutMs := 30 * 60 * 1000 }
  else if action ∈ objectPrototypeNames then .inherited
  else .undefined

/-- The object the rate limiter keeps per key, as its JSON text carries it:
`{ attempts, windowStart, windowEnd, lockUntil }`, `windowEnd` and `lockUntil` being
`null` or a time (`JSON.stringify` writes `null` for a `windowEnd` that is `NaN`). -/
structure RateLimitRecord where
  attempts : Nat
  windowStart : Nat
  windowEnd : Option Nat
  lockUntil : Option Nat
  deriving DecidableEq, Repr

/-- A string held by `localStorage` under some key: the empty string, the text
`JSON.stringify` produces for a rate-limit record, or a text that `JSON.parse` rejects.
JSON texts of other shapes (a number, an object without these fields) are not modelled:
the rate limiter never writes one under its keys. -/
inductive StoredText where
  | empty
  | record (r : RateLimitRecord)
  | malformed (text : String)
  deriving DecidableEq, Repr

/-- `JSON.stringify(record)`. -/
def jsonStringify (r : RateLimitRecord) : StoredText := .record r

/-- `JSON.parse(stored)`: the record for a text written by `jsonStringify`,
a `SyntaxError` for the empty string and for malformed text. -/
def jsonParse : StoredText → Except JsError RateLimitRecord
  | .record r => .ok r
  | .empty => .error syntaxError
  | .malformed _ => .error syntaxError

/-- The browser's `localStorage`: its key/value pairs, whether every access to it throws
(storage disabled or denied) and whether writes throw (quota exhausted). -/
structure LocalStorage where
  items : List (String × StoredText)
  accessDenied : Bool
  quotaExceeded : Bool
  deriving DecidableEq, Repr

namespace LocalStorage

/-- A working storage holding nothing. -/
def empty : LocalStorage := { items := [], accessDenied := false, quotaExceeded := false }

/-- The value under `key`, `none` for `null`. -/
def lookup (ls : LocalStorage) (key : String) : Option StoredText :=
  ls.items.lookup key

/-- The storage with `value` written under `key`. -/
def put (ls : LocalStorage) (key : String) (value : StoredText) : LocalStorage :=
  { ls with items := (key, value) :: ls.items.filter (fun p => p.1 != key) }

/-- The storage with `key` removed. -/
def erase (ls : LocalStorage) (key : String) : LocalStorage :=
  { ls with items := ls.items.filter (fun p => p.1 != key) }

/-- `localStorage.getItem(key)`. -/
def getItem (ls : LocalStorage) (key : String) : Except JsError (Option StoredText) :=
  if ls.accessDenied then .error securityError else .ok (ls.lookup key)

/-- `localStorage.setItem(key, value)`. -/
def setItem (ls : LocalStorage) (key : String) (value : StoredText) :
    Except JsError LocalStorage :=
  if ls.accessDenied then .error securityError
  else if ls.quotaExceeded then .error quotaExceededError
  else .ok (ls.put key value)

/-- `localStorage.removeItem(key)`. -/
def removeItem (ls : LocalStorage) (key : String) : Except JsError LocalStorage :=
  if ls.accessDenied then .error securityError
  else .ok (ls.erase key)

/-- `Object.keys(localStorage)`. -/
def keys (ls : LocalStorage) : Except JsError (List String) :=
  if ls.accessDenied then .error securityError else .ok (ls.items.map Prod.fst)

/-- Reads and writes both succeed. -/
def Working (ls : LocalStorage) : Prop :=
  ls.accessDenied = false ∧ ls.quotaExceeded = false

instance (ls : LocalStorage) : Decidable ls.Working := by
  unfold Working; infer_instance

end LocalStorage

/-- A number computed from a field of `config`: `NaN` when that field is `undefined`. -/
inductive JsNumber where
  | nan
  | nat (n : Nat)
  deriving DecidableEq, Repr

/-- The object `checkRateLimit` returns; an absent property is `none`. -/
structure RateLimitStatus where
  allowed : Bool
  locked : Option Bool
  minutesRemaining : Option Nat
  message : Option String
  attemptsRemaining : Option JsNumber
  deriving DecidableEq, Repr

/-- The value `{ allowed: true }`. -/
def statusAllowed : RateLimitStatus :=
  { allowed := true, locked := none, minutesRemaining := none, message := none,
    attemptsRemaining := none }

/-- The value `{ allowed: false, locked: true, minutesRemaining, message }`. -/
def statusLocked (minutesRemaining : Nat) : RateLimitStatus :=
  { allowed := false, locked := some true, minutesRemaining := some minutesRemaining,
    message := some ("Too many failed attempts. Please try again in "
      ++ toString minutesRemaining ++ " minute(s)."),
    attemptsRemaining := none }

/-- `Math.ceil(ms / 60000)` for a non-negative integer `ms`. -/
def ceilMinutes (ms : Nat) : Nat := (ms + 59999) / 60000

/-- The template string of the storage key,
`RATE_LIMIT_STORAGE_KEY + '_' + action + '_' + identifier`. -/
def storageKey (action identifier : String) : String :=
  RATE_LIMIT_STORAGE_KEY ++ "_" ++ action ++ "_" ++ identifier

/-- `data.lockUntil && now < data.lockUntil`: `null` and `0` are falsy. -/
def lockedAt (now : Nat) (data : RateLimitRecord) : Bool :=
  match data.lockUntil with
  | none => false
  | some l => l != 0 && decide (now < l)

/-- The number a comparison such as `now > data.windowEnd` reads from a stored time:
`null` converts to 0. -/
def toNumber (value : Option Nat) : Nat := value.getD 0

/-- `checkRateLimit(action, identifier)` at clock value `now`, on storage `ls`:
the returned status and the storage afterwards, or the exception thrown. -/
def checkRateLimit (now : Nat) (action identifier : String) (ls : LocalStorage) :
    Except JsError (RateLimitStatus × LocalStorage) :=
  match RATE_LIMITS action with
  | .undefined => .ok (statusAllowed, ls)
  | config => do
    let key := storageKey action identifier
    let stored ← ls.getItem key
    match stored with
    | none => pure (statusAllowed, ls)
    | some .empty => pure (statusAllowed, ls)
    | some text =>
      let data ← jsonParse text
      -- Check if locked out
      if lockedAt now data then
        pure (statusLocked (ceilMinutes (data.lockUntil.getD 0 - now)), ls)
      -- Check if window expired
      else if now > toNumber data.windowEnd then
        let ls ← ls.removeItem key
        pure (statusAllowed, ls)
      else
        match config with
        | .entry config =>
          -- Check if max attempts reached
          if data.attempts ≥ config.maxAttempts then
            let lockUntil := now + config.lockoutMs
            let ls ← ls.setItem key (jsonStringify { data with lockUntil := some lockUntil })
            pure (statusLocked (ceilMinutes (lockUntil - now)), ls)
          else
            pure ({ statusAllowed with
                    attemptsRemaining := some (.nat (config.maxAttempts - data.attempts)) },
                  ls)
        | _ =>
          -- `config.maxAttempts` is `undefined`: `data.attempts >= undefined` is false
          -- and `undefined - data.attempts` is `NaN`
          pure ({ statusAllowed with attemptsRemaining := some .nan }, ls)

/-- The record `{ attempts: 1, windowStart: now, windowEnd: now + config.windowMs,
lockUntil: null }`; where `config.windowMs` is `undefined` the sum is `NaN`, which the
JSON text carries as `null`. -/
def freshRecord (now : Nat) (config : ConfigValue) : RateLimitRecord :=
  { attempts := 1, windowStart := now,
    windowEnd := match config with
      | .entry config => some (now + config.windowMs)
      | _ => none,
    lockUntil := none }

/-- `recordFailedAttempt(action, identifier)` at clock value `now`, on storage `ls`:
the storage afterwards, or the exception thrown. -/
def recordFailedAttempt (now : Nat) (action identifier : String) (ls : LocalStorage) :
    Except JsError LocalStorage :=
  match RATE_LIMITS action with
  | .undefined => .ok ls
  | config => do
    let key := storageKey action identifier
    let stored ← ls.getItem key
    match stored with
    | none => ls.setItem key (jsonStringify (freshRecord now config))
    | some .empty => ls.setItem key (jsonStringify (freshRecord now config))
    | some text =>
      let data ← jsonParse text
      -- If window expired, start new window
      if now > toNumber data.windowEnd then
        ls.setItem key (jsonStringify (freshRecord now config))
      else
        -- Increment attempts
        ls.setItem key (jsonStringify { data with attempts := data.attempts + 1 })

/-- `clearRateLimit(action, identifier)`. -/
def clearRateLimit (action identifier : String) (ls : LocalStorage) :
    Except JsError LocalStorage :=
  ls.removeItem (storageKey action identifier)

/-- `text.startsWith(start)`, on the characters of the two strings. -/
def startsWith (text start : String) : Bool := start.data.isPrefixOf text.data

/-- `clearAllRateLimits()`: removes every key that starts with `RATE_LIMIT_STORAGE_KEY`. -/
def clearAllRateLimits (ls : LocalStorage) : Except JsError LocalStorage := do
  let ks ← ls.keys
  ks.foldlM (fun (acc : LocalStorage) key =>
    if startsWith key RATE_LIMIT_STORAGE_KEY then acc.removeItem key else pure acc) ls

/-- Several `recordFailedAttempt(action, identifier)` calls in a row, one per clock value. -/
def recordFailedAttemptMany (action identifier : String) :
    List Nat → LocalStorage → Except JsError LocalStorage
  | [], ls => .ok ls
  | now :: rest, ls => do
    let ls ← recordFailedAttempt now action identifier ls
    recordFailedAttemptMany action identifier rest ls

/-- Several `checkRateLimit(action, identifier)` calls in a row, one per clock value. -/
def checkRateLimitMany (action identifier : String) :
    List Nat → LocalStorage → Except JsError (List RateLimitStatus × LocalStorage)
  | [], ls => .ok ([], ls)
  | now :: rest, ls => do
    let (st, ls) ← checkRateLimit now action identifier ls
    let (sts, ls) ← checkRateLimitMany action identifier rest ls
    pure (st :: sts, ls)

/-! ## The identity provider and the document store, as seen by src/services/auth.js -/

/-- The provider's user object (`userCredential.user`, `auth.currentUser`); `none` is
`null`. -/
structure FirebaseUser where
  uid : String
  email : Option String
  displayName : Option String
  photoURL : Option String
  phoneNumber : Option String
  emailVerified : Bool
  deriving DecidableEq, Repr

/-- A document of the collection `users`; a field that is `undefined` or `null` is
`none`. -/
structure UserDoc where
  uid : Option String
  email : Option String
  displayName : Option String
  phoneNumber : Option String
  photoURL : Option String
  role : Option String
  provider : Option String
  emailVerified : Option Bool
  isVerified : Option Bool
  isActive : Option Bool
  createdAt : Option Nat
  updatedAt : Option Nat
  deriving DecidableEq, Repr

/-- The object `{}`. -/
def UserDoc.blank : UserDoc :=
  { uid := none, email := none, displayName := none, phoneNumber := none, photoURL := none,
    role := none, provider := none, emailVerified := none, isVerified := none,
    isActive := none, createdAt := none, updatedAt := none }

/-- The field set of an `updateDoc` call: for each field `none` when it is not given,
`some v` when it is given the value `v` (`some none` being an explicit `null`). -/
structure UserFields where
  uid : Option (Option String)
  email : Option (Option String)
  displayName : Option (Option String)
  phoneNumber : Option (Option String)
  photoURL : Option (Option String)
  role : Option (Option String)
  provider : Option (Option String)
  emailVerified : Option (Option Bool)
  isVerified : Option (Option Bool)
  isActive : Option (Option Bool)
  createdAt : Option (Option Nat)
  updatedAt : Option (Option Nat)
  deriving DecidableEq, Repr

/-- The field set that gives no field. -/
def UserFields.blank : UserFields :=
  { uid := none, email := none, displayName := none, phoneNumber := none, photoURL := none,
    role := none, provider := none, emailVerified := none, isVerified := none,
    isActive := none, createdAt := none, updatedAt := none }

/-- The document after `updateDoc(ref, fields)`: the fields given replace the stored
ones, the others stay. -/
def UserDoc.update (stored : UserDoc) (fields : UserFields) : UserDoc :=
  { uid := fields.uid.getD stored.uid,
    email := fields.email.getD stored.email,
    displayName := fields.displayName.getD stored.displayName,
    phoneNumber := fields.phoneNumber.getD stored.phoneNumber,
    photoURL := fields.photoURL.getD stored.photoURL,
    role := fields.role.getD stored.role,
    provider := fields.provider.getD stored.provider,
    emailVerified := fields.emailVerified.getD stored.emailVerified,
    isVerified := fields.isVerified.getD stored.isVerified,
    isActive := fields.isActive.getD stored.isActive,
    createdAt := fields.createdAt.getD stored.createdAt,
    updatedAt := fields.updatedAt.getD stored.updatedAt }

/-- `a || b` on strings that may be absent: the empty string is falsy. -/
def orString (a b : Option String) : Option String :=
  match a with
  | some s => if s = "" then b else some s
  | none => b

/-- `a || b` for a flag `a` that may be absent and a boolean `b`. -/
def orBool (a : Option Bool) (b : Bool) : Bool :=
  match a with
  | some true => true
  | _ => b

/-- A call made to the identity provider or to the document store. -/
inductive Call where
  | createUserWithEmailAndPassword (email password : String)
  | signInWithEmailAndPassword (email password : String)
  | signInWithPopup
  | reload (uid : String)
  | updateProfile (uid : String) (displayName : String)
  | sendEmailVerification (uid : String)
  | getDoc (uid : String)
  | setDoc (uid : String) (data : UserDoc)
  | updateDoc (uid : String) (fields : UserFields)
  | signOut
  deriving DecidableEq, Repr

/-- What the outside world answers to the calls of one run: for each call site whether
it throws (`some error`) and what it yields. `getDoc` is indexed by the number of reads
made before it. -/
structure Env where
  createUser : String → String → Except JsError FirebaseUser
  signIn : String → String → Except JsError FirebaseUser
  signInPopup : Except JsError FirebaseUser
  /-- Outcome of `user.reload()`: the refreshed `emailVerified` of the account. -/
  reload : Except JsError Bool
  updateProfile : Option JsError
  sendEmailVerification : Option JsError
  getDoc : Nat → Option JsError
  setDoc : Option JsError
  updateDoc : Option JsError
  signOut : Option JsError
  /-- The value `serverTimestamp()` resolves to. -/
  serverTime : Nat

/-- The state the calls act on: the provider session (`auth.currentUser`), the collection
`users`, the number of reads made and the calls made so far, oldest first. -/
structure World where
  currentUser : Option FirebaseUser
  users : List (String × UserDoc)
  reads : Nat
  log : List Call
  deriving DecidableEq, Repr

/-- A computation that acts on the world and returns a value or throws. The state
reached is kept when it throws, as after a rejected `await`. -/
def Eff (α : Type) : Type := World → Except JsError α × World

namespace Eff

/-- `return a`. -/
def ret {α : Type} (a : α) : Eff α := fun w => (.ok a, w)

/-- `throw e`. -/
def raise {α : Type} (e : JsError) : Eff α := fun w => (.error e, w)

/-- Sequencing of two awaited steps: a throw in the first skips the second. -/
def andThen {α β : Type} (m : Eff α) (f : α → Eff β) : Eff β := fun w =>
  match m w with
  | (.ok a, w') => f a w'
  | (.error e, w') => (.error e, w')

/-- The statement `try { body } catch (error) { handler }`. -/
def tryCatch {α : Type} (body : Eff α) (handler : JsError → Eff α) : Eff α := fun w =>
  match body w with
  | (.ok a, w') => (.ok a, w')
  | (.error e, w') => handler e w'

instance : Monad Eff where
  pure := ret
  bind := andThen

end Eff

/-- Appends a call to the log. -/
def logCall (c : Call) : Eff Unit := fun w => (.ok (), { w with log := w.log ++ [c] })

/-- Throws the error of a call site, if it has one. -/
def failWith (fault : Option JsError) : Eff Unit := fun w =>
  match fault with
  | none => (.ok (), w)
  | some e => (.error e, w)

/-- `createUserWithEmailAndPassword(auth, email, password)`: on success the new account
is signed in. -/
def createUserWithEmailAndPassword (env : Env) (email password : String) :
    Eff FirebaseUser := do
  logCall (.createUserWithEmailAndPassword email password)
  fun w =>
    match env.createUser email password with
    | .ok user => (.ok user, { w with currentUser := some user })
    | .error e => (.error e, w)

/-- `signInWithEmailAndPassword(auth, email, password)`. -/
def signInWithEmailAndPassword (env : Env) (email password : String) :
    Eff FirebaseUser := do
  logCall (.signInWithEmailAndPassword email password)
  fun w =>
    match env.signIn email password with
    | .ok user => (.ok user, { w with currentUser := some user })
    | .error e => (.error e, w)

/-- `signInWithPopup(auth, provider)`. -/
def signInWithPopup (env : Env) : Eff FirebaseUser := do
  logCall .signInWithPopup
  fun w =>
    match env.signInPopup with
    | .ok user => (.ok user, { w with currentUser := some user })
    | .error e => (.error e, w)

/-- `await user.reload()`: afterwards `user.emailVerified` is the refreshed flag. -/
def reload (env : Env) (user : FirebaseUser) : Eff FirebaseUser := do
  logCall (.reload user.uid)
  fun w =>
    match env.reload with
    | .ok verified =>
      let user' := { user with emailVerified := verified }
      (.ok user', { w with currentUser := w.currentUser.map (fun _ => user') })
    | .error e => (.error e, w)

/-- `updateProfile(user, { displayName })`. -/
def updateProfile (env : Env) (user : FirebaseUser) (displayName : String) :
    Eff FirebaseUser := do
  logCall (.updateProfile user.uid displayName)
  failWith env.updateProfile
  let user' := { user with displayName := some displayName }
  fun w => (.ok user', { w with currentUser := w.currentUser.map (fun _ => user') })

/-- `sendEmailVerification(user, { url })`. -/
def sendEmailVerification (env : Env) (user : FirebaseUser) : Eff Unit := do
  logCall (.sendEmailVerification user.uid)
  failWith env.sendEmailVerification

/-- `signOut(auth)`: on success no provider session remains. -/
def signOut (env : Env) : Eff Unit := do
  logCall .signOut
  failWith env.signOut
  fun w => (.ok (), { w with currentUser := none })

/-- `getDoc(doc(db, 'users', uid))`: the stored document, `none` when
`userDoc.exists()` is false. -/
def getDoc (env : Env) (uid : String) : Eff (Option UserDoc) := do
  logCall (.getDoc uid)
  fun w =>
    match env.getDoc w.reads with
    | none => (.ok (w.users.lookup uid), { w with reads := w.reads + 1 })
    | some e => (.error e, { w with reads := w.reads + 1 })

/-- `setDoc(doc(db, 'users', uid), data)`. -/
def setDoc (env : Env) (uid : String) (data : UserDoc) : Eff Unit := do
  logCall (.setDoc uid data)
  failWith env.setDoc
  fun w => (.ok (), { w with users := (uid, data) :: w.users.filter (fun p => p.1 != uid) })

/-- `updateDoc(doc(db, 'users', uid), fields)`; it throws `not-found` when the document
does not exist. -/
def updateDoc (env : Env) (uid : String) (fields : UserFields) : Eff Unit := do
  logCall (.updateDoc uid fields)
  failWith env.updateDoc
  fun w =>
    match w.users.lookup uid with
    | some stored =>
      (.ok (), { w with users := (uid, stored.update fields)
                                  :: w.users.filter (fun p => p.1 != uid) })
    | none => (.error { name := "FirebaseError", code := some "not-found" }, w)

/-! ## src/services/auth.js -/

/-- `getFriendlyErrorMessage(errorCode)`. -/
def getFriendlyErrorMessage (errorCode : Option String) : String :=
  match errorCode with
  | some "auth/email-already-in-use" => "This email is already registered. Please sign in."
  | some "auth/invalid-email" => "Invalid email format"
  | some "auth/weak-password" => "Password is too weak. Please use a stronger password."
  | some "auth/user-not-found" => "No account found with this email"
  | some "auth/wrong-password" => "Incorrect password"
  | some "auth/too-many-requests" => "Too many attempts. Try later"
  | some "auth/network-request-failed" => "Network error. Check connection"
  | some "auth/popup-closed-by-user" => "Sign-in was cancelled"
  | some "auth/user-disabled" => "This account has been disabled. Please contact support."
  | some "auth/requires-recent-login" => "Please sign out and sign in again to continue."
  | some "auth/email-not-verified" => "Please verify your email to continue"
  | some "auth/account-disabled" => "Your account has been disabled"
  | some "auth/operation-not-allowed" =>
    "This operation is not allowed. Please contact support."
  | some "auth/credential-already-in-use" =>
    "This credential is already associated with another account."
  | _ => "An error occurred. Please try again."

/-- The objects returned by `registerUser`, `loginUser` and `loginWithGoogle`; a
property that is not set is `none`. -/
structure AuthResult where
  success : Bool
  user : Option FirebaseUser
  error : Option String
  code : Option String
  email : Option String
  emailSent : Option Bool
  emailVerified : Option Bool
  isVerified : Option Bool
  isActive : Option Bool
  deriving DecidableEq, Repr

/-- The object `{ success }` with no other property. -/
def AuthResult.bare (success : Bool) : AuthResult :=
  { success := success, user := none, error := none, code := none, email := none,
    emailSent := none, emailVerified := none, isVerified := none, isActive := none }

/-- The value returned by the `catch` blocks:
`{ success: false, error: getFriendlyErrorMessage(error.code) }`. -/
def caughtResult (error : JsError) : AuthResult :=
  { AuthResult.bare false with error := some (getFriendlyErrorMessage error.code) }

/-- The optional `userData` argument of `registerUser`. -/
structure RegisterInput where
  displayName : Option String
  phoneNumber : Option String
  photoURL : Option String
  deriving DecidableEq, Repr

/-- `registerUser(email, password, userData = {})`. -/
def registerUser (env : Env) (email password : String) (userData : RegisterInput) :
    Eff AuthResult :=
  Eff.tryCatch (do
    -- Create user account
    let user ← createUserWithEmailAndPassword env email password
    -- Update user profile
    let user ← match orString userData.displayName none with
      | some displayName => updateProfile env user displayName
      | none => pure user
    -- Send email verification
    sendEmailVerification env user
    -- Create user document in Firestore with production schema
    let userDoc : UserDoc :=
      { uid := some user.uid, email := user.email,
        displayName := orString userData.displayName (some ""),
        phoneNumber := orString userData.phoneNumber none,
        photoURL := orString userData.photoURL none,
        role := some "user", provider := some "password",
        emailVerified := some false, isVerified := some false, isActive := some true,
        createdAt := some env.serverTime, updatedAt := some env.serverTime }
    setDoc env user.uid userDoc
    -- Sign out user immediately after registration
    signOut env
    pure { AuthResult.bare true with user := some user, emailSent := some true })
  (fun error => pure (caughtResult error))

/-- The part of `loginUser` after the profile document has been read or created
(the "post-login checks"). -/
def loginUserChecks (env : Env) (user : FirebaseUser) : Eff AuthResult := do
  -- 1. Check email verification (Firebase auth)
  if !user.emailVerified then
    -- Send verification email automatically before signing out
    Eff.tryCatch (sendEmailVerification env user) (fun _ => pure ())
    -- Sign out immediately to prevent session creation
    signOut env
    pure { AuthResult.bare false with
           error := some "Please verify your email to continue",
           code := some "auth/email-not-verified", email := user.email }
  else do
    -- 2. Get updated user data from Firestore
    let updatedUserDoc ← getDoc env user.uid
    let finalUserData := updatedUserDoc.getD UserDoc.blank
    -- 3. Check isVerified status (business verification flag)
    if finalUserData.isVerified = some false then
      Eff.tryCatch (sendEmailVerification env user) (fun _ => pure ())
      signOut env
      pure { AuthResult.bare false with
             error := some "Your account is not verified yet",
             code := some "auth/account-not-verified", email := user.email }
    -- 4. Check isActive status (admin-controlled active status)
    else if finalUserData.isActive = some false then
      signOut env
      pure { AuthResult.bare false with
             error := some "Your account has been disabled",
             code := some "auth/account-disabled" }
    else
      pure { AuthResult.bare true with
             user := some user,
             emailVerified := some user.emailVerified,
             isVerified := some (orBool finalUserData.isVerified user.emailVerified),
             isActive := some (finalUserData.isActive != some false) }

/-- `loginUser(email, password)`. -/
def loginUser (env : Env) (email password : String) : Eff AuthResult :=
  Eff.tryCatch (do
    -- Sign in with Firebase Auth
    let user ← signInWithEmailAndPassword env email password
    -- Reload user to get latest data
    let user ← reload env user
    -- Get user document from Firestore
    let userDoc ← getDoc env user.uid
    match userDoc with
    | none =>
      -- User document doesn't exist, create it (backward compatibility)
      setDoc env user.uid
        { uid := some user.uid, email := user.email,
          displayName := orString user.displayName (some ""),
          phoneNumber := none,
          photoURL := orString user.photoURL none,
          role := some "user", provider := some "password",
          emailVerified := some user.emailVerified,
          isVerified := some user.emailVerified,
          isActive := some true,
          createdAt := some env.serverTime, updatedAt := some env.serverTime }
      loginUserChecks env user
    | some userData =>
      -- Check if account is active (before other checks)
      if userData.isActive = some false then
        -- Sign out immediately
        signOut env
        pure { AuthResult.bare false with
               error := some "Your account has been disabled",
               code := some "auth/account-disabled" }
      else do
        -- Sync email verification status from Firebase to Firestore
        if some user.emailVerified ≠ userData.emailVerified then
          updateDoc env user.uid
            { UserFields.blank with
              emailVerified := some (some user.emailVerified),
              isVerified := some (some user.emailVerified),
              updatedAt := some (some env.serverTime) }
        loginUserChecks env user)
  (fun error => pure (caughtResult error))

/-- The part of `loginWithGoogle` after the profile document has been created or
updated (the "post-login checks"); `userData` is the object built from the provider's
user. -/
def loginWithGoogleChecks (env : Env) (user : FirebaseUser) (userData : UserDoc) :
    Eff AuthResult := do
  -- 1. Check email verification (Firebase auth)
  if !user.emailVerified then
    signOut env
    pure { AuthResult.bare false with
           error := some "Please verify your email to continue",
           code := some "auth/email-not-verified", user := some user }
  else do
    -- 2. Get updated user data from Firestore
    let finalUserDoc ← getDoc env user.uid
    let finalUserData := finalUserDoc.getD userData
    -- 3. Check isVerified status (business verification flag)
    if finalUserData.isVerified = some false then
      signOut env
      pure { AuthResult.bare false with
             error := some "Your account is not verified yet",
             code := some "auth/account-not-verified", user := some user }
    else
      pure { AuthResult.bare true with
             user := some user,
             emailVerified := some user.emailVerified,
             isVerified := some (orBool finalUserData.isVerified user.emailVerified) }

/-- `loginWithGoogle()`. -/
def loginWithGoogle (env : Env) : Eff AuthResult :=
  Eff.tryCatch (do
    let user ← signInWithPopup env
    -- Reload to ensure we have latest data from Firebase Authentication
    let user ← reload env user
    let userDoc ← getDoc env user.uid
    let userData : UserDoc :=
      { uid := some user.uid, email := user.email,
        displayName := orString user.displayName (some ""),
        phoneNumber := orString user.phoneNumber none,
        photoURL := orString user.photoURL none,
        role := some "user", provider := some "google",
        emailVerified := some user.emailVerified,
        isVerified := some user.emailVerified,
        isActive := some true,
        createdAt := none, updatedAt := some env.serverTime }
    match userDoc with
    | none =>
      -- Create new user document
      setDoc env user.uid { userData with createdAt := some env.serverTime }
      loginWithGoogleChecks env user userData
    | some existingData =>
      -- Check if account is active
      if existingData.isActive = some false then
        signOut env
        pure { AuthResult.bare false with
               error := some "Your account has been disabled. Please contact support.",
               code := some "auth/account-disabled" }
      else do
        -- Update user data (preserve role if admin)
        updateDoc env user.uid
          { uid := some userData.uid, email := some userData.email,
            displayName := some userData.displayName,
            phoneNumber := some (orString existingData.phoneNumber userData.phoneNumber),
            photoURL := some userData.photoURL,
            role := some (orString existingData.role (some "user")),
            provider := some userData.provider,
            emailVerified := some userData.emailVerified,
            isVerified := some userData.isVerified,
            isActive := some userData.isActive,
            createdAt := none,
            updatedAt := some userData.updatedAt }
        loginWithGoogleChecks env user userData)
  (fun error => pure (caughtResult error))

/-- `logoutUser()`; on failure `error` is `error.message`, for which the model has the
error's name. -/
def logoutUser (env : Env) : Eff AuthResult :=
  Eff.tryCatch (do
    signOut env
    pure (AuthResult.bare true))
  (fun error => pure { AuthResult.bare false with error := some error.name })

/-- The object returned by `getUserData`. -/
structure UserDataResult where
  success : Bool
  data : Option UserDoc
  error : Option String
  deriving DecidableEq, Repr

/-- `getUserData(uid)`. -/
def getUserData (env : Env) (uid : String) : Eff UserDataResult :=
  Eff.tryCatch (do
    let userDoc ← getDoc env uid
    match userDoc with
    | some data => pure { success := true, data := some data, error := none }
    | none => pure { success := false, data := none, error := some "User not found" })
  (fun error => pure { success := false, data := none, error := some error.name })

/-! ## src/store/slices/authSlice.js -/

/-- The value passed to `rejectWithValue` by `register`, `login` and `googleLogin`:
`{ error, code, user }`. -/
structure RejectValue where
  error : Option String
  code : Option String
  user : Option FirebaseUser
  deriving DecidableEq, Repr

/-- What `state.error` holds: a message, or the whole rejected value when it has no
truthy `error` property. -/
inductive ErrorValue where
  | message (text : String)
  | rejected (value : RejectValue)
  deriving DecidableEq, Repr

/-- The state of the auth slice. -/
structure AuthState where
  user : Option FirebaseUser
  userData : Option UserDoc
  loading : Bool
  error : Option ErrorValue
  isAuthenticated : Bool
  isAdmin : Bool
  emailVerified : Bool
  isVerified : Bool
  isActive : Bool
  deriving DecidableEq, Repr

/-- `initialState`. -/
def initialState : AuthState :=
  { user := none, userData := none, loading := true, error := none,
    isAuthenticated := false, isAdmin := false, emailVerified := false,
    isVerified := false, isActive := false }

/-- The payload of `register.fulfilled`. -/
structure RegisterPayload where
  user : FirebaseUser
  userData : Option UserDoc
  emailSent : Bool
  deriving DecidableEq, Repr

/-- The payload of `login.fulfilled` and `googleLogin.fulfilled`. -/
structure LoginPayload where
  user : FirebaseUser
  userData : Option UserDoc
  emailVerified : Option Bool
  isVerified : Option Bool
  isActive : Option Bool
  deriving DecidableEq, Repr

/-- How a thunk's payload creator ends when it does not throw: with a returned payload
(`fulfilled`) or with `rejectWithValue(value)`. -/
inductive ThunkOutcome (α β : Type) where
  | fulfilled (payload : α)
  | rejectedWithValue (value : β)
  deriving DecidableEq, Repr

/-- The argument of the `register` thunk: `{ email, password, userData }`. -/
structure RegisterArg where
  email : String
  password : String
  userData : Option RegisterInput
  deriving DecidableEq, Repr

/-- The payload creator of the `register` thunk. -/
def register (env : Env) (arg : RegisterArg) :
    Eff (ThunkOutcome RegisterPayload RejectValue) := do
  let result ← registerUser env arg.email arg.password
    (arg.userData.getD { displayName := none, phoneNumber := none, photoURL := none })
  if result.success then
    match result.user with
    | some user =>
      -- After registration, user is signed out, so we can't get userData yet
      pure (.fulfilled
        { user := user,
          userData := some
            { UserDoc.blank with
              uid := some user.uid, email := user.email,
              displayName := orString (arg.userData.bind (fun u => u.displayName)) (some ""),
              emailVerified := some false, isVerified := some false,
              isActive := some true, provider := some "password" },
          emailSent := orBool result.emailSent false })
    | none => Eff.raise typeError
  else
    pure (.rejectedWithValue { error := result.error, code := result.code, user := none })

/-- The payload built by `login` and `googleLogin` from a successful result and the
answer of `getUserData`. -/
def loginPayload (user : FirebaseUser) (result : AuthResult)
    (userDataResult : UserDataResult) : LoginPayload :=
  let emailVerified := orBool result.emailVerified false
  let isVerified := orBool result.isVerified false
  let isActive := match result.isActive with
    | some b => b
    | none => true
  { user := user,
    userData := some
      { (userDataResult.data.getD UserDoc.blank) with
        emailVerified := some emailVerified, isVerified := some isVerified,
        isActive := some isActive },
    emailVerified := some emailVerified, isVerified := some isVerified,
    isActive := some isActive }

/-- The payload creator of the `login` thunk. -/
def login (env : Env) (email password : String) :
    Eff (ThunkOutcome LoginPayload RejectValue) := do
  let result ← loginUser env email password
  if result.success then
    match result.user with
    | some user =>
      let userDataResult ← getUserData env user.uid
      pure (.fulfilled (loginPayload user result userDataResult))
    | none => Eff.raise typeError
  else
    pure (.rejectedWithValue
      { error := result.error, code := result.code, user := result.user })

/-- The payload creator of the `googleLogin` thunk. -/
def googleLogin (env : Env) : Eff (ThunkOutcome LoginPayload RejectValue) := do
  let result ← loginWithGoogle env
  if result.success then
    match result.user with
    | some user =>
      let userDataResult ← getUserData env user.uid
      pure (.fulfilled (loginPayload user result userDataResult))
    | none => Eff.raise typeError
  else
    pure (.rejectedWithValue
      { error := result.error, code := result.code, user := result.user })

/-- The payload creator of the `logout` thunk. -/
def logout (env : Env) : Eff (ThunkOutcome Unit (Option String)) := do
  let result ← logoutUser env
  if result.success then pure (.fulfilled ())
  else pure (.rejectedWithValue result.error)

/-- The payload creator of the `fetchUserData` thunk. -/
def fetchUserData (env : Env) (uid : String) :
    Eff (ThunkOutcome (Option UserDoc) (Option String)) := do
  let result ← getUserData env uid
  if result.success then pure (.fulfilled result.data)
  else pure (.rejectedWithValue result.error)

/-- The actions the slice reduces; `none` as the payload of a rejected action is
`undefined` (the payload creator threw). -/
inductive AuthAction where
  | setUser (payload : Option FirebaseUser)
  | setUserData (payload : Option UserDoc)
  | clearError
  | resetAuth
  | setEmailVerified (payload : Bool)
  | setIsVerified (payload : Bool)
  | setIsActive (payload : Bool)
  | registerPending
  | registerFulfilled (payload : RegisterPayload)
  | registerRejected (payload : Option RejectValue)
  | loginPending
  | loginFulfilled (payload : LoginPayload)
  | loginRejected (payload : Option RejectValue)
  | googleLoginPending
  | googleLoginFulfilled (payload : LoginPayload)
  | googleLoginRejected (payload : Option RejectValue)
  | logoutPending
  | logoutFulfilled
  | logoutRejected (payload : Option String)
  | fetchUserDataPending
  | fetchUserDataFulfilled (payload : Option UserDoc)
  | fetchUserDataRejected (payload : Option String)
  deriving DecidableEq, Repr

/-- `userData?.role === 'admin'`. -/
def roleIsAdmin (userData : Option UserDoc) : Bool :=
  match userData with
  | some d => d.role == some "admin"
  | none => false

/-- `x !== undefined ? x : true`. -/
def definedOrTrue (x : Option Bool) : Bool :=
  match x with
  | some b => b
  | none => true

/-- `action.payload?.error || action.payload` for the rejected thunks with a
`RejectValue`. -/
def rejectionError (payload : Option RejectValue) : Option ErrorValue :=
  match payload with
  | none => none
  | some value =>
    match orString value.error none with
    | some text => some (.message text)
    | none => some (.rejected value)

/-- The reducer of the slice: `reducers` and `extraReducers`. -/
def authReducer (state : AuthState) : AuthAction → AuthState
  | .setUser payload =>
    { state with
      user := payload,
      isAuthenticated := payload.isSome,
      -- Keep loading true until userData is loaded
      loading := payload.isSome }
  | .setUserData none =>
    { state with
      userData := none, isAdmin := false, emailVerified := false, isVerified := false,
      isActive := false, loading := false }
  | .setUserData (some payload) =>
    { state with
      userData := some payload,
      isAdmin := payload.role == some "admin",
      emailVerified := orBool payload.emailVerified false,
      isVerified := orBool payload.isVerified false,
      isActive := definedOrTrue payload.isActive,
      loading := false }
  | .clearError => { state with error := none }
  | .resetAuth =>
    { state with
      user := none, userData := none, isAuthenticated := false, isAdmin := false,
      emailVerified := false, isVerified := false, isActive := false, error := none }
  | .setEmailVerified payload =>
    { state with
      emailVerified := payload,
      userData := state.userData.map (fun d => { d with emailVerified := some payload }) }
  | .setIsVerified payload =>
    { state with
      isVerified := payload,
      userData := state.userData.map (fun d => { d with isVerified := some payload }) }
  | .setIsActive payload =>
    { state with
      isActive := payload,
      userData := state.userData.map (fun d => { d with isActive := some payload }) }
  -- Register
  | .registerPending => { state with loading := true, error := none }
  | .registerFulfilled payload =>
    { state with
      loading := false,
      user := some payload.user,
      userData := payload.userData,
      -- After registration, user is signed out, so isAuthenticated should be false
      isAuthenticated := false,
      isAdmin := roleIsAdmin payload.userData,
      emailVerified := orBool (payload.userData.bind (fun d => d.emailVerified)) false,
      isVerified := orBool (payload.userData.bind (fun d => d.isVerified)) false,
      isActive := definedOrTrue (payload.userData.bind (fun d => d.isActive)) }
  | .registerRejected payload =>
    { state with loading := false, error := rejectionError payload }
  -- Login
  | .loginPending => { state with loading := true, error := none }
  | .loginFulfilled payload =>
    { state with
      loading := false,
      user := some payload.user,
      userData := payload.userData,
      isAuthenticated := true,
      isAdmin := roleIsAdmin payload.userData,
      emailVerified := orBool payload.emailVerified false,
      isVerified := orBool payload.isVerified false,
      isActive := definedOrTrue payload.isActive }
  | .loginRejected payload =>
    { state with loading := false, error := rejectionError payload }
  -- Google Login
  | .googleLoginPending => { state with loading := true, error := none }
  | .googleLoginFulfilled payload =>
    { state with
      loading := false,
      user := some payload.user,
      userData := payload.userData,
      isAuthenticated := true,
      isAdmin := roleIsAdmin payload.userData,
      emailVerified := orBool payload.emailVerified false,
      isVerified := orBool payload.isVerified false,
      isActive := definedOrTrue payload.isActive }
  | .googleLoginRejected payload =>
    { state with loading := false, error := rejectionError payload }
  -- Logout
  | .logoutPending => { state with loading := true }
  | .logoutFulfilled =>
    { state with
      loading := false, user := none, userData := none, isAuthenticated := false,
      isAdmin := false, emailVerified := false, isVerified := false, isActive := false }
  | .logoutRejected payload =>
    { state with loading := false, error := payload.map ErrorValue.message }
  -- Fetch User Data
  | .fetchUserDataPending => { state with loading := true }
  | .fetchUserDataFulfilled payload =>
    { state with
      loading := false,
      userData := payload,
      isAdmin := roleIsAdmin payload,
      emailVerified := orBool (payload.bind (fun d => d.emailVerified)) false,
      isVerified := orBool (payload.bind (fun d => d.isVerified)) false,
      isActive := definedOrTrue (payload.bind (fun d => d.isActive)) }
  | .fetchUserDataRejected payload =>
    { state with loading := false, error := payload.map ErrorValue.message }

/-- The auth states reachable from `initialState` by reducing actions of the slice. -/
inductive Reachable : AuthState → Prop where
  | init : Reachable initialState
  | step (s : AuthState) (a : AuthAction) : Reachable s → Reachable (authReducer s a)

/-! ## src/services/auth.js: verification sync -/

/-- `checkEmailVerification(user)`: the refreshed `user.emailVerified`, or `false` when
the reload throws. -/
def checkEmailVerification (env : Env) (user : FirebaseUser) : Eff Bool :=
  Eff.tryCatch (do
    -- Reload user to get latest verification status
    let user ← reload env user
    pure user.emailVerified)
  (fun _ => pure false)

/-- The argument of `syncEmailVerification`: a user object or a uid string. -/
inductive UserArg where
  | uid (uid : String)
  | user (user : FirebaseUser)
  deriving DecidableEq, Repr

/-- `syncEmailVerification(user)`. -/
def syncEmailVerification (env : Env) (user : UserArg) : Eff AuthResult :=
  Eff.tryCatch (do
    -- Accept either user object or uid string
    let current ← (fun w => (.ok w.currentUser, w) : Eff (Option FirebaseUser))
    let firebaseUser := match user with
      | .uid _ => current
      | .user u => some u
    match firebaseUser with
    | none => pure { AuthResult.bare false with error := some "User not authenticated" }
    | some firebaseUser =>
      let uid := match user with
        | .uid s => s
        | .user u => u.uid
      if firebaseUser.uid ≠ uid then
        pure { AuthResult.bare false with error := some "User ID mismatch" }
      else do
        -- Reload user to get latest verification status
        let firebaseUser ← reload env firebaseUser
        -- Get current Firestore data
        let userDoc ← getDoc env uid
        match userDoc with
        | none => pure { AuthResult.bare false with error := some "User document not found" }
        | some currentData =>
          -- Only update if status changed (optimize to avoid unnecessary writes)
          if some firebaseUser.emailVerified ≠ currentData.emailVerified ∨
              (firebaseUser.emailVerified = true ∧
                currentData.isVerified ≠ some firebaseUser.emailVerified) then
            updateDoc env uid
              { UserFields.blank with
                emailVerified := some (some firebaseUser.emailVerified),
                isVerified := some (some firebaseUser.emailVerified),
                updatedAt := some (some env.serverTime) }
          pure { AuthResult.bare true with
                 emailVerified := some firebaseUser.emailVerified,
                 isVerified := some firebaseUser.emailVerified })
  (fun error => pure { AuthResult.bare false with error := some error.name })

/-- `Object.assign(target, source)` on two documents: the fields the source has replace
those of the target. -/
def UserDoc.assign (target source : UserDoc) : UserDoc :=
  { uid := source.uid <|> target.uid,
    email := source.email <|> target.email,
    displayName := source.displayName <|> target.displayName,
    phoneNumber := source.phoneNumber <|> target.phoneNumber,
    photoURL := source.photoURL <|> target.photoURL,
    role := source.role <|> target.role,
    provider := source.provider <|> target.provider,
    emailVerified := source.emailVerified <|> target.emailVerified,
    isVerified := source.isVerified <|> target.isVerified,
    isActive := source.isActive <|> target.isActive,
    createdAt := source.createdAt <|> target.createdAt,
    updatedAt := source.updatedAt <|> target.updatedAt }

/-! ## src/hooks/useAuth.js: the `onAuthStateChange` handler -/

/-- Everything the handler of `useAuth` acts on: the provider and the document store, the
auth slice with the actions dispatched to it (oldest first, each with the value
`isMounted` had when it was dispatched), `localStorage`, the toasts shown, the
navigations made, the flag `isMounted` of the effect and the number of `await`s the run
has been through. -/
structure App where
  world : World
  auth : AuthState
  dispatched : List (AuthAction × Bool)
  storage : LocalStorage
  toasts : List String
  navigations : List String
  isMounted : Bool
  awaits : Nat

/-- A computation of the handler: it acts on `App` and returns a value or throws. -/
def Handler (α : Type) : Type := App → Except JsError α × App

namespace Handler

/-- `return a`. -/
def ret {α : Type} (a : α) : Handler α := fun app => (.ok a, app)

/-- Sequencing of two steps: a throw in the first skips the second. -/
def andThen {α β : Type} (m : Handler α) (f : α → Handler β) : Handler β := fun app =>
  match m app with
  | (.ok a, app') => f a app'
  | (.error e, app') => (.error e, app')

/-- The statement `try { body } catch (error) { handler }`. -/
def tryCatch {α : Type} (body : Handler α) (handler : JsError → Handler α) : Handler α :=
  fun app =>
    match body app with
    | (.ok a, app') => (.ok a, app')
    | (.error e, app') => handler e app'

instance : Monad Handler where
  pure := ret
  bind := andThen

end Handler

/-- `await call`: the call acts on the provider and the store; while the handler is
suspended the effect cleanup may run and set `isMounted = false`. `teardownAt = some n`
says that the cleanup runs during the `n`-th `await` of the run (counted from 0),
`none` that it does not run. -/
def await {α : Type} (teardownAt : Option Nat) (call : Eff α) : Handler α := fun app =>
  let (result, world) := call app.world
  (result,
    { app with
      world := world,
      isMounted := if teardownAt = some app.awaits then false else app.isMounted,
      awaits := app.awaits + 1 })

/-- `dispatch(action)`: the slice reduces the action. -/
def dispatch (action : AuthAction) : Handler Unit := fun app =>
  (.ok (), { app with auth := authReducer app.auth action,
                      dispatched := app.dispatched ++ [(action, app.isMounted)] })

/-- `toast.error(message)`. -/
def toastError (message : String) : Handler Unit := fun app =>
  (.ok (), { app with toasts := app.toasts ++ [message] })

/-- `navigate(path)`. -/
def navigate (path : String) : Handler Unit := fun app =>
  (.ok (), { app with navigations := app.navigations ++ [path] })

/-- The call `clearAllRateLimits()` made by the handler, on the app's `localStorage`. -/
def clearAllRateLimitsCall : Handler Unit := fun app =>
  match clearAllRateLimits app.storage with
  | .ok storage => (.ok (), { app with storage := storage })
  | .error e => (.error e, app)

/-- `if (!isMounted) return;` followed by `rest`. -/
def whenMounted (rest : Handler Unit) : Handler Unit := fun app =>
  if app.isMounted then rest app else (.ok (), app)

/-- The user data dispatched when no profile is found:
`{ uid, email, displayName, role: 'user', emailVerified, isVerified: emailVerified,
isActive: true }`; the `catch` block dispatches it with `emailVerified = false`. -/
def defaultUserData (firebaseUser : FirebaseUser) (emailVerified : Bool) : UserDoc :=
  { UserDoc.blank with
    uid := some firebaseUser.uid, email := firebaseUser.email,
    displayName := orString firebaseUser.displayName (some ""),
    role := some "user",
    emailVerified := some emailVerified, isVerified := some emailVerified,
    isActive := some true }

/-- The part of the handler that syncs the verification status when the provider's flag
differs from the stored one and then merges the re-fetched profile (lines 47 to 57); it
returns `userData` as it is afterwards. -/
def syncIfNeeded (teardownAt : Option Nat) (env : Env) (firebaseUser : FirebaseUser)
    (userData : UserDoc) (emailVerified : Bool) : Handler UserDoc := do
  -- Sync email verification status (only if needed)
  let needsSync := some emailVerified ≠ userData.emailVerified
  if needsSync then do
    let _ ← await teardownAt (syncEmailVerification env (.user firebaseUser))
    -- Get updated data after sync (only if sync was needed)
    let updatedResult ← await teardownAt (getUserData env firebaseUser.uid)
    match (if updatedResult.success then updatedResult.data else none) with
    | some updated => pure (userData.assign updated)
    | none => pure userData
  else pure userData

/-- The part of the handler after the profile has been fetched and synced: the status
flags are extracted and the session is ended or the user data dispatched
(lines 61 to 102). -/
def reconcileFlags (teardownAt : Option Nat) (env : Env) (userData : UserDoc)
    (emailVerified : Bool) : Handler Unit := do
  -- Extract all status flags
  let finalEmailVerified := emailVerified
  let finalIsVerified := userData.isVerified.getD emailVerified
  let finalIsActive := definedOrTrue userData.isActive
  -- Check if account is still active (session expiration check)
  if finalIsActive = false then
    -- Account was disabled during session
    let _ ← await teardownAt (logoutUser env)
    dispatch .resetAuth
    clearAllRateLimitsCall
    toastError "Your account has been disabled. Please contact support."
    whenMounted (navigate "/login")
  -- Check if email is still verified (session expiration check)
  else if !finalEmailVerified || !finalIsVerified then
    -- Email verification was revoked or account unverified
    let _ ← await teardownAt (logoutUser env)
    dispatch .resetAuth
    clearAllRateLimitsCall
    toastError "Please verify your email to continue."
    whenMounted (navigate "/login")
  else
    -- Ensure role is included and properly set
    dispatch (.setUserData (some
      { userData with
        role := orString userData.role (some "user"),
        emailVerified := some finalEmailVerified,
        isVerified := some finalIsVerified,
        isActive := some finalIsActive }))

/-- The callback passed to `onAuthStateChange` by the effect of `useAuth`, run with the
user the provider reports (`none` for `null`). -/
def authStateChanged (teardownAt : Option Nat) (env : Env)
    (firebaseUser : Option FirebaseUser) : Handler Unit :=
  whenMounted (
    match firebaseUser with
    | some firebaseUser =>
      Handler.tryCatch (do
        -- Set loading state
        dispatch (.setUser (some firebaseUser))
        -- Fetch user data from Firestore (single call)
        let result ← await teardownAt (getUserData env firebaseUser.uid)
        whenMounted (
          match (if result.success then result.data else none) with
          | some userData => do
            -- Check email verification status
            let emailVerified ← await teardownAt (checkEmailVerification env firebaseUser)
            whenMounted (do
              let userData ← syncIfNeeded teardownAt env firebaseUser userData emailVerified
              whenMounted (reconcileFlags teardownAt env userData emailVerified))
          | none => do
            -- If user data not found, still set user but with default role
            let emailVerified ← await teardownAt (checkEmailVerification env firebaseUser)
            whenMounted
              (dispatch (.setUserData (some (defaultUserData firebaseUser emailVerified))))))
      (fun _ =>
        whenMounted
          -- Set default user data on error
          (dispatch (.setUserData (some (defaultUserData firebaseUser false)))))
    | none => do
      dispatch (.setUser none)
      dispatch (.setUserData none))

/-- An app in which the effect is mounted and nothing has been shown or dispatched yet. -/
def sampleApp (world : World) (auth : AuthState) (storage : LocalStorage) : App :=
  { world := world, auth := auth, dispatched := [], storage := storage, toasts := [],
    navigations := [], isMounted := true, awaits := 0 }

/-! ## Properties of runs against the store -/

/-- Whether a call writes to the document store. -/
def Call.isWrite : Call → Bool
  | .setDoc _ _ => true
  | .updateDoc _ _ => true
  | _ => false

/-- The calls made between the state `w` and the later state `w'`. -/
def callsSince (w w' : World) : List Call := w'.log.drop w.log.length

/-- The store writes made between the state `w` and the later state `w'`. -/
def writesSince (w w' : World) : List Call := (callsSince w w').filter Call.isWrite

/-- The uid a `syncEmailVerification` argument stands for. -/
def UserArg.toUid : UserArg → String
  | .uid s => s
  | .user u => u.uid

/-- A registration input with a display name, so that `updateProfile` is called. -/
def sampleInput : RegisterInput :=
  { displayName := some "Ann", phoneNumber := none, photoURL := none }

/-- An error a provider or store call may throw. -/
def networkError : JsError :=
  { name := "FirebaseError", code := some "auth/network-request-failed" }

/-! ## Properties of login runs -/

/-- The failure codes of the login gates. -/
def isGateCode (code : Option String) : Prop :=
  code = some "auth/account-disabled" ∨ code = some "auth/email-not-verified" ∨
    code = some "auth/account-not-verified"

/-- The sign-out succeeded, no provider session is left in `w'`, and the calls made
since `w` end with the sign-out. -/
def SignedOutAfter (env : Env) (w w' : World) : Prop :=
  env.signOut = none ∧ w'.currentUser = none ∧
    ∃ calls, w'.log = w.log ++ calls ∧ calls.getLast? = some Call.signOut

/-! ## Sample inputs -/

/-- An account `a@b.com` whose email the provider has not verified. -/
def sampleUser : FirebaseUser :=
  { uid := "u1", email := some "a@b.com", displayName := some "Ann", photoURL := none,
    phoneNumber := none, emailVerified := false }

/-- An environment in which no call throws; sign-in and sign-up yield `sampleUser`, and
the reload reports the email as verified exactly when `verified` is true. -/
def calmEnv (verified : Bool) : Env :=
  { createUser := fun _ _ => .ok sampleUser,
    signIn := fun _ _ => .ok sampleUser,
    signInPopup := .ok sampleUser,
    reload := .ok verified,
    updateProfile := none, sendEmailVerification := none, getDoc := fun _ => none,
    setDoc := none, updateDoc := none, signOut := none, serverTime := 1000 }

/-- A profile document of `sampleUser` with the given role and flags. -/
def sampleProfile (role : String) (emailVerified isVerified isActive : Bool) : UserDoc :=
  { UserDoc.blank with
    uid := some "u1", email := some "a@b.com", displayName := some "Ann",
    role := some role, provider := some "password",
    emailVerified := some emailVerified, isVerified := some isVerified,
    isActive := some isActive }

/-- A world with no provider session, no call made yet and the given documents. -/
def sampleWorld (users : List (String × UserDoc)) : World :=
  { currentUser := none, users := users, reads := 0, log := [] }

/-- The account `a@b.com` with its email verified by the provider. -/
def verifiedUser : FirebaseUser := { sampleUser with emailVerified := true }

/-- A profile whose sync is pending: `isVerified` and `isActive` are true, the
stored `emailVerified` is still false. -/
def staleProfile : UserDoc := sampleProfile "user" false true true

/-- An environment in which the sign-in, the reload (which reports
the email as verified) and every read succeed; the `updateDoc` write throws. -/
def syncWriteFailsEnv : Env :=
  { calmEnv true with
    updateDoc := some { name := "FirebaseError", code := some "unavailable" } }

/-! ## Properties of handler runs -/

/-- A mounted app in which `user` has a provider session and the store holds `users`;
the auth slice is in its initial state and `localStorage` is empty. -/
def signedInApp (user : FirebaseUser) (users : List (String × UserDoc)) : App :=
  sampleApp { sampleWorld users with currentUser := some user } initialState
    LocalStorage.empty

/-- The field set of an `updateDoc` call gives no field other than `emailVerified`,
`isVerified` and `updatedAt`. -/
def UserFields.OnlyVerification (fields : UserFields) : Prop :=
  fields.uid = none ∧ fields.email = none ∧ fields.displayName = none ∧
    fields.phoneNumber = none ∧ fields.photoURL = none ∧ fields.role = none ∧
    fields.provider = none ∧ fields.isActive = none ∧ fields.createdAt = none

/-- The actions dispatched between `app` and the later `app'` were each dispatched while
`isMounted` was true, or are `resetAuth`. -/
def DispatchesGuarded (app app' : App) : Prop :=
  ∃ added, app'.dispatched = app.dispatched ++ added ∧
    ∀ x ∈ added, x.2 = false → x.1 = AuthAction.resetAuth

/-- A storage that holds a rate-limit record of the action `login` and an item of another
feature. -/
def lockedOutStorage : LocalStorage :=
  { LocalStorage.empty with
    items := [("rate_limit_attempts_login_a@b.com",
                .record { attempts := 5, windowStart := 0, windowEnd := some 900000,
                          lockUntil := some 1800000 }),
              ("theme", .malformed "dark")] }

/-! ## Properties of the store writes -/

/-- Between `w` and the later `w'` one call was made, not a store write, and the stored
profiles are the same. -/
def ReadOnlyStep (w w' : World) : Prop :=
  w'.users = w.users ∧ ∃ c, w'.log = w.log ++ [c] ∧ c.isWrite = false

/-- Every profile stored in `w` is still stored in `w'`, with the same role. -/
def RolesKept (w w' : World) : Prop :=
  ∀ uid p, w.users.lookup uid = some p →
    ∃ p', w'.users.lookup uid = some p' ∧ p'.role = p.role

/-- Every profile stored in `w` with a role, a non-empty string, is still stored in `w'`
with that role. -/
def NamedRolesKept (w w' : World) : Prop :=
  ∀ uid p r, w.users.lookup uid = some p → p.role = some r → r ≠ "" →
    ∃ p', w'.users.lookup uid = some p' ∧ p'.role = some r

/-- The call is an `updateDoc` that gives no field other than `emailVerified`,
`isVerified` and `updatedAt`. -/
def Call.IsVerificationUpdate (c : Call) : Prop :=
  ∃ uid fields, c = .updateDoc uid fields ∧ fields.OnlyVerification

/-- If the call is an `updateDoc`, it gives no field other than `emailVerified`,
`isVerified` and `updatedAt`. -/
def Call.UpdatesOnlyVerification (c : Call) : Prop :=
  ∀ uid fields, c = .updateDoc uid fields → fields.OnlyVerification

/-- Every store write made between `w` and the later `w'` satisfies `P`. -/
def WritesAre (P : Call → Prop) (w w' : World) : Prop :=
  ∃ calls, w'.log = w.log ++ calls ∧ ∀ c ∈ calls, c.isWrite = true → P c

/-- A run that keeps every role and whose store writes satisfy `P`. -/
def RoutineSync (P : Call → Prop) (w w' : World) : Prop :=
  RolesKept w w' ∧ WritesAre P w w'

/-! ## src/constants/routes.js -/

/-- `ROUTES.HOME`. -/
def ROUTES.HOME : String := "/"

/-- `ROUTES.LOGIN`. -/
def ROUTES.LOGIN : String := "/login"

/-- `ROUTES.ADMIN_DASHBOARD`. -/
def ROUTES.ADMIN_DASHBOARD : String := "/admin/dashboard"

/-! ## src/components/common/ProtectedRoute.jsx -/

/-- What `ProtectedRoute` returns: the loading view, `<Navigate to={path} replace />`,
or its children. -/
inductive Rendered where
  | loadingView
  | navigateTo (path : String)
  | children
  deriving DecidableEq, Repr

/-- `ProtectedRoute({ children, requireAdmin = false })`, rendered on the auth slice
`auth`. -/
def ProtectedRoute (auth : AuthState) (requireAdmin : Bool) : Rendered :=
  -- Show loading while auth state is being determined
  if auth.loading then .loadingView
  else if !auth.isAuthenticated then .navigateTo ROUTES.LOGIN
  else
    -- Check admin status from userData.role as well
    let userIsAdmin := auth.isAdmin || roleIsAdmin auth.userData
    if requireAdmin && !userIsAdmin then .navigateTo ROUTES.HOME
    else .children

/-! ## src/components/common/AuthRedirect.jsx -/

/-- The state of one `AuthRedirect` instance: the ref `hasRedirected` and the paths
`navigate` has been called with, oldest first. -/
structure AuthRedirect where
  hasRedirected : Bool
  navigations : List String
  deriving DecidableEq, Repr

/-- One run of the effect of `AuthRedirect`, with the auth slice and the
`location.pathname` of the render that triggered it. -/
def AuthRedirect.effect (auth : AuthState) (pathname : String) (ref : AuthRedirect) :
    AuthRedirect :=
  -- Reset redirect flag when auth state changes
  if auth.loading then { ref with hasRedirected := false }
  -- Don't redirect if not authenticated
  else if !auth.isAuthenticated then { ref with hasRedirected := false }
  -- Prevent multiple redirects
  else if ref.hasRedirected then ref
  else
    let userIsAdmin := auth.isAdmin || roleIsAdmin auth.userData
    -- If user is admin and on home page, redirect to admin dashboard
    if userIsAdmin && pathname == ROUTES.HOME then
      { hasRedirected := true, navigations := ref.navigations ++ [ROUTES.ADMIN_DASHBOARD] }
    -- If user is NOT admin and trying to access admin routes, redirect to home
    else if !userIsAdmin && startsWith pathname "/admin" then
      { hasRedirected := true, navigations := ref.navigations ++ [ROUTES.HOME] }
    else ref

/-- The effect runs of a sequence of renders, each with its auth slice and pathname. -/
def AuthRedirect.effects : List (AuthState × String) → AuthRedirect → AuthRedirect
  | [], ref => ref
  | (auth, pathname) :: rest, ref =>
    AuthRedirect.effects rest (AuthRedirect.effect auth pathname ref)

/-! ## src/utils/validators.js -/

/-- The characters the `.` of a regular expression does not match. -/
def isLineTerminator (c : Char) : Bool :=
  c == '\n' || c == '\r' || c == Char.ofNat 0x2028 || c == Char.ofNat 0x2029

/-- The lookahead `(?=.*[class])` at the start of `chars`: some character of the class
is reached over characters that `.` matches. -/
def lookahead (charClass : Char → Bool) : List Char → Bool
  | [] => false
  | c :: rest => charClass c || (!isLineTerminator c && lookahead charClass rest)

/-- The character class `[a-zA-Z\d@$!%*?&]`. -/
def passwordChar (c : Char) : Bool :=
  c.isLower || c.isUpper || c.isDigit ||
    c == '@' || c == '$' || c == '!' || c == '%' || c == '*' || c == '?' || c == '&'

/-- `validatePassword(password)`: the test of
`/^(?=.*[a-z])(?=.*[A-Z])(?=.*\d)[a-zA-Z\d@$!%*?&]{8,}$/`. -/
def validatePassword (password : String) : Bool :=
  lookahead Char.isLower password.data && lookahead Char.isUpper password.data &&
    lookahead Char.isDigit password.data &&
    (password.data.all passwordChar && decide (8 ≤ password.data.length))

/-- `parseInt(c, 10)` for a digit character `c`. -/
def parseDigit (c : Char) : Nat := c.toNat - '0'.toNat

/-- The `for` loop of `validateCreditCard` when `i + 1` is the first argument: the body
runs for `i`, then for `i - 1`, down to `0`. -/
def validateCreditCard.loop (cleaned : List Char) : Nat → Nat → Bool → Nat
  | 0, sum, _ => sum
  | i + 1, sum, isEven =>
    let digit := parseDigit (cleaned.getD i '0')
    let digit := if isEven then (if digit * 2 > 9 then digit * 2 - 9 else digit * 2)
                 else digit
    validateCreditCard.loop cleaned i (sum + digit) (!isEven)

/-- `validateCreditCard(cardNumber)`. -/
def validateCreditCard (cardNumber : String) : Bool :=
  let cleaned := cardNumber.data.filter Char.isDigit
  if cleaned.length < 13 || cleaned.length > 19 then false
  else validateCreditCard.loop cleaned cleaned.length 0 false % 10 == 0

/-! ## The validators as their descriptions have them -/

namespace Spec

/-- The digits of a text, left to right, every other character removed. -/
def digitsOf (text : String) : List Nat :=
  (text.data.filter Char.isDigit).map (fun c => c.toNat - 48)

/-- The contribution of the digit at `position`, counted from the right starting at 0:
every second digit is doubled, and 9 is subtracted from a doubled value above 9. -/
def luhnTerm (position digit : Nat) : Nat :=
  if position % 2 = 1 then (if 2 * digit > 9 then 2 * digit - 9 else 2 * digit)
  else digit

/-- The Luhn sum of digits given left to right. -/
def luhnSum (digits : List Nat) : Nat :=
  (digits.reverse.enum.map (fun p => luhnTerm p.1 p.2)).sum

/-- The Luhn check of the description: between 13 and 19 digits and a Luhn sum
divisible by 10. -/
def luhnValid (text : String) : Prop :=
  13 ≤ (digitsOf text).length ∧ (digitsOf text).length ≤ 19 ∧
    luhnSum (digitsOf text) % 10 = 0

/-- The passwords the comment of `validatePassword` describes: at least 8 characters,
1 uppercase, 1 lowercase, 1 number. -/
def strongPassword (password : String) : Prop :=
  8 ≤ password.length ∧ (∃ c ∈ password.data, c.isUpper = true) ∧
    (∃ c ∈ password.data, c.isLower = true) ∧ (∃ c ∈ password.data, c.isDigit = true)

end Spec

/-! ## Storages the rate limiter can reach -/

/-- The storages reachable from the empty one through `checkRateLimit` and
`recordFailedAttempt` calls that return, for any actions and identifiers, under a clock
that never goes back; the first index is the clock value of the last call. -/
inductive ReachableStorage : Nat → LocalStorage → Prop where
  | empty (now : Nat) : ReachableStorage now LocalStorage.empty
  | check (now next : Nat) (action identifier : String) (ls ls' : LocalStorage)
      (status : RateLimitStatus) :
      ReachableStorage now ls → now ≤ next →
      checkRateLimit next action identifier ls = .ok (status, ls') →
      ReachableStorage next ls'
  | record (now next : Nat) (action identifier : String) (ls ls' : LocalStorage) :
      ReachableStorage now ls → now ≤ next →
      recordFailedAttempt next action identifier ls = .ok ls' →
      ReachableStorage next ls'

/-! ## Sample inputs and properties of the guards, the results and the storages -/

/-- The auth slice of a signed-in user whose profile has the given role, fully loaded. -/
def loadedAuth (role : String) : AuthState :=
  authReducer (authReducer initialState (.setUser (some verifiedUser)))
    (.setUserData (some (sampleProfile role true true true)))

/-- An `AuthRedirect` instance that has just been mounted. -/
def AuthRedirect.mounted : AuthRedirect := { hasRedirected := false, navigations := [] }

/-- The result of an auth service is structured: when it reports a failure it carries an
error message, and its code, if it has one, is one of the gate codes. -/
def AuthResult.Structured (res : AuthResult) : Prop :=
  res.success = false → res.error.isSome = true ∧ (res.code = none ∨ isGateCode res.code)

/-- An error of the identity provider: wrong password. -/
def wrongPassword : JsError := { name := "FirebaseError", code := some "auth/wrong-password" }

/-- An error of the document store: the backend cannot be reached. -/
def storeUnavailable : JsError := { name := "FirebaseError", code := some "unavailable" }

/-- What holds of every record the rate limiter has written by the clock value `now`:
its window started no later than `now` and has the configured length, and for an action
whose lockout is at least as long as its window a lockout ends no earlier than the
window. -/
def RecordSound (now : Nat) (config : RateLimitConfig) (data : RateLimitRecord) : Prop :=
  data.windowStart ≤ now ∧ data.windowEnd = some (data.windowStart + config.windowMs) ∧
    (config.windowMs ≤ config.lockoutMs →
      ∀ lockUntil, data.lockUntil = some lockUntil →
        data.windowStart + config.windowMs ≤ lockUntil)

/-- The storage works and, under the key of every configured action and identifier,
holds nothing or a sound record. -/
def StorageSound (now : Nat) (ls : LocalStorage) : Prop :=
  ls.Working ∧
    ∀ action identifier config stored, RATE_LIMITS action = .entry config →
      ls.lookup (storageKey action identifier) = some stored →
      ∃ data, stored = .record data ∧ RecordSound now config data

/-- The storage after three failed `register` attempts of `a@b.com` at 0, 1000 and 2000
and a check at 3000, which arms the lockout. -/
def armedRegisterStorage : LocalStorage :=
  LocalStorage.empty.put (storageKey "register" "a@b.com")
    (.record { attempts := 3, windowStart := 0, windowEnd := some 3600000,
               lockUntil := some 3603000 })

/-- An environment in which the first read of the document store throws and every other
call succeeds; the reload reports the email as verified. -/
def firstReadFailsEnv : Env :=
  { calmEnv true with getDoc := fun n => if n = 0 then some storeUnavailable else none }

/-- A `localStorage` every access to which throws. -/
def deniedStorage : LocalStorage :=
  { items := [], accessDenied := true, quotaExceeded := false }

/-- A mounted app in which `sampleUser` has a provider session and a profile that is
disabled, with both verification flags false. -/
def disabledProfileApp (storage : LocalStorage) : App :=
  sampleApp { sampleWorld [("u1", sampleProfile "user" false false false)] with
              currentUser := some sampleUser } initialState storage

/-! ## Lemmas on the storage -/

namespace LocalStorage

theorem getItem_of_working {ls : LocalStorage} (h : ls.Working) (key : String) :
    ls.getItem key = .ok (ls.lookup key) := by
  simp [getItem, h.1]

theorem setItem_of_working {ls : LocalStorage} (h : ls.Working) (key : String)
    (value : StoredText) : ls.setItem key value = .ok (ls.put key value) := by
  simp [setItem, h.1, h.2]

theorem removeItem_of_working {ls : LocalStorage} (h : ls.Working) (key : String) :
    ls.removeItem key = .ok (ls.erase key) := by
  simp [removeItem, h.1]

theorem working_put {ls : LocalStorage} (h : ls.Working) (key : String) (value : StoredText) :
    (ls.put key value).Working := h

theorem working_erase {ls : LocalStorage} (h : ls.Working) (key : String) :
    (ls.erase key).Working := h

theorem working_empty : LocalStorage.empty.Working := ⟨rfl, rfl⟩

theorem lookup_empty (key : String) : LocalStorage.empty.lookup key = none := rfl

theorem lookup_put_self (ls : LocalStorage) (key : String) (value : StoredText) :
    (ls.put key value).lookup key = some value := by
  simp [lookup, put, List.lookup]

theorem lookup_filter_self (items : List (String × StoredText)) (key : String) :
    (items.filter (fun p => p.1 != key)).lookup key = none := by
  induction items with
  | nil => rfl
  | cons p rest ih =>
    obtain ⟨k, v⟩ := p
    by_cases h : k = key
    · have h1 : ((k, v).1 != key) = false := by simp [h]
      simp only [List.filter, h1]
      exact ih
    · have h1 : ((k, v).1 != key) = true := by simp [h]
      have h2 : (key == k) = false := by
        simpa using fun e : key = k => h e.symm
      simp only [List.filter, h1, List.lookup, h2]
      exact ih

theorem lookup_erase_self (ls : LocalStorage) (key : String) :
    (ls.erase key).lookup key = none := by
  simp [lookup, erase, lookup_filter_self]

end LocalStorage

/-! ## Lemmas on the rate limiter: one per branch of the source -/

section RateLimiterBranches

variable {now : Nat} {action identifier : String} {ls : LocalStorage}
  {config : RateLimitConfig} {data : RateLimitRecord}

theorem recordFailedAttempt_absent (hc : RATE_LIMITS action = .entry config) (hw : ls.Working)
    (hl : ls.lookup (storageKey action identifier) = none) :
    recordFailedAttempt now action identifier ls
      = .ok (ls.put (storageKey action identifier)
          (.record (freshRecord now (.entry config)))) := by
  simp [recordFailedAttempt, hc, LocalStorage.getItem_of_working hw, hl,
    LocalStorage.setItem_of_working hw, jsonStringify, bind, Except.bind]

theorem recordFailedAttempt_expired (hc : RATE_LIMITS action = .entry config) (hw : ls.Working)
    (hl : ls.lookup (storageKey action identifier) = some (.record data))
    (hx : toNumber data.windowEnd < now) :
    recordFailedAttempt now action identifier ls
      = .ok (ls.put (storageKey action identifier)
          (.record (freshRecord now (.entry config)))) := by
  simp [recordFailedAttempt, hc, LocalStorage.getItem_of_working hw, hl,
    LocalStorage.setItem_of_working hw, jsonStringify, jsonParse, bind, Except.bind, hx]

theorem recordFailedAttempt_increment (hc : RATE_LIMITS action = .entry config)
    (hw : ls.Working)
    (hl : ls.lookup (storageKey action identifier) = some (.record data))
    (hx : now ≤ toNumber data.windowEnd) :
    recordFailedAttempt now action identifier ls
      = .ok (ls.put (storageKey action identifier)
          (.record { data with attempts := data.attempts + 1 })) := by
  have hx2 : ¬ toNumber data.windowEnd < now := Nat.not_lt.mpr hx
  simp [recordFailedAttempt, hc, LocalStorage.getItem_of_working hw, hl,
    LocalStorage.setItem_of_working hw, jsonStringify, jsonParse, bind, Except.bind, hx2]

theorem checkRateLimit_absent (hw : ls.accessDenied = false)
    (hl : ls.lookup (storageKey action identifier) = none) :
    checkRateLimit now action identifier ls = .ok (statusAllowed, ls) := by
  unfold checkRateLimit
  cases RATE_LIMITS action <;>
    simp [LocalStorage.getItem, hw, hl, bind, Except.bind, pure, Except.pure]

theorem checkRateLimit_locked (hc : RATE_LIMITS action = .entry config)
    (hw : ls.accessDenied = false)
    (hl : ls.lookup (storageKey action identifier) = some (.record data))
    {l : Nat} (hlock : data.lockUntil = some l) (hfut : now < l) :
    checkRateLimit now action identifier ls
      = .ok (statusLocked (ceilMinutes (l - now)), ls) := by
  have h0 : l ≠ 0 := by omega
  simp [checkRateLimit, hc, LocalStorage.getItem, hw, hl, jsonParse, bind, Except.bind,
    pure, Except.pure, lockedAt, hlock, hfut, h0]

theorem checkRateLimit_expired (hc : RATE_LIMITS action = .entry config) (hw : ls.Working)
    (hl : ls.lookup (storageKey action identifier) = some (.record data))
    (hlock : lockedAt now data = false) (hx : toNumber data.windowEnd < now) :
    checkRateLimit now action identifier ls
      = .ok (statusAllowed, ls.erase (storageKey action identifier)) := by
  simp [checkRateLimit, hc, LocalStorage.getItem_of_working hw, hl, jsonParse, bind,
    Except.bind, pure, Except.pure, hlock, hx, LocalStorage.removeItem_of_working hw]

theorem checkRateLimit_rearm (hc : RATE_LIMITS action = .entry config) (hw : ls.Working)
    (hl : ls.lookup (storageKey action identifier) = some (.record data))
    (hlock : lockedAt now data = false) (hx : now ≤ toNumber data.windowEnd)
    (hmax : config.maxAttempts ≤ data.attempts) :
    checkRateLimit now action identifier ls
      = .ok (statusLocked (ceilMinutes (now + config.lockoutMs - now)),
          ls.put (storageKey action identifier)
            (.record { data with lockUntil := some (now + config.lockoutMs) })) := by
  have hx2 : ¬ toNumber data.windowEnd < now := Nat.not_lt.mpr hx
  simp [checkRateLimit, hc, LocalStorage.getItem_of_working hw, hl, jsonParse, bind,
    Except.bind, pure, Except.pure, hlock, hx2, hmax, LocalStorage.setItem_of_working hw,
    jsonStringify]

theorem checkRateLimit_below (hc : RATE_LIMITS action = .entry config)
    (hw : ls.accessDenied = false)
    (hl : ls.lookup (storageKey action identifier) = some (.record data))
    (hlock : lockedAt now data = false) (hx : now ≤ toNumber data.windowEnd)
    (hmax : data.attempts < config.maxAttempts) :
    checkRateLimit now action identifier ls
      = .ok ({ statusAllowed with
                attemptsRemaining := some (.nat (config.maxAttempts - data.attempts)) }, ls) := by
  have hx2 : ¬ toNumber data.windowEnd < now := Nat.not_lt.mpr hx
  have hmax2 : ¬ config.maxAttempts ≤ data.attempts := Nat.not_le.mpr hmax
  simp [checkRateLimit, hc, LocalStorage.getItem, hw, hl, jsonParse, bind,
    Except.bind, pure, Except.pure, hlock, hx2, hmax2]

theorem lockedAt_of_none (h : data.lockUntil = none) : lockedAt now data = false := by
  simp [lockedAt, h]

theorem lockedAt_eq_true_iff :
    lockedAt now data = true ↔ ∃ l, data.lockUntil = some l ∧ now < l := by
  unfold lockedAt
  cases h : data.lockUntil with
  | none => simp
  | some l =>
    simp only [Bool.and_eq_true, bne_iff_ne, ne_eq, decide_eq_true_eq, Option.some.injEq,
      exists_eq_left']
    omega

theorem recordFailedAttempt_emptyText (hc : RATE_LIMITS action = .entry config)
    (hw : ls.Working) (hl : ls.lookup (storageKey action identifier) = some .empty) :
    recordFailedAttempt now action identifier ls
      = .ok (ls.put (storageKey action identifier)
          (.record (freshRecord now (.entry config)))) := by
  simp [recordFailedAttempt, hc, LocalStorage.getItem_of_working hw, hl,
    LocalStorage.setItem_of_working hw, jsonStringify, bind, Except.bind]

theorem checkRateLimit_emptyText (hw : ls.accessDenied = false)
    (hl : ls.lookup (storageKey action identifier) = some .empty) :
    checkRateLimit now action identifier ls = .ok (statusAllowed, ls) := by
  unfold checkRateLimit
  cases RATE_LIMITS action <;>
    simp [LocalStorage.getItem, hw, hl, bind, Except.bind, pure, Except.pure]

theorem checkRateLimit_unconfigured (hc : RATE_LIMITS action = .undefined) :
    checkRateLimit now action identifier ls = .ok (statusAllowed, ls) := by
  simp [checkRateLimit, hc]

theorem recordFailedAttempt_unconfigured (hc : RATE_LIMITS action = .undefined) :
    recordFailedAttempt now action identifier ls = .ok ls := by
  simp [recordFailedAttempt, hc]

theorem checkRateLimit_denied (hc : RATE_LIMITS action = .entry config)
    (hd : ls.accessDenied = true) :
    checkRateLimit now action identifier ls = .error securityError := by
  simp [checkRateLimit, hc, LocalStorage.getItem, hd, bind, Except.bind]

theorem recordFailedAttempt_denied (hc : RATE_LIMITS action = .entry config)
    (hd : ls.accessDenied = true) :
    recordFailedAttempt now action identifier ls = .error securityError := by
  simp [recordFailedAttempt, hc, LocalStorage.getItem, hd, bind, Except.bind]

theorem checkRateLimit_malformed (hc : RATE_LIMITS action = .entry config)
    (hw : ls.accessDenied = false) {text : String}
    (hl : ls.lookup (storageKey action identifier) = some (.malformed text)) :
    checkRateLimit now action identifier ls = .error syntaxError := by
  simp [checkRateLimit, hc, LocalStorage.getItem, hw, hl, jsonParse, bind, Except.bind]

theorem recordFailedAttempt_malformed (hc : RATE_LIMITS action = .entry config)
    (hw : ls.accessDenied = false) {text : String}
    (hl : ls.lookup (storageKey action identifier) = some (.malformed text)) :
    recordFailedAttempt now action identifier ls = .error syntaxError := by
  simp [recordFailedAttempt, hc, LocalStorage.getItem, hw, hl, jsonParse, bind, Except.bind]

theorem checkRateLimit_denied_of_defined (hc : RATE_LIMITS action ≠ .undefined)
    (hd : ls.accessDenied = true) :
    checkRateLimit now action identifier ls = .error securityError := by
  unfold checkRateLimit
  cases h : RATE_LIMITS action with
  | undefined => exact absurd h hc
  | entry c => simp [LocalStorage.getItem, hd, bind, Except.bind]
  | inherited => simp [LocalStorage.getItem, hd, bind, Except.bind]

theorem recordFailedAttempt_denied_of_defined (hc : RATE_LIMITS action ≠ .undefined)
    (hd : ls.accessDenied = true) :
    recordFailedAttempt now action identifier ls = .error securityError := by
  unfold recordFailedAttempt
  cases h : RATE_LIMITS action with
  | undefined => exact absurd h hc
  | entry c => simp [LocalStorage.getItem, hd, bind, Except.bind]
  | inherited => simp [LocalStorage.getItem, hd, bind, Except.bind]

theorem checkRateLimit_malformed_of_defined (hc : RATE_LIMITS action ≠ .undefined)
    (hw : ls.accessDenied = false) {text : String}
    (hl : ls.lookup (storageKey action identifier) = some (.malformed text)) :
    checkRateLimit now action identifier ls = .error syntaxError := by
  unfold checkRateLimit
  cases h : RATE_LIMITS action with
  | undefined => exact absurd h hc
  | entry c => simp [LocalStorage.getItem, hw, hl, jsonParse, bind, Except.bind]
  | inherited => simp [LocalStorage.getItem, hw, hl, jsonParse, bind, Except.bind]

theorem recordFailedAttempt_malformed_of_defined (hc : RATE_LIMITS action ≠ .undefined)
    (hw : ls.accessDenied = false) {text : String}
    (hl : ls.lookup (storageKey action identifier) = some (.malformed text)) :
    recordFailedAttempt now action identifier ls = .error syntaxError := by
  unfold recordFailedAttempt
  cases h : RATE_LIMITS action with
  | undefined => exact absurd h hc
  | entry c => simp [LocalStorage.getItem, hw, hl, jsonParse, bind, Except.bind]
  | inherited => simp [LocalStorage.getItem, hw, hl, jsonParse, bind, Except.bind]

/-- Under a property name inherited from `Object.prototype` a stored record that is not
locked and whose window has not ended is answered with `attemptsRemaining: NaN`. -/
theorem checkRateLimit_inherited_open (hc : RATE_LIMITS action = .inherited)
    (hw : ls.accessDenied = false)
    (hl : ls.lookup (storageKey action identifier) = some (.record data))
    (hlock : lockedAt now data = false) (hx : now ≤ toNumber data.windowEnd) :
    checkRateLimit now action identifier ls
      = .ok ({ statusAllowed with attemptsRemaining := some .nan }, ls) := by
  have hx2 : ¬ toNumber data.windowEnd < now := Nat.not_lt.mpr hx
  simp [checkRateLimit, hc, LocalStorage.getItem, hw, hl, jsonParse, bind,
    Except.bind, pure, Except.pure, hlock, hx2]

/-- Whatever `RATE_LIMITS[action]` is, a check of a record with a lockout in the future
answers "locked". -/
theorem checkRateLimit_locked_of_defined (hc : RATE_LIMITS action ≠ .undefined)
    (hw : ls.accessDenied = false)
    (hl : ls.lookup (storageKey action identifier) = some (.record data))
    {l : Nat} (hlock : data.lockUntil = some l) (hfut : now < l) :
    checkRateLimit now action identifier ls
      = .ok (statusLocked (ceilMinutes (l - now)), ls) := by
  have h0 : l ≠ 0 := by omega
  unfold checkRateLimit
  cases h : RATE_LIMITS action with
  | undefined => exact absurd h hc
  | entry c =>
    simp [LocalStorage.getItem, hw, hl, jsonParse, bind, Except.bind,
      pure, Except.pure, lockedAt, hlock, hfut, h0]
  | inherited =>
    simp [LocalStorage.getItem, hw, hl, jsonParse, bind, Except.bind,
      pure, Except.pure, lockedAt, hlock, hfut, h0]

/-- Whatever `RATE_LIMITS[action]` is, a check after the end of the window removes the
record. -/
theorem checkRateLimit_expired_of_defined (hc : RATE_LIMITS action ≠ .undefined)
    (hw : ls.Working)
    (hl : ls.lookup (storageKey action identifier) = some (.record data))
    (hlock : lockedAt now data = false) (hx : toNumber data.windowEnd < now) :
    checkRateLimit now action identifier ls
      = .ok (statusAllowed, ls.erase (storageKey action identifier)) := by
  unfold checkRateLimit
  cases h : RATE_LIMITS action with
  | undefined => exact absurd h hc
  | entry c =>
    simp [LocalStorage.getItem_of_working hw, hl, jsonParse, bind,
      Except.bind, pure, Except.pure, hlock, hx, LocalStorage.removeItem_of_working hw]
  | inherited =>
    simp [LocalStorage.getItem_of_working hw, hl, jsonParse, bind,
      Except.bind, pure, Except.pure, hlock, hx, LocalStorage.removeItem_of_working hw]

/-- Whatever `RATE_LIMITS[action]` is, a failure recorded on a working storage that holds
no malformed text under the key is stored. -/
theorem recordFailedAttempt_returns_of_defined (hc : RATE_LIMITS action ≠ .undefined)
    (hw : ls.Working)
    (hm : ∀ text, ls.lookup (storageKey action identifier) ≠ some (.malformed text)) :
    ∃ value, recordFailedAttempt now action identifier ls
      = .ok (ls.put (storageKey action identifier) value) := by
  unfold recordFailedAttempt
  cases hl : ls.lookup (storageKey action identifier) with
  | none =>
    cases h : RATE_LIMITS action with
    | undefined => exact absurd h hc
    | entry c =>
      exact ⟨_, by simp [LocalStorage.getItem_of_working hw, hl,
        LocalStorage.setItem_of_working hw, bind, Except.bind]; rfl⟩
    | inherited =>
      exact ⟨_, by simp [LocalStorage.getItem_of_working hw, hl,
        LocalStorage.setItem_of_working hw, bind, Except.bind]; rfl⟩
  | some text =>
    cases text with
    | malformed t => exact absurd hl (hm t)
    | empty =>
      cases h : RATE_LIMITS action with
      | undefined => exact absurd h hc
      | entry c =>
        exact ⟨_, by simp [LocalStorage.getItem_of_working hw, hl,
          LocalStorage.setItem_of_working hw, bind, Except.bind]; rfl⟩
      | inherited =>
        exact ⟨_, by simp [LocalStorage.getItem_of_working hw, hl,
          LocalStorage.setItem_of_working hw, bind, Except.bind]; rfl⟩
    | record data =>
      by_cases hx : toNumber data.windowEnd < now
      · cases h : RATE_LIMITS action with
        | undefined => exact absurd h hc
        | entry c =>
          exact ⟨_, by simp [LocalStorage.getItem_of_working hw, hl, jsonParse, hx,
            LocalStorage.setItem_of_working hw, bind, Except.bind]; rfl⟩
        | inherited =>
          exact ⟨_, by simp [LocalStorage.getItem_of_working hw, hl, jsonParse, hx,
            LocalStorage.setItem_of_working hw, bind, Except.bind]; rfl⟩
      · cases h : RATE_LIMITS action with
        | undefined => exact absurd h hc
        | entry c =>
          exact ⟨_, by simp [LocalStorage.getItem_of_working hw, hl, jsonParse, hx,
            LocalStorage.setItem_of_working hw, bind, Except.bind]; rfl⟩
        | inherited =>
          exact ⟨_, by simp [LocalStorage.getItem_of_working hw, hl, jsonParse, hx,
            LocalStorage.setItem_of_working hw, bind, Except.bind]; rfl⟩

end RateLimiterBranches

/-- A failure recorded where no record is stored starts a window. -/
theorem recordFailedAttempt_fresh_ok (now : Nat) {action identifier : String}
    {ls : LocalStorage} {config : RateLimitConfig}
    (hc : RATE_LIMITS action = .entry config) (hw : ls.Working)
    (hl : ls.lookup (storageKey action identifier) = none ∨
      ls.lookup (storageKey action identifier) = some .empty) :
    ∃ ls', recordFailedAttempt now action identifier ls = .ok ls' ∧ ls'.Working ∧
      ls'.lookup (storageKey action identifier)
        = some (.record { attempts := 1, windowStart := now,
                          windowEnd := some (now + config.windowMs), lockUntil := none }) := by
  rcases hl with hl | hl
  · exact ⟨_, recordFailedAttempt_absent hc hw hl, LocalStorage.working_put hw _ _,
      LocalStorage.lookup_put_self _ _ _⟩
  · exact ⟨_, recordFailedAttempt_emptyText hc hw hl, LocalStorage.working_put hw _ _,
      LocalStorage.lookup_put_self _ _ _⟩

/-- A failure recorded after the stored window has ended starts a new window. -/
theorem recordFailedAttempt_expired_ok {now : Nat} {action identifier : String}
    {ls : LocalStorage} {config : RateLimitConfig} {data : RateLimitRecord}
    (hc : RATE_LIMITS action = .entry config) (hw : ls.Working)
    (hl : ls.lookup (storageKey action identifier) = some (.record data))
    (hx : toNumber data.windowEnd < now) :
    ∃ ls', recordFailedAttempt now action identifier ls = .ok ls' ∧ ls'.Working ∧
      ls'.lookup (storageKey action identifier)
        = some (.record { attempts := 1, windowStart := now,
                          windowEnd := some (now + config.windowMs), lockUntil := none }) :=
  ⟨_, recordFailedAttempt_expired hc hw hl hx, LocalStorage.working_put hw _ _,
    LocalStorage.lookup_put_self _ _ _⟩

/-- A failure recorded inside the stored window adds one to the count. -/
theorem recordFailedAttempt_increment_ok {now : Nat} {action identifier : String}
    {ls : LocalStorage} {config : RateLimitConfig} {data : RateLimitRecord}
    (hc : RATE_LIMITS action = .entry config) (hw : ls.Working)
    (hl : ls.lookup (storageKey action identifier) = some (.record data))
    (hx : now ≤ toNumber data.windowEnd) :
    ∃ ls', recordFailedAttempt now action identifier ls = .ok ls' ∧ ls'.Working ∧
      ls'.lookup (storageKey action identifier)
        = some (.record { attempts := data.attempts + 1, windowStart := data.windowStart,
                          windowEnd := data.windowEnd, lockUntil := data.lockUntil }) :=
  ⟨_, recordFailedAttempt_increment hc hw hl hx, LocalStorage.working_put hw _ _,
    LocalStorage.lookup_put_self _ _ _⟩

/-- Whatever `recordFailedAttempt` stores, its `lockUntil` is `null` or the one stored
before. -/
theorem recordFailedAttempt_lockUntil {now : Nat} {action identifier : String}
    {ls ls' : LocalStorage} {config : RateLimitConfig} {stored : RateLimitRecord}
    (hc : RATE_LIMITS action = .entry config)
    (hrun : recordFailedAttempt now action identifier ls = .ok ls')
    (hst : ls'.lookup (storageKey action identifier) = some (.record stored)) :
    stored.lockUntil = none ∨
      ∃ data, ls.lookup (storageKey action identifier) = some (.record data) ∧
        stored.lockUntil = data.lockUntil := by
  cases hd : ls.accessDenied with
  | true => rw [recordFailedAttempt_denied hc hd] at hrun; cases hrun
  | false =>
    cases hq : ls.quotaExceeded with
    | true =>
      exfalso
      revert hrun
      unfold recordFailedAttempt
      simp only [hc, LocalStorage.getItem, hd, bind, Except.bind, LocalStorage.setItem, hq]
      cases ls.lookup (storageKey action identifier) with
      | none => simp
      | some text =>
        cases text with
        | empty => simp
        | malformed t => simp [jsonParse]
        | record data => by_cases hx : toNumber data.windowEnd < now <;> simp [jsonParse, hx]
    | false =>
      have hw : ls.Working := ⟨hd, hq⟩
      cases hl : ls.lookup (storageKey action identifier) with
      | none =>
        rw [recordFailedAttempt_absent hc hw hl] at hrun
        cases hrun
        rw [LocalStorage.lookup_put_self] at hst
        cases hst
        exact Or.inl rfl
      | some text =>
        cases text with
        | empty =>
          rw [recordFailedAttempt_emptyText hc hw hl] at hrun
          cases hrun
          rw [LocalStorage.lookup_put_self] at hst
          cases hst
          exact Or.inl rfl
        | malformed t =>
          rw [recordFailedAttempt_malformed hc hd hl] at hrun
          cases hrun
        | record data =>
          by_cases hx : toNumber data.windowEnd < now
          · rw [recordFailedAttempt_expired hc hw hl hx] at hrun
            cases hrun
            rw [LocalStorage.lookup_put_self] at hst
            cases hst
            exact Or.inl rfl
          · rw [recordFailedAttempt_increment hc hw hl (Nat.not_lt.mp hx)] at hrun
            cases hrun
            rw [LocalStorage.lookup_put_self] at hst
            cases hst
            exact Or.inr ⟨data, rfl, rfl⟩

theorem RATE_LIMITS_undefined_iff (action : String) :
    RATE_LIMITS action = .undefined ↔
      action ≠ "login" ∧ action ≠ "register" ∧ action ≠ "passwordReset" ∧
        action ≠ "resendVerification" ∧ action ∉ objectPrototypeNames := by
  unfold RATE_LIMITS
  by_cases h1 : action = "login"
  · simp [h1]
  · by_cases h2 : action = "register"
    · simp [h2]
    · by_cases h3 : action = "passwordReset"
      · simp [h3]
      · by_cases h4 : action = "resendVerification"
        · simp [h4]
        · by_cases h5 : action ∈ objectPrototypeNames <;> simp [h1, h2, h3, h4, h5]

theorem RATE_LIMITS_login : RATE_LIMITS "login"
    = .entry { maxAttempts := 5, windowMs := 900000, lockoutMs := 1800000 } := by
  decide

/-- `ceilMinutes ms` is the ceiling of the quotient `ms / 60000`. -/
theorem ceilMinutes_eq_ceil (ms : Nat) : ceilMinutes ms = ⌈(ms : ℚ) / 60000⌉₊ := by
  unfold ceilMinutes
  rcases Nat.eq_zero_or_pos ms with h0 | hpos
  · subst h0; simp
  · have hm : (ms + 59999) / 60000 ≠ 0 := by omega
    symm
    rw [Nat.ceil_eq_iff hm]
    have h1 : 60000 * ((ms + 59999) / 60000 - 1) < ms := by omega
    have h2 : ms ≤ 60000 * ((ms + 59999) / 60000) := by omega
    constructor
    · rw [lt_div_iff₀ (by norm_num)]
      have : (((60000 * ((ms + 59999) / 60000 - 1) : ℕ)) : ℚ) < (ms : ℚ) := by
        exact_mod_cast h1
      push_cast at this ⊢
      linarith
    · rw [div_le_iff₀ (by norm_num)]
      have : ((ms : ℕ) : ℚ) ≤ ((60000 * ((ms + 59999) / 60000) : ℕ) : ℚ) := by
        exact_mod_cast h2
      push_cast at this ⊢
      linarith

theorem ceilMinutes_pos {ms : Nat} (h : 0 < ms) : 1 ≤ ceilMinutes ms := by
  unfold ceilMinutes; omega

/-- While a lockout lies in the future of every clock value, repeated checks all answer
"locked" and leave the storage as it is. -/
theorem checkRateLimitMany_locked {action identifier : String} {ls : LocalStorage}
    {config : RateLimitConfig} {data : RateLimitRecord} {l : Nat}
    (hc : RATE_LIMITS action = .entry config) (hw : ls.accessDenied = false)
    (hl : ls.lookup (storageKey action identifier) = some (.record data))
    (hlock : data.lockUntil = some l) :
    ∀ later : List Nat, (∀ t ∈ later, t < l) →
      ∃ sts, checkRateLimitMany action identifier later ls = .ok (sts, ls) ∧
        sts.length = later.length ∧ ∀ s ∈ sts, s.allowed = false ∧ s.locked = some true := by
  intro later
  induction later with
  | nil => intro _; exact ⟨[], rfl, rfl, by simp⟩
  | cons t rest ih =>
    intro h
    obtain ⟨sts, hsts, hlen, hall⟩ := ih (fun t ht => h t (List.mem_cons_of_mem _ ht))
    refine ⟨statusLocked (ceilMinutes (l - t)) :: sts, ?_, by simp [hlen], ?_⟩
    · simp [checkRateLimitMany, checkRateLimit_locked hc hw hl hlock (h t (by simp)),
        hsts, bind, Except.bind, pure, Except.pure]
    · intro s hs
      rcases List.mem_cons.mp hs with rfl | hs
      · exact ⟨rfl, rfl⟩
      · exact hall s hs

/-! ## The rate limiter: lockout, window reset, re-arming -/

/-- C1. Starting from empty storage, for every identifier and all clock values
`t1 ≤ t2 ≤ t3 ≤ t4 ≤ t5 ≤ t6` within the login window (900000 ms) of the first call:
five `recordFailedAttempt('login', id)` calls at `t1 … t5` succeed, the following
`checkRateLimit('login', id)` at `t6` returns `allowed = false`, `locked = true` and stores
`lockUntil = t6 + 1800000`, and any number of further checks made at clock values before
that stored `lockUntil` all return `allowed = false`, `locked = true`. -/
theorem login_lockout_after_five_failures (identifier : String) (t1 t2 t3 t4 t5 t6 : Nat)
    (_h12 : t1 ≤ t2) (h23 : t2 ≤ t3) (h34 : t3 ≤ t4) (h45 : t4 ≤ t5) (h56 : t5 ≤ t6)
    (hwin : t6 ≤ t1 + 900000) :
    ∃ ls5 st ls6,
      recordFailedAttemptMany "login" identifier [t1, t2, t3, t4, t5] LocalStorage.empty
        = .ok ls5 ∧
      checkRateLimit t6 "login" identifier ls5 = .ok (st, ls6) ∧
      st.allowed = false ∧ st.locked = some true ∧
      ls6.lookup (storageKey "login" identifier)
        = some (.record { attempts := 5, windowStart := t1, windowEnd := some (t1 + 900000),
                          lockUntil := some (t6 + 1800000) }) ∧
      ∀ later : List Nat, (∀ t ∈ later, t < t6 + 1800000) →
        ∃ sts, checkRateLimitMany "login" identifier later ls6 = .ok (sts, ls6) ∧
          sts.length = later.length ∧
          ∀ s ∈ sts, s.allowed = false ∧ s.locked = some true := by
  have hc := RATE_LIMITS_login
  obtain ⟨ls1, e1, hw1, hl1⟩ := recordFailedAttempt_fresh_ok t1 hc
    LocalStorage.working_empty
    (Or.inl (LocalStorage.lookup_empty (storageKey "login" identifier)))
  have hstep : ∀ (n now : Nat) (ls : LocalStorage), ls.Working → now ≤ t1 + 900000 →
      ls.lookup (storageKey "login" identifier)
        = some (.record { attempts := n, windowStart := t1, windowEnd := some (t1 + 900000),
                          lockUntil := none }) →
      ∃ ls', recordFailedAttempt now "login" identifier ls = .ok ls' ∧ ls'.Working ∧
        ls'.lookup (storageKey "login" identifier)
          = some (.record { attempts := n + 1, windowStart := t1,
                            windowEnd := some (t1 + 900000), lockUntil := none }) :=
    fun n now ls hw hle hl => recordFailedAttempt_increment_ok hc hw hl hle
  obtain ⟨ls2, e2, hw2, hl2⟩ := hstep 1 t2 ls1 hw1 (by omega) hl1
  obtain ⟨ls3, e3, hw3, hl3⟩ := hstep 2 t3 ls2 hw2 (by omega) hl2
  obtain ⟨ls4, e4, hw4, hl4⟩ := hstep 3 t4 ls3 hw3 (by omega) hl3
  obtain ⟨ls5, e5, hw5, hl5⟩ := hstep 4 t5 ls4 hw4 (by omega) hl4
  have hlk5 : lockedAt t6 (RateLimitRecord.mk 5 t1 (some (t1 + 900000)) none) = false :=
    lockedAt_of_none rfl
  have e6 := checkRateLimit_rearm hc hw5 hl5 hlk5 hwin (Nat.le_refl 5)
  refine ⟨ls5, _, _, ?_, e6, rfl, rfl, LocalStorage.lookup_put_self _ _ _, ?_⟩
  · simp only [recordFailedAttemptMany, bind, Except.bind, e1, e2, e3, e4, e5]
  · exact checkRateLimitMany_locked hc (LocalStorage.working_put hw5 _ _).1
      (LocalStorage.lookup_put_self _ _ _) rfl

/-- C1 at a concrete input: identifier `a@b.com`, failures at 0, 1, 2, 3, 4 and the
check at 5. -/
theorem login_lockout_after_five_failures_witness :
    ∃ ls5 st ls6,
      recordFailedAttemptMany "login" "a@b.com" [0, 1, 2, 3, 4] LocalStorage.empty
        = .ok ls5 ∧
      checkRateLimit 5 "login" "a@b.com" ls5 = .ok (st, ls6) ∧
      st.allowed = false ∧ st.locked = some true ∧
      ls6.lookup (storageKey "login" "a@b.com")
        = some (.record { attempts := 5, windowStart := 0, windowEnd := some (0 + 900000),
                          lockUntil := some (5 + 1800000) }) ∧
      ∀ later : List Nat, (∀ t ∈ later, t < 5 + 1800000) →
        ∃ sts, checkRateLimitMany "login" "a@b.com" later ls6 = .ok (sts, ls6) ∧
          sts.length = later.length ∧
          ∀ s ∈ sts, s.allowed = false ∧ s.locked = some true :=
  login_lockout_after_five_failures "a@b.com" 0 1 2 3 4 5 (by decide) (by decide)
    (by decide) (by decide) (by decide) (by decide)

/-- C2. For a configured action whose stored record has `lockUntil = null` and whose
window has elapsed (`now > windowEnd`), on working storage: `checkRateLimit` returns
`allowed = true` and removes the record, and the next `recordFailedAttempt`, at any clock
value `next`, stores `attempts = 1`, `windowStart = next`, `windowEnd = next + windowMs`,
`lockUntil = null`, whatever the previous count was. The same record is stored when the
failure is recorded at `now` without a check in between. -/
theorem window_reset_after_expiry (now next : Nat) (action identifier : String)
    (ls : LocalStorage) (config : RateLimitConfig) (data : RateLimitRecord)
    (hc : RATE_LIMITS action = .entry config) (hw : ls.Working)
    (hl : ls.lookup (storageKey action identifier) = some (.record data))
    (hnull : data.lockUntil = none) (hx : toNumber data.windowEnd < now) :
    (∃ st ls1 ls2,
      checkRateLimit now action identifier ls = .ok (st, ls1) ∧ st.allowed = true ∧
      ls1.lookup (storageKey action identifier) = none ∧
      recordFailedAttempt next action identifier ls1 = .ok ls2 ∧
      ls2.lookup (storageKey action identifier)
        = some (.record { attempts := 1, windowStart := next,
                          windowEnd := some (next + config.windowMs), lockUntil := none })) ∧
    (∃ ls3,
      recordFailedAttempt now action identifier ls = .ok ls3 ∧
      ls3.lookup (storageKey action identifier)
        = some (.record { attempts := 1, windowStart := now,
                          windowEnd := some (now + config.windowMs), lockUntil := none })) := by
  constructor
  · have e1 := checkRateLimit_expired hc hw hl (lockedAt_of_none hnull) hx
    obtain ⟨ls2, e2, _, hl2⟩ := recordFailedAttempt_fresh_ok next hc
      (LocalStorage.working_erase hw (storageKey action identifier))
      (Or.inl (LocalStorage.lookup_erase_self ls _))
    exact ⟨_, _, ls2, e1, rfl, LocalStorage.lookup_erase_self _ _, e2, hl2⟩
  · obtain ⟨ls3, e3, _, hl3⟩ := recordFailedAttempt_expired_ok hc hw hl hx
    exact ⟨ls3, e3, hl3⟩

/-- C2 at a concrete input: a `login` record with 4 attempts whose window ended at 10,
checked at 11, the next failure at 20. -/
theorem window_reset_after_expiry_witness :
    (∃ st ls1 ls2,
      checkRateLimit 11 "login" "a@b.com"
        (LocalStorage.empty.put (storageKey "login" "a@b.com")
          (.record { attempts := 4, windowStart := 0, windowEnd := some 10, lockUntil := none }))
        = .ok (st, ls1) ∧ st.allowed = true ∧
      ls1.lookup (storageKey "login" "a@b.com") = none ∧
      recordFailedAttempt 20 "login" "a@b.com" ls1 = .ok ls2 ∧
      ls2.lookup (storageKey "login" "a@b.com")
        = some (.record { attempts := 1, windowStart := 20,
                          windowEnd := some (20 + 900000), lockUntil := none })) ∧
    (∃ ls3,
      recordFailedAttempt 11 "login" "a@b.com"
        (LocalStorage.empty.put (storageKey "login" "a@b.com")
          (.record { attempts := 4, windowStart := 0, windowEnd := some 10, lockUntil := none }))
        = .ok ls3 ∧
      ls3.lookup (storageKey "login" "a@b.com")
        = some (.record { attempts := 1, windowStart := 11,
                          windowEnd := some (11 + 900000), lockUntil := none })) :=
  window_reset_after_expiry 11 20 "login" "a@b.com" _
    { maxAttempts := 5, windowMs := 900000, lockoutMs := 1800000 }
    { attempts := 4, windowStart := 0, windowEnd := some 10, lockUntil := none }
    RATE_LIMITS_login (LocalStorage.working_put LocalStorage.working_empty _ _)
    (LocalStorage.lookup_put_self _ _ _) rfl (by decide)

/-- C3. For a configured action with a stored record: (a) if `lockUntil` is in the
future, `checkRateLimit` returns `allowed = false`, `locked = true` with
`minutesRemaining` the ceiling of `(lockUntil - now) / 60000`, which is at least 1, and
returns the storage unchanged; (b) if no lockout is active, the window has not expired and
`attempts ≥ maxAttempts`, it returns `allowed = false`, `locked = true` and stores the
record with `lockUntil = now + lockoutMs` and `attempts`, `windowStart`, `windowEnd`
unchanged. The storage is one whose reads succeed, and for (b) whose writes succeed. -/
theorem check_locked_and_rearm (now : Nat) (action identifier : String)
    (ls : LocalStorage) (config : RateLimitConfig) (data : RateLimitRecord)
    (hc : RATE_LIMITS action = .entry config) (hr : ls.accessDenied = false)
    (hl : ls.lookup (storageKey action identifier) = some (.record data)) :
    (∀ l, data.lockUntil = some l → now < l →
      ∃ st, checkRateLimit now action identifier ls = .ok (st, ls) ∧
        st.allowed = false ∧ st.locked = some true ∧
        st.minutesRemaining = some ⌈((l - now : ℕ) : ℚ) / 60000⌉₊ ∧
        1 ≤ ⌈((l - now : ℕ) : ℚ) / 60000⌉₊) ∧
    (ls.quotaExceeded = false →
      (∀ l, data.lockUntil = some l → l ≤ now) → now ≤ toNumber data.windowEnd →
      config.maxAttempts ≤ data.attempts →
      ∃ st ls', checkRateLimit now action identifier ls = .ok (st, ls') ∧
        st.allowed = false ∧ st.locked = some true ∧
        ls'.lookup (storageKey action identifier)
          = some (.record { attempts := data.attempts, windowStart := data.windowStart,
                            windowEnd := data.windowEnd,
                            lockUntil := some (now + config.lockoutMs) })) := by
  constructor
  · intro l hlock hfut
    refine ⟨_, checkRateLimit_locked hc hr hl hlock hfut, rfl, rfl, ?_, ?_⟩
    · simp only [statusLocked, ceilMinutes_eq_ceil]
    · rw [← ceilMinutes_eq_ceil]
      exact ceilMinutes_pos (by omega)
  · intro hq hno hx hmax
    have hw : ls.Working := ⟨hr, hq⟩
    have hlk : lockedAt now data = false := by
      cases hb : lockedAt now data with
      | false => rfl
      | true =>
        obtain ⟨l, h1, h2⟩ := lockedAt_eq_true_iff.mp hb
        have := hno l h1
        omega
    exact ⟨_, _, checkRateLimit_rearm hc hw hl hlk hx hmax, rfl, rfl,
      LocalStorage.lookup_put_self _ _ _⟩

/-- C3 at concrete inputs: a `login` record locked until 120001 checked at 1 (three
minutes remain), and a `login` record with 5 attempts and no lockout checked at 7. -/
theorem check_locked_and_rearm_witness :
    (∃ st, checkRateLimit 1 "login" "a@b.com"
        (LocalStorage.empty.put (storageKey "login" "a@b.com")
          (.record { attempts := 5, windowStart := 0, windowEnd := some 900000,
                     lockUntil := some 120001 }))
        = .ok (st, LocalStorage.empty.put (storageKey "login" "a@b.com")
          (.record { attempts := 5, windowStart := 0, windowEnd := some 900000,
                     lockUntil := some 120001 })) ∧
        st.allowed = false ∧ st.locked = some true ∧
        st.minutesRemaining = some ⌈((120001 - 1 : ℕ) : ℚ) / 60000⌉₊ ∧
        1 ≤ ⌈((120001 - 1 : ℕ) : ℚ) / 60000⌉₊) ∧
    (∃ st ls', checkRateLimit 7 "login" "a@b.com"
        (LocalStorage.empty.put (storageKey "login" "a@b.com")
          (.record { attempts := 5, windowStart := 0, windowEnd := some 900000,
                     lockUntil := none }))
        = .ok (st, ls') ∧
        st.allowed = false ∧ st.locked = some true ∧
        ls'.lookup (storageKey "login" "a@b.com")
          = some (.record { attempts := 5, windowStart := 0, windowEnd := some 900000,
                            lockUntil := some (7 + 1800000) })) :=
  ⟨(check_locked_and_rearm 1 "login" "a@b.com" _
      { maxAttempts := 5, windowMs := 900000, lockoutMs := 1800000 }
      { attempts := 5, windowStart := 0, windowEnd := some 900000, lockUntil := some 120001 }
      RATE_LIMITS_login rfl
      (LocalStorage.lookup_put_self _ _ _)).1 120001 rfl (by decide),
   (check_locked_and_rearm 7 "login" "a@b.com" _
      { maxAttempts := 5, windowMs := 900000, lockoutMs := 1800000 }
      { attempts := 5, windowStart := 0, windowEnd := some 900000, lockUntil := none }
      RATE_LIMITS_login rfl
      (LocalStorage.lookup_put_self _ _ _)).2 rfl (fun l h => by cases h) (by decide)
      (by decide)⟩

/-- C4. For a configured action on working storage, `recordFailedAttempt` stores
`{attempts: 1, windowStart: now, windowEnd: now + windowMs, lockUntil: null}` when no
record exists (nothing or the empty string is stored) or the stored window has expired,
and otherwise stores the record with `attempts` increased by exactly one and
`windowStart`, `windowEnd`, `lockUntil` unchanged. Whatever the storage, the `lockUntil`
it stores is `null` or the `lockUntil` that was stored before. -/
theorem recordFailedAttempt_stores (now : Nat) (action identifier : String)
    (ls : LocalStorage) (config : RateLimitConfig)
    (hc : RATE_LIMITS action = .entry config) (hw : ls.Working) :
    ((ls.lookup (storageKey action identifier) = none ∨
        ls.lookup (storageKey action identifier) = some .empty) →
      ∃ ls', recordFailedAttempt now action identifier ls = .ok ls' ∧
        ls'.lookup (storageKey action identifier)
          = some (.record { attempts := 1, windowStart := now,
                            windowEnd := some (now + config.windowMs), lockUntil := none })) ∧
    (∀ data, ls.lookup (storageKey action identifier) = some (.record data) →
      toNumber data.windowEnd < now →
      ∃ ls', recordFailedAttempt now action identifier ls = .ok ls' ∧
        ls'.lookup (storageKey action identifier)
          = some (.record { attempts := 1, windowStart := now,
                            windowEnd := some (now + config.windowMs), lockUntil := none })) ∧
    (∀ data, ls.lookup (storageKey action identifier) = some (.record data) →
      now ≤ toNumber data.windowEnd →
      ∃ ls', recordFailedAttempt now action identifier ls = .ok ls' ∧
        ls'.lookup (storageKey action identifier)
          = some (.record { attempts := data.attempts + 1,
                            windowStart := data.windowStart,
                            windowEnd := data.windowEnd,
                            lockUntil := data.lockUntil })) ∧
    (∀ (anyNow : Nat) (anyLs ls' : LocalStorage) (stored : RateLimitRecord),
      recordFailedAttempt anyNow action identifier anyLs = .ok ls' →
      ls'.lookup (storageKey action identifier) = some (.record stored) →
      stored.lockUntil = none ∨
        ∃ data, anyLs.lookup (storageKey action identifier) = some (.record data) ∧
          stored.lockUntil = data.lockUntil) := by
  refine ⟨?_, ?_, ?_, ?_⟩
  · intro hl
    obtain ⟨ls', e, _, h⟩ := recordFailedAttempt_fresh_ok now hc hw hl
    exact ⟨ls', e, h⟩
  · intro data hl hx
    obtain ⟨ls', e, _, h⟩ := recordFailedAttempt_expired_ok hc hw hl hx
    exact ⟨ls', e, h⟩
  · intro data hl hx
    obtain ⟨ls', e, _, h⟩ := recordFailedAttempt_increment_ok hc hw hl hx
    exact ⟨ls', e, h⟩
  · intro anyNow anyLs ls' stored hrun hst
    exact recordFailedAttempt_lockUntil hc hrun hst

/-- C4 at a concrete input: a second `login` failure at 5 inside a window opened at 0, and
a failure at 5 on empty storage. -/
theorem recordFailedAttempt_stores_witness :
    (∃ ls', recordFailedAttempt 5 "login" "a@b.com" LocalStorage.empty = .ok ls' ∧
        ls'.lookup (storageKey "login" "a@b.com")
          = some (.record { attempts := 1, windowStart := 5,
                            windowEnd := some (5 + 900000), lockUntil := none })) ∧
    (∃ ls', recordFailedAttempt 5 "login" "a@b.com"
        (LocalStorage.empty.put (storageKey "login" "a@b.com")
          (.record { attempts := 1, windowStart := 0, windowEnd := some 900000,
                     lockUntil := none })) = .ok ls' ∧
        ls'.lookup (storageKey "login" "a@b.com")
          = some (.record { attempts := 1 + 1, windowStart := 0, windowEnd := some 900000,
                            lockUntil := none })) :=
  ⟨(recordFailedAttempt_stores 5 "login" "a@b.com" LocalStorage.empty
      { maxAttempts := 5, windowMs := 900000, lockoutMs := 1800000 }
      RATE_LIMITS_login LocalStorage.working_empty).1
      (Or.inl (LocalStorage.lookup_empty _)),
   (recordFailedAttempt_stores 5 "login" "a@b.com" _
      { maxAttempts := 5, windowMs := 900000, lockoutMs := 1800000 }
      RATE_LIMITS_login (LocalStorage.working_put LocalStorage.working_empty _ _)).2.2.1
      { attempts := 1, windowStart := 0, windowEnd := some 900000, lockUntil := none }
      (LocalStorage.lookup_put_self _ _ _) (by decide)⟩

/-- C5 fails as stated: with a stored value that is not valid JSON both functions throw a
`SyntaxError`, and with an inaccessible storage `checkRateLimit` throws instead of
returning `allowed = true`. -/
theorem rate_limiter_throws :
    checkRateLimit 0 "login" "a@b.com"
      { items := [(storageKey "login" "a@b.com", .malformed "not json")],
        accessDenied := false, quotaExceeded := false } = .error syntaxError ∧
    recordFailedAttempt 0 "login" "a@b.com"
      { items := [(storageKey "login" "a@b.com", .malformed "not json")],
        accessDenied := false, quotaExceeded := false } = .error syntaxError ∧
    checkRateLimit 0 "login" "a@b.com"
      { items := [], accessDenied := true, quotaExceeded := false }
      = .error securityError ∧
    recordFailedAttempt 0 "login" "a@b.com"
      { items := [], accessDenied := false, quotaExceeded := true }
      = .error quotaExceededError := by
  refine ⟨?_, ?_, ?_, ?_⟩
  · exact checkRateLimit_malformed RATE_LIMITS_login rfl
      (show LocalStorage.lookup _ _ = some (.malformed "not json") by
        simp [LocalStorage.lookup, List.lookup])
  · exact recordFailedAttempt_malformed RATE_LIMITS_login rfl
      (show LocalStorage.lookup _ _ = some (.malformed "not json") by
        simp [LocalStorage.lookup, List.lookup])
  · exact checkRateLimit_denied RATE_LIMITS_login rfl
  · simp [recordFailedAttempt, RATE_LIMITS_login, LocalStorage.getItem,
      LocalStorage.lookup, LocalStorage.setItem, bind, Except.bind]

/-- C5 as amended. `RATE_LIMITS[action]` is `undefined` exactly for the actions that
are neither one of the four configured names nor a property name inherited from
`Object.prototype`; for those `checkRateLimit` and `recordFailedAttempt` return normally
whatever the storage, which is not touched, and `checkRateLimit` returns
`allowed = true`. For every action they return normally when the storage works and the
stored value is absent, empty or a record of the rate limiter, and `checkRateLimit`
returns `allowed = true` when the storage can be read and nothing is stored. For every
other action (configured or inherited) they throw when the storage is inaccessible or
the stored value is not valid JSON. -/
theorem rate_limiter_returns_normally (now : Nat) (action identifier : String)
    (ls : LocalStorage) :
    (RATE_LIMITS action = .undefined ↔
      action ≠ "login" ∧ action ≠ "register" ∧ action ≠ "passwordReset" ∧
        action ≠ "resendVerification" ∧ action ∉ objectPrototypeNames) ∧
    (RATE_LIMITS action = .undefined →
      checkRateLimit now action identifier ls = .ok (statusAllowed, ls) ∧
      recordFailedAttempt now action identifier ls = .ok ls) ∧
    (ls.Working → (∀ text, ls.lookup (storageKey action identifier)
        ≠ some (.malformed text)) →
      (∃ st ls', checkRateLimit now action identifier ls = .ok (st, ls')) ∧
      (∃ ls', recordFailedAttempt now action identifier ls = .ok ls')) ∧
    (ls.accessDenied = false → ls.lookup (storageKey action identifier) = none →
      checkRateLimit now action identifier ls = .ok (statusAllowed, ls)) ∧
    (RATE_LIMITS action ≠ .undefined →
      (ls.accessDenied = true →
        checkRateLimit now action identifier ls = .error securityError ∧
        recordFailedAttempt now action identifier ls = .error securityError) ∧
      (ls.accessDenied = false →
        ∀ text, ls.lookup (storageKey action identifier) = some (.malformed text) →
          checkRateLimit now action identifier ls = .error syntaxError ∧
          recordFailedAttempt now action identifier ls = .error syntaxError)) := by
  refine ⟨RATE_LIMITS_undefined_iff action, ?_, ?_, ?_, ?_⟩
  · intro hc
    exact ⟨checkRateLimit_unconfigured hc, recordFailedAttempt_unconfigured hc⟩
  · intro hw hm
    by_cases hc : RATE_LIMITS action = .undefined
    · exact ⟨⟨_, _, checkRateLimit_unconfigured hc⟩, ⟨_, recordFailedAttempt_unconfigured hc⟩⟩
    · refine ⟨?_, ?_⟩
      · cases hl : ls.lookup (storageKey action identifier) with
        | none => exact ⟨_, _, checkRateLimit_absent hw.1 hl⟩
        | some text =>
          cases text with
          | empty => exact ⟨_, _, checkRateLimit_emptyText hw.1 hl⟩
          | malformed t => exact absurd hl (hm t)
          | record data =>
            cases hlk : lockedAt now data with
            | true =>
              obtain ⟨l, h1, h2⟩ := lockedAt_eq_true_iff.mp hlk
              exact ⟨_, _, checkRateLimit_locked_of_defined hc hw.1 hl h1 h2⟩
            | false =>
              by_cases hx : toNumber data.windowEnd < now
              · exact ⟨_, _, checkRateLimit_expired_of_defined hc hw hl hlk hx⟩
              · cases hv : RATE_LIMITS action with
                | undefined => exact absurd hv hc
                | inherited =>
                  exact ⟨_, _, checkRateLimit_inherited_open hv hw.1 hl hlk (Nat.not_lt.mp hx)⟩
                | entry config =>
                  by_cases hmax : config.maxAttempts ≤ data.attempts
                  · exact ⟨_, _, checkRateLimit_rearm hv hw hl hlk (Nat.not_lt.mp hx) hmax⟩
                  · exact ⟨_, _, checkRateLimit_below hv hw.1 hl hlk (Nat.not_lt.mp hx)
                      (Nat.not_le.mp hmax)⟩
      · obtain ⟨value, h⟩ : ∃ value, recordFailedAttempt now action identifier ls
            = .ok (ls.put (storageKey action identifier) value) :=
          recordFailedAttempt_returns_of_defined hc hw hm
        exact ⟨_, h⟩
  · intro hd hl
    exact checkRateLimit_absent hd hl
  · intro hc
    refine ⟨fun hd => ⟨checkRateLimit_denied_of_defined hc hd,
      recordFailedAttempt_denied_of_defined hc hd⟩, ?_⟩
    intro hd text hl
    exact ⟨checkRateLimit_malformed_of_defined hc hd hl,
      recordFailedAttempt_malformed_of_defined hc hd hl⟩

/-- C5 as amended, at concrete inputs: a `login` check and a recorded failure on empty
working storage return; so does a recorded failure under the inherited name
`constructor`, which writes to the storage. -/
theorem rate_limiter_returns_normally_witness :
    ((∃ st ls', checkRateLimit 0 "login" "a@b.com" LocalStorage.empty = .ok (st, ls')) ∧
      (∃ ls', recordFailedAttempt 0 "login" "a@b.com" LocalStorage.empty = .ok ls')) ∧
    ((∃ st ls', checkRateLimit 0 "constructor" "a@b.com" LocalStorage.empty = .ok (st, ls')) ∧
      (∃ ls', recordFailedAttempt 0 "constructor" "a@b.com" LocalStorage.empty
        = .ok ls')) :=
  ⟨(rate_limiter_returns_normally 0 "login" "a@b.com" LocalStorage.empty).2.2.1
      LocalStorage.working_empty (fun text h => by cases h),
   (rate_limiter_returns_normally 0 "constructor" "a@b.com" LocalStorage.empty).2.2.1
      LocalStorage.working_empty (fun text h => by cases h)⟩

/-! ## Lemmas on the login services -/

theorem getLast?_cons_eq {α : Type} (a : α) (l : List α) :
    (a :: l).getLast? = some (l.getLast?.getD a) := by
  cases l with
  | nil => rfl
  | cons b t => simp [List.getLast?_cons_cons, List.getLast?_eq_getLast, List.getLast_cons]

set_option linter.unusedTactic false in
theorem loginUserChecks_gate (env : Env) (user : FirebaseUser) (w : World)
    (res : AuthResult) (w' : World)
    (h : loginUserChecks env user w = (.ok res, w')) (hc : isGateCode res.code) :
    SignedOutAfter env w w' := by
  unfold SignedOutAfter
  unfold isGateCode at hc
  cases hv : user.emailVerified <;> cases hso : env.signOut <;>
    cases hse : env.sendEmailVerification <;> cases hg : env.getDoc w.reads <;>
    simp [loginUserChecks, Eff.tryCatch, bind, Eff.andThen, pure, Eff.ret,
      sendEmailVerification, getDoc, signOut, logCall, failWith, AuthResult.bare,
      hv, hso, hse, hg] at h
  all_goals (try split at h)
  all_goals (try split at h)
  all_goals
    obtain ⟨rfl, rfl⟩ := h
    first
    | done
    | (simp at hc; done)
    | simp

set_option linter.unusedTactic false in
theorem loginWithGoogleChecks_gate (env : Env) (user : FirebaseUser) (userData : UserDoc)
    (w : World) (res : AuthResult) (w' : World)
    (h : loginWithGoogleChecks env user userData w = (.ok res, w'))
    (hc : isGateCode res.code) :
    SignedOutAfter env w w' := by
  unfold SignedOutAfter
  unfold isGateCode at hc
  cases hv : user.emailVerified <;> cases hso : env.signOut <;>
    cases hg : env.getDoc w.reads <;>
    simp [loginWithGoogleChecks, Eff.tryCatch, bind, Eff.andThen, pure, Eff.ret,
      getDoc, signOut, logCall, failWith, AuthResult.bare,
      hv, hso, hg] at h
  all_goals (try split at h)
  all_goals
    obtain ⟨rfl, rfl⟩ := h
    first
    | done
    | (simp at hc; done)
    | simp

/-- A `loginUser` run that returns a gate code has signed out: the sign-out succeeded, no
provider session is left, the first call made was the sign-in and the last call made was
the sign-out. -/
theorem loginUser_gate (env : Env) (email password : String) (w : World)
    (res : AuthResult) (w' : World)
    (h : loginUser env email password w = (.ok res, w')) (hc : isGateCode res.code) :
    env.signOut = none ∧ w'.currentUser = none ∧
    ∃ calls, w'.log = w.log ++ Call.signInWithEmailAndPassword email password :: calls ∧
      calls.getLast? = some Call.signOut := by
  cases hs : env.signIn email password with
  | error e =>
    simp [loginUser, Eff.tryCatch, bind, Eff.andThen, pure, Eff.ret,
      signInWithEmailAndPassword, logCall, hs, caughtResult, AuthResult.bare] at h
    obtain ⟨rfl, rfl⟩ := h
    simp [isGateCode] at hc
  | ok user =>
    cases hr : env.reload with
    | error e =>
      simp [loginUser, Eff.tryCatch, bind, Eff.andThen, pure, Eff.ret,
        signInWithEmailAndPassword, reload, logCall, hs, hr, caughtResult,
        AuthResult.bare] at h
      obtain ⟨rfl, rfl⟩ := h
      simp [isGateCode] at hc
    | ok verified =>
      cases hg : env.getDoc w.reads with
      | some e =>
        simp [loginUser, Eff.tryCatch, bind, Eff.andThen, pure, Eff.ret,
          signInWithEmailAndPassword, reload, getDoc, logCall, hs, hr, hg, caughtResult,
          AuthResult.bare] at h
        obtain ⟨rfl, rfl⟩ := h
        simp [isGateCode] at hc
      | none =>
        simp only [loginUser, Eff.tryCatch, bind, Eff.andThen, pure, Eff.ret,
          signInWithEmailAndPassword, reload, getDoc, logCall, hs, hr, hg] at h
        cases hl : w.users.lookup user.uid with
        | none =>
          cases hsd : env.setDoc with
          | some e =>
            simp [hl, hsd, setDoc, failWith, logCall, bind, Eff.andThen, caughtResult,
              AuthResult.bare] at h
            obtain ⟨rfl, rfl⟩ := h
            simp [isGateCode] at hc
          | none =>
            simp only [hl, hsd, setDoc, failWith, logCall, bind, Eff.andThen] at h
            split at h
            · rename_i a w2 heq
              cases h
              obtain ⟨h1, h2, calls, hlog, hlast⟩ := loginUserChecks_gate _ _ _ _ _ heq hc
              simp only [List.append_assoc, List.singleton_append, List.cons_append,
                List.nil_append] at hlog
              exact ⟨h1, h2, _, hlog, by simp [getLast?_cons_eq, hlast]⟩
            · cases h
              simp [isGateCode, caughtResult, AuthResult.bare] at hc
        | some userData =>
          simp only [hl] at h
          by_cases hact : userData.isActive = some false
          · cases hso : env.signOut with
            | some e =>
              simp [hact, hso, signOut, failWith, logCall, bind, Eff.andThen, Eff.ret,
                caughtResult, AuthResult.bare] at h
              obtain ⟨rfl, rfl⟩ := h
              simp [isGateCode] at hc
            | none =>
              simp [hact, hso, signOut, failWith, logCall, bind, Eff.andThen, Eff.ret,
                AuthResult.bare] at h
              obtain ⟨rfl, rfl⟩ := h
              simp [getLast?_cons_eq]
          · by_cases hev : some verified = userData.emailVerified
            · simp only [hact, hev, if_false, ne_eq, not_true_eq_false, Eff.andThen,
                Eff.ret] at h
              split at h
              · rename_i a w2 heq
                cases h
                obtain ⟨h1, h2, calls, hlog, hlast⟩ := loginUserChecks_gate _ _ _ _ _ heq hc
                simp only [List.append_assoc, List.singleton_append, List.cons_append,
                  List.nil_append] at hlog
                exact ⟨h1, h2, _, hlog, by simp [getLast?_cons_eq, hlast]⟩
              · cases h
                simp [isGateCode, caughtResult, AuthResult.bare] at hc
            · cases hud : env.updateDoc with
              | some e =>
                simp [hact, hev, hud, updateDoc, failWith, logCall, bind, Eff.andThen,
                  caughtResult, AuthResult.bare] at h
                obtain ⟨rfl, rfl⟩ := h
                simp [isGateCode] at hc
              | none =>
                simp only [hact, hev, hud, hl, updateDoc, failWith, logCall, bind,
                  Eff.andThen, if_false, ne_eq, not_false_eq_true, if_true] at h
                split at h
                · rename_i a w2 heq
                  cases h
                  obtain ⟨h1, h2, calls, hlog, hlast⟩ :=
                    loginUserChecks_gate _ _ _ _ _ heq hc
                  simp only [List.append_assoc, List.singleton_append, List.cons_append,
                    List.nil_append] at hlog
                  exact ⟨h1, h2, _, hlog, by simp [getLast?_cons_eq, hlast]⟩
                · cases h
                  simp [isGateCode, caughtResult, AuthResult.bare] at hc

/-- A `loginWithGoogle` run that returns a gate code has signed out: the sign-out
succeeded, no provider session is left, the first call made was the sign-in and the last
call made was the sign-out. -/
theorem loginWithGoogle_gate (env : Env) (w : World)
    (res : AuthResult) (w' : World)
    (h : loginWithGoogle env w = (.ok res, w')) (hc : isGateCode res.code) :
    env.signOut = none ∧ w'.currentUser = none ∧
    ∃ calls, w'.log = w.log ++ Call.signInWithPopup :: calls ∧
      calls.getLast? = some Call.signOut := by
  cases hs : env.signInPopup with
  | error e =>
    simp [loginWithGoogle, Eff.tryCatch, bind, Eff.andThen, pure, Eff.ret,
      signInWithPopup, logCall, hs, caughtResult, AuthResult.bare] at h
    obtain ⟨rfl, rfl⟩ := h
    simp [isGateCode] at hc
  | ok user =>
    cases hr : env.reload with
    | error e =>
      simp [loginWithGoogle, Eff.tryCatch, bind, Eff.andThen, pure, Eff.ret,
        signInWithPopup, reload, logCall, hs, hr, caughtResult,
        AuthResult.bare] at h
      obtain ⟨rfl, rfl⟩ := h
      simp [isGateCode] at hc
    | ok verified =>
      cases hg : env.getDoc w.reads with
      | some e =>
        simp [loginWithGoogle, Eff.tryCatch, bind, Eff.andThen, pure, Eff.ret,
          signInWithPopup, reload, getDoc, logCall, hs, hr, hg, caughtResult,
          AuthResult.bare] at h
        obtain ⟨rfl, rfl⟩ := h
        simp [isGateCode] at hc
      | none =>
        simp only [loginWithGoogle, Eff.tryCatch, bind, Eff.andThen, pure, Eff.ret,
          signInWithPopup, reload, getDoc, logCall, hs, hr, hg] at h
        cases hl : w.users.lookup user.uid with
        | none =>
          cases hsd : env.setDoc with
          | some e =>
            simp [hl, hsd, setDoc, failWith, logCall, bind, Eff.andThen, caughtResult,
              AuthResult.bare] at h
            obtain ⟨rfl, rfl⟩ := h
            simp [isGateCode] at hc
          | none =>
            simp only [hl, hsd, setDoc, failWith, logCall, bind, Eff.andThen] at h
            split at h
            · rename_i a w2 heq
              cases h
              obtain ⟨h1, h2, calls, hlog, hlast⟩ :=
                loginWithGoogleChecks_gate _ _ _ _ _ _ heq hc
              simp only [List.append_assoc, List.singleton_append, List.cons_append,
                List.nil_append] at hlog
              exact ⟨h1, h2, _, hlog, by simp [getLast?_cons_eq, hlast]⟩
            · cases h
              simp [isGateCode, caughtResult, AuthResult.bare] at hc
        | some existingData =>
          simp only [hl] at h
          by_cases hact : existingData.isActive = some false
          · cases hso : env.signOut with
            | some e =>
              simp [hact, hso, signOut, failWith, logCall, bind, Eff.andThen, Eff.ret,
                caughtResult, AuthResult.bare] at h
              obtain ⟨rfl, rfl⟩ := h
              simp [isGateCode] at hc
            | none =>
              simp [hact, hso, signOut, failWith, logCall, bind, Eff.andThen, Eff.ret,
                AuthResult.bare] at h
              obtain ⟨rfl, rfl⟩ := h
              simp [getLast?_cons_eq]
          · cases hud : env.updateDoc with
            | some e =>
              simp [hact, hud, updateDoc, failWith, logCall, bind, Eff.andThen,
                caughtResult, AuthResult.bare] at h
              obtain ⟨rfl, rfl⟩ := h
              simp [isGateCode] at hc
            | none =>
              simp only [hact, hud, hl, updateDoc, failWith, logCall, bind,
                Eff.andThen, if_false] at h
              split at h
              · rename_i a w2 heq
                cases h
                obtain ⟨h1, h2, calls, hlog, hlast⟩ :=
                  loginWithGoogleChecks_gate _ _ _ _ _ _ heq hc
                simp only [List.append_assoc, List.singleton_append, List.cons_append,
                  List.nil_append] at hlog
                exact ⟨h1, h2, _, hlog, by simp [getLast?_cons_eq, hlast]⟩
              · cases h
                simp [isGateCode, caughtResult, AuthResult.bare] at hc

/-! ## The login gates -/

/-- C6 fails as stated: `sampleUser` signs in on a profile with `isActive = false` while
`signOut` throws; `loginUser` and `loginWithGoogle` both return the failure of their
`catch` block, which has no code, and the provider session stays active. -/
theorem disabled_login_loses_code_when_signOut_throws :
    (loginUser { calmEnv false with signOut := some networkError } "a@b.com" "pw"
        (sampleWorld [("u1", sampleProfile "user" false false false)])).1
      = .ok (caughtResult networkError) ∧
    (caughtResult networkError).success = false ∧
    (caughtResult networkError).code = none ∧
    (loginUser { calmEnv false with signOut := some networkError } "a@b.com" "pw"
        (sampleWorld [("u1", sampleProfile "user" false false false)])).2.currentUser
      = some sampleUser ∧
    (loginWithGoogle { calmEnv false with signOut := some networkError }
        (sampleWorld [("u1", sampleProfile "user" false false false)])).1
      = .ok (caughtResult networkError) ∧
    (loginWithGoogle { calmEnv false with signOut := some networkError }
        (sampleWorld [("u1", sampleProfile "user" false false false)])).2.currentUser
      = some sampleUser := by
  refine ⟨by rfl, rfl, rfl, by rfl, by rfl, by rfl⟩

/-- C6 as amended. For every login (`loginUser` or `loginWithGoogle`) whose provider
sign-in succeeds for a user with a stored profile that has `isActive = false`, whatever
the provider's `emailVerified` and the profile's `isVerified` are and whatever the reload,
the profile read and the sign-out answer: the result has `success = false`; its code is
`auth/account-disabled` exactly when the reload, the profile read and the sign-out all
succeed, and otherwise it has no code; so the code is never `auth/email-not-verified` or
`auth/account-not-verified`; and the run sends no verification email and writes
nothing to the store. -/
theorem disabled_account_wins (env : Env) (email password : String) (w : World)
    (user : FirebaseUser) (profile : UserDoc)
    (hprofile : w.users.lookup user.uid = some profile)
    (hdisabled : profile.isActive = some false) :
    (env.signIn email password = .ok user →
      ∃ res w' calls, loginUser env email password w = (.ok res, w') ∧
        res.success = false ∧
        (res.code = some "auth/account-disabled" ↔
          (∃ verified, env.reload = .ok verified) ∧ env.getDoc w.reads = none ∧
            env.signOut = none) ∧
        (res.code = some "auth/account-disabled" ∨ res.code = none) ∧
        res.code ≠ some "auth/email-not-verified" ∧
        res.code ≠ some "auth/account-not-verified" ∧
        w'.log = w.log ++ calls ∧
        (∀ uid, Call.sendEmailVerification uid ∉ calls) ∧
        (∀ c ∈ calls, c.isWrite = false)) ∧
    (env.signInPopup = .ok user →
      ∃ res w' calls, loginWithGoogle env w = (.ok res, w') ∧
        res.success = false ∧
        (res.code = some "auth/account-disabled" ↔
          (∃ verified, env.reload = .ok verified) ∧ env.getDoc w.reads = none ∧
            env.signOut = none) ∧
        (res.code = some "auth/account-disabled" ∨ res.code = none) ∧
        res.code ≠ some "auth/email-not-verified" ∧
        res.code ≠ some "auth/account-not-verified" ∧
        w'.log = w.log ++ calls ∧
        (∀ uid, Call.sendEmailVerification uid ∉ calls) ∧
        (∀ c ∈ calls, c.isWrite = false)) := by
  constructor
  · intro hsign
    generalize hrun : loginUser env email password w = out
    have h := hrun
    cases hr : env.reload with
    | error e =>
      simp [loginUser, Eff.tryCatch, bind, Eff.andThen, pure, Eff.ret,
        signInWithEmailAndPassword, reload, logCall, hsign, hr, AuthResult.bare,
        caughtResult] at h
      subst h
      refine ⟨_, _, _, rfl, rfl, ?_, Or.inr rfl, by simp, by simp, rfl, ?_, ?_⟩
      · simp
      · simp
      · simp [Call.isWrite]
    | ok verified =>
      cases hg : env.getDoc w.reads with
      | some e =>
        simp [loginUser, Eff.tryCatch, bind, Eff.andThen, pure, Eff.ret,
          signInWithEmailAndPassword, reload, getDoc, logCall, hsign, hr, hg,
          AuthResult.bare, caughtResult] at h
        subst h
        refine ⟨_, _, _, rfl, rfl, ?_, Or.inr rfl, by simp, by simp, rfl, ?_, ?_⟩
        · simp
        · simp
        · simp [Call.isWrite]
      | none =>
        cases hso : env.signOut with
        | none =>
          simp [loginUser, Eff.tryCatch, bind, Eff.andThen, pure, Eff.ret,
            signInWithEmailAndPassword, reload, getDoc, signOut, logCall, failWith,
            hsign, hr, hg, hprofile, hdisabled, hso, AuthResult.bare] at h
          subst h
          refine ⟨_, _, _, rfl, rfl, ?_, Or.inl rfl, by simp, by simp, rfl, ?_, ?_⟩
          · simp
          · simp
          · simp [Call.isWrite]
        | some e =>
          simp [loginUser, Eff.tryCatch, bind, Eff.andThen, pure, Eff.ret,
            signInWithEmailAndPassword, reload, getDoc, signOut, logCall, failWith,
            hsign, hr, hg, hprofile, hdisabled, hso, AuthResult.bare,
            caughtResult] at h
          subst h
          refine ⟨_, _, _, rfl, rfl, ?_, Or.inr rfl, by simp, by simp, rfl, ?_, ?_⟩
          · simp
          · simp
          · simp [Call.isWrite]
  · intro hsign
    generalize hrun : loginWithGoogle env w = out
    have h := hrun
    cases hr : env.reload with
    | error e =>
      simp [loginWithGoogle, Eff.tryCatch, bind, Eff.andThen, pure, Eff.ret,
        signInWithPopup, reload, logCall, hsign, hr, AuthResult.bare,
        caughtResult] at h
      subst h
      refine ⟨_, _, _, rfl, rfl, ?_, Or.inr rfl, by simp, by simp, rfl, ?_, ?_⟩
      · simp
      · simp
      · simp [Call.isWrite]
    | ok verified =>
      cases hg : env.getDoc w.reads with
      | some e =>
        simp [loginWithGoogle, Eff.tryCatch, bind, Eff.andThen, pure, Eff.ret,
          signInWithPopup, reload, getDoc, logCall, hsign, hr, hg,
          AuthResult.bare, caughtResult] at h
        subst h
        refine ⟨_, _, _, rfl, rfl, ?_, Or.inr rfl, by simp, by simp, rfl, ?_, ?_⟩
        · simp
        · simp
        · simp [Call.isWrite]
      | none =>
        cases hso : env.signOut with
        | none =>
          simp [loginWithGoogle, Eff.tryCatch, bind, Eff.andThen, pure, Eff.ret,
            signInWithPopup, reload, getDoc, signOut, logCall, failWith,
            hsign, hr, hg, hprofile, hdisabled, hso, AuthResult.bare] at h
          subst h
          refine ⟨_, _, _, rfl, rfl, ?_, Or.inl rfl, by simp, by simp, rfl, ?_, ?_⟩
          · simp
          · simp
          · simp [Call.isWrite]
        | some e =>
          simp [loginWithGoogle, Eff.tryCatch, bind, Eff.andThen, pure, Eff.ret,
            signInWithPopup, reload, getDoc, signOut, logCall, failWith,
            hsign, hr, hg, hprofile, hdisabled, hso, AuthResult.bare,
            caughtResult] at h
          subst h
          refine ⟨_, _, _, rfl, rfl, ?_, Or.inr rfl, by simp, by simp, rfl, ?_, ?_⟩
          · simp
          · simp
          · simp [Call.isWrite]

/-- C6 as amended, at a concrete input: `sampleUser` signs in, by password and by Google,
on a profile with `isActive = false` and `isVerified = false` in an environment where no
call throws; both results carry the code `auth/account-disabled`. -/
theorem disabled_account_wins_witness :
    (∃ res w', loginUser (calmEnv false) "a@b.com" "pw"
        (sampleWorld [("u1", sampleProfile "user" false false false)]) = (.ok res, w') ∧
      res.success = false ∧ res.code = some "auth/account-disabled") ∧
    (∃ res w', loginWithGoogle (calmEnv false)
        (sampleWorld [("u1", sampleProfile "user" false false false)]) = (.ok res, w') ∧
      res.success = false ∧ res.code = some "auth/account-disabled") := by
  have key := disabled_account_wins (calmEnv false) "a@b.com" "pw"
    (sampleWorld [("u1", sampleProfile "user" false false false)]) sampleUser
    (sampleProfile "user" false false false) (by decide) rfl
  obtain ⟨res, w', _, h1, h2, h3, _⟩ := key.1 rfl
  obtain ⟨res2, w2, _, g1, g2, g3, _⟩ := key.2 rfl
  exact ⟨⟨res, w', h1, h2, h3.mpr ⟨⟨false, rfl⟩, rfl, rfl⟩⟩,
    ⟨res2, w2, g1, g2, g3.mpr ⟨⟨false, rfl⟩, rfl, rfl⟩⟩⟩

/-- C7. Whenever `loginUser` or `loginWithGoogle` returns the code
`auth/account-disabled`, `auth/email-not-verified` or `auth/account-not-verified`, the
calls made by the run start with the sign-in and end with `signOut`, that sign-out did not
throw, and no provider session is active in the state the caller gets back. -/
theorem no_session_after_failed_gate (env : Env) (email password : String) (w : World)
    (res : AuthResult) (w' : World) (hcode : isGateCode res.code) :
    (loginUser env email password w = (.ok res, w') →
      env.signOut = none ∧ w'.currentUser = none ∧
      ∃ calls, w'.log = w.log ++ Call.signInWithEmailAndPassword email password :: calls ∧
        calls.getLast? = some Call.signOut) ∧
    (loginWithGoogle env w = (.ok res, w') →
      env.signOut = none ∧ w'.currentUser = none ∧
      ∃ calls, w'.log = w.log ++ Call.signInWithPopup :: calls ∧
        calls.getLast? = some Call.signOut) :=
  ⟨fun h => loginUser_gate env email password w res w' h hcode,
   fun h => loginWithGoogle_gate env w res w' h hcode⟩

/-- C7 at a concrete input: the password login of `sampleUser`, whose email is not
verified, on a profile that is active. -/
theorem no_session_after_failed_gate_witness :
    ∃ res w', loginUser (calmEnv false) "a@b.com" "pw"
        (sampleWorld [("u1", sampleProfile "user" false false true)]) = (.ok res, w') ∧
      res.code = some "auth/email-not-verified" ∧ w'.currentUser = none ∧
      ∃ calls, w'.log = (sampleWorld [("u1", sampleProfile "user" false false true)]).log
          ++ Call.signInWithEmailAndPassword "a@b.com" "pw" :: calls ∧
        calls.getLast? = some Call.signOut := by
  generalize hrun : loginUser (calmEnv false) "a@b.com" "pw"
    (sampleWorld [("u1", sampleProfile "user" false false true)]) = out
  have h := hrun
  simp [loginUser, loginUserChecks, Eff.tryCatch, bind, Eff.andThen, pure, Eff.ret,
    signInWithEmailAndPassword, reload, getDoc, signOut, sendEmailVerification, logCall,
    failWith, AuthResult.bare, calmEnv, sampleWorld, sampleProfile, sampleUser,
    List.lookup] at h
  subst h
  have hc : isGateCode (some "auth/email-not-verified") := Or.inr (Or.inl rfl)
  have key := (no_session_after_failed_gate (calmEnv false) "a@b.com" "pw"
    (sampleWorld [("u1", sampleProfile "user" false false true)]) _ _ hc).1 hrun
  exact ⟨_, _, hrun, rfl, key.2.1, key.2.2⟩

/-- C8 fails as stated: `sampleUser`, whose email is not verified, signs in. When no
profile is stored and the `setDoc` that creates it throws, or when the stored
`emailVerified` is stale and the `updateDoc` that syncs it throws, `loginUser` returns
the failure of its `catch` block: it has no code, no verification email was dispatched,
`signOut` was not called and the provider session stays active. -/
theorem unverified_login_loses_code_when_profile_write_throws :
    loginUser { calmEnv false with setDoc := some networkError } "a@b.com" "pw"
        (sampleWorld [])
      = (.ok (caughtResult networkError),
          { currentUser := some sampleUser, users := [], reads := 1,
            log := [.signInWithEmailAndPassword "a@b.com" "pw", .reload "u1", .getDoc "u1",
              .setDoc "u1"
                { uid := some "u1", email := some "a@b.com", displayName := some "Ann",
                  phoneNumber := none, photoURL := none, role := some "user",
                  provider := some "password", emailVerified := some false,
                  isVerified := some false, isActive := some true,
                  createdAt := some 1000, updatedAt := some 1000 }] }) ∧
    (caughtResult networkError).success = false ∧
    (caughtResult networkError).code = none ∧
    (loginUser { calmEnv false with updateDoc := some networkError } "a@b.com" "pw"
        (sampleWorld [("u1", sampleProfile "user" true true true)])).1
      = .ok (caughtResult networkError) ∧
    (loginUser { calmEnv false with updateDoc := some networkError } "a@b.com" "pw"
        (sampleWorld [("u1", sampleProfile "user" true true true)])).2.currentUser
      = some sampleUser ∧
    (loginUser { calmEnv false with updateDoc := some networkError } "a@b.com" "pw"
        (sampleWorld [("u1", sampleProfile "user" true true true)])).2.log
      = [.signInWithEmailAndPassword "a@b.com" "pw", .reload "u1", .getDoc "u1",
          .updateDoc "u1"
            { UserFields.blank with
              emailVerified := some (some false), isVerified := some (some false),
              updatedAt := some (some 1000) }] := by
  refine ⟨by rfl, rfl, rfl, by rfl, by rfl, by rfl⟩

/-- C8 as amended. For a `loginUser` call in which the provider sign-in succeeds, the
reload reports `emailVerified = false` and the profile is absent or not disabled,
whether the verification-email dispatch succeeds or throws:
(a) when the profile read, the profile write (the `setDoc` of an absent profile, the
`updateDoc` of a stored `emailVerified` that is not false) and the sign-out do not throw,
the result is the failure with code `auth/email-not-verified`, exactly one dispatch is
attempted, it is the call right before the sign-out, which is the last call, and no
provider session remains;
(b) when the profile read or the profile write throws, the result is a failure without
a code and without an email; no dispatch is attempted, `signOut` is not called and the
provider session stays active;
(c) when they succeed and the sign-out throws, the result is a failure without a code and
without an email, after exactly one dispatch was attempted, and the provider session
stays active. -/
theorem unverified_email_login (env : Env) (email password : String) (w : World)
    (user : FirebaseUser) (dispatch : Option JsError)
    (hsign : env.signIn email password = .ok user) (hreload : env.reload = .ok false)
    (hprofile : ∀ p, w.users.lookup user.uid = some p → p.isActive ≠ some false) :
    (env.getDoc w.reads = none →
      (w.users.lookup user.uid = none → env.setDoc = none) →
      (∀ p, w.users.lookup user.uid = some p → p.emailVerified ≠ some false →
        env.updateDoc = none) →
      env.signOut = none →
      ∃ w' calls,
        loginUser { env with sendEmailVerification := dispatch } email password w
          = (.ok { AuthResult.bare false with
                   error := some "Please verify your email to continue",
                   code := some "auth/email-not-verified", email := user.email }, w') ∧
        w'.currentUser = none ∧
        w'.log = w.log ++ calls ∧
        calls.count (.sendEmailVerification user.uid) = 1 ∧
        calls.getLast? = some .signOut ∧
        calls.dropLast.getLast? = some (.sendEmailVerification user.uid)) ∧
    ((env.getDoc w.reads ≠ none ∨
        (w.users.lookup user.uid = none ∧ env.setDoc ≠ none) ∨
        (∃ p, w.users.lookup user.uid = some p ∧ p.emailVerified ≠ some false ∧
          env.updateDoc ≠ none)) →
      ∃ res w' calls,
        loginUser { env with sendEmailVerification := dispatch } email password w
          = (.ok res, w') ∧
        res.success = false ∧ res.code = none ∧ res.email = none ∧
        w'.currentUser = some { user with emailVerified := false } ∧
        w'.log = w.log ++ calls ∧
        (∀ uid, Call.sendEmailVerification uid ∉ calls) ∧ Call.signOut ∉ calls) ∧
    (env.getDoc w.reads = none →
      (w.users.lookup user.uid = none → env.setDoc = none) →
      (∀ p, w.users.lookup user.uid = some p → p.emailVerified ≠ some false →
        env.updateDoc = none) →
      env.signOut ≠ none →
      ∃ res w' calls,
        loginUser { env with sendEmailVerification := dispatch } email password w
          = (.ok res, w') ∧
        res.success = false ∧ res.code = none ∧ res.email = none ∧
        w'.currentUser.isSome = true ∧
        w'.log = w.log ++ calls ∧
        calls.count (.sendEmailVerification user.uid) = 1) := by
  refine ⟨?_, ?_, ?_⟩
  · intro hread hset hupdate hout
    generalize hrun : loginUser { env with sendEmailVerification := dispatch } email
      password w = out
    have h := hrun
    cases hl : w.users.lookup user.uid with
    | none =>
      have hset2 := hset hl
      cases dispatch <;>
      · simp [loginUser, loginUserChecks, Eff.tryCatch, bind, Eff.andThen, pure, Eff.ret,
          signInWithEmailAndPassword, reload, getDoc, setDoc, signOut,
          sendEmailVerification, logCall, failWith, AuthResult.bare,
          hsign, hreload, hread, hset2, hout, hl] at h
        subst h
        refine ⟨_, _, rfl, rfl, rfl, ?_, ?_, ?_⟩ <;> simp [List.count_cons]
    | some p =>
      have hp : ¬ p.isActive = some false := hprofile p hl
      rcases hpe : p.emailVerified with _ | _ | _
      · have hupdate2 := hupdate p hl (by simp [hpe])
        cases dispatch <;>
        · simp [loginUser, loginUserChecks, Eff.tryCatch, bind, Eff.andThen, pure, Eff.ret,
            signInWithEmailAndPassword, reload, getDoc, updateDoc, signOut,
            sendEmailVerification, logCall, failWith, AuthResult.bare,
            hsign, hreload, hread, hupdate2, hout, hl, hp, hpe] at h
          subst h
          refine ⟨_, _, rfl, rfl, rfl, ?_, ?_, ?_⟩ <;> simp [List.count_cons]
      · cases dispatch <;>
        · simp [loginUser, loginUserChecks, Eff.tryCatch, bind, Eff.andThen, pure, Eff.ret,
            signInWithEmailAndPassword, reload, getDoc, updateDoc, signOut,
            sendEmailVerification, logCall, failWith, AuthResult.bare,
            hsign, hreload, hread, hout, hl, hp, hpe] at h
          subst h
          refine ⟨_, _, rfl, rfl, rfl, ?_, ?_, ?_⟩ <;> simp [List.count_cons]
      · have hupdate2 := hupdate p hl (by simp [hpe])
        cases dispatch <;>
        · simp [loginUser, loginUserChecks, Eff.tryCatch, bind, Eff.andThen, pure, Eff.ret,
            signInWithEmailAndPassword, reload, getDoc, updateDoc, signOut,
            sendEmailVerification, logCall, failWith, AuthResult.bare,
            hsign, hreload, hread, hupdate2, hout, hl, hp, hpe] at h
          subst h
          refine ⟨_, _, rfl, rfl, rfl, ?_, ?_, ?_⟩ <;> simp [List.count_cons]
  · intro hfail
    generalize hrun : loginUser { env with sendEmailVerification := dispatch } email
      password w = out
    have h := hrun
    cases hread : env.getDoc w.reads with
    | some e =>
      simp [loginUser, Eff.tryCatch, bind, Eff.andThen, pure, Eff.ret,
        signInWithEmailAndPassword, reload, getDoc, logCall, hsign, hreload, hread] at h
      subst h
      refine ⟨_, _, _, rfl, rfl, rfl, rfl, rfl, rfl, ?_, ?_⟩ <;> simp
    | none =>
      rcases hfail with hf | ⟨hl, hf⟩ | ⟨p, hl, hpe, hf⟩
      · exact absurd hread hf
      · cases hset : env.setDoc with
        | none => exact absurd hset hf
        | some e =>
          simp [loginUser, Eff.tryCatch, bind, Eff.andThen, pure, Eff.ret,
            signInWithEmailAndPassword, reload, getDoc, setDoc, logCall, failWith,
            hsign, hreload, hread, hset, hl] at h
          subst h
          refine ⟨_, _, _, rfl, rfl, rfl, rfl, rfl, rfl, ?_, ?_⟩ <;> simp
      · have hp : ¬ p.isActive = some false := hprofile p hl
        have hne : ¬ some false = p.emailVerified := fun e => hpe e.symm
        cases hupd : env.updateDoc with
        | none => exact absurd hupd hf
        | some e =>
          simp [loginUser, Eff.tryCatch, bind, Eff.andThen, pure, Eff.ret,
            signInWithEmailAndPassword, reload, getDoc, updateDoc, logCall, failWith,
            hsign, hreload, hread, hupd, hl, hp, hne] at h
          subst h
          refine ⟨_, _, _, rfl, rfl, rfl, rfl, rfl, rfl, ?_, ?_⟩ <;> simp
  · intro hread hset hupdate hout
    generalize hrun : loginUser { env with sendEmailVerification := dispatch } email
      password w = out
    have h := hrun
    cases hso : env.signOut with
    | none => exact absurd hso hout
    | some e =>
      cases hl : w.users.lookup user.uid with
      | none =>
        have hset2 := hset hl
        cases dispatch <;>
        · simp [loginUser, loginUserChecks, Eff.tryCatch, bind, Eff.andThen, pure, Eff.ret,
            signInWithEmailAndPassword, reload, getDoc, setDoc, signOut,
            sendEmailVerification, logCall, failWith, AuthResult.bare,
            hsign, hreload, hread, hset2, hso, hl] at h
          subst h
          refine ⟨_, _, _, rfl, rfl, rfl, rfl, rfl, rfl, ?_⟩
          simp [List.count_cons]
      | some p =>
        have hp : ¬ p.isActive = some false := hprofile p hl
        rcases hpe : p.emailVerified with _ | _ | _
        · have hupdate2 := hupdate p hl (by simp [hpe])
          cases dispatch <;>
          · simp [loginUser, loginUserChecks, Eff.tryCatch, bind, Eff.andThen, pure,
              Eff.ret, signInWithEmailAndPassword, reload, getDoc, updateDoc, signOut,
              sendEmailVerification, logCall, failWith, AuthResult.bare,
              hsign, hreload, hread, hupdate2, hso, hl, hp, hpe] at h
            subst h
            refine ⟨_, _, _, rfl, rfl, rfl, rfl, rfl, rfl, ?_⟩
            simp [List.count_cons]
        · cases dispatch <;>
          · simp [loginUser, loginUserChecks, Eff.tryCatch, bind, Eff.andThen, pure,
              Eff.ret, signInWithEmailAndPassword, reload, getDoc, updateDoc, signOut,
              sendEmailVerification, logCall, failWith, AuthResult.bare,
              hsign, hreload, hread, hso, hl, hp, hpe] at h
            subst h
            refine ⟨_, _, _, rfl, rfl, rfl, rfl, rfl, rfl, ?_⟩
            simp [List.count_cons]
        · have hupdate2 := hupdate p hl (by simp [hpe])
          cases dispatch <;>
          · simp [loginUser, loginUserChecks, Eff.tryCatch, bind, Eff.andThen, pure,
              Eff.ret, signInWithEmailAndPassword, reload, getDoc, updateDoc, signOut,
              sendEmailVerification, logCall, failWith, AuthResult.bare,
              hsign, hreload, hread, hupdate2, hso, hl, hp, hpe] at h
            subst h
            refine ⟨_, _, _, rfl, rfl, rfl, rfl, rfl, rfl, ?_⟩
            simp [List.count_cons]

/-- C8 as amended, at a concrete input: `sampleUser`, whose email is not verified, signs
in on an active profile while the verification-email dispatch throws. -/
theorem unverified_email_login_witness :
    ∃ w' calls,
      loginUser { calmEnv false with sendEmailVerification := some typeError } "a@b.com" "pw"
          (sampleWorld [("u1", sampleProfile "user" false false true)])
        = (.ok { AuthResult.bare false with
                 error := some "Please verify your email to continue",
                 code := some "auth/email-not-verified", email := sampleUser.email }, w') ∧
      w'.currentUser = none ∧
      w'.log = (sampleWorld [("u1", sampleProfile "user" false false true)]).log ++ calls ∧
      calls.count (.sendEmailVerification sampleUser.uid) = 1 ∧
      calls.getLast? = some .signOut ∧
      calls.dropLast.getLast? = some (.sendEmailVerification sampleUser.uid) :=
  have hlook : (sampleWorld [("u1", sampleProfile "user" false false true)]).users.lookup
      sampleUser.uid = some (sampleProfile "user" false false true) := by decide
  (unverified_email_login (calmEnv false) "a@b.com" "pw"
    (sampleWorld [("u1", sampleProfile "user" false false true)]) sampleUser
    (some typeError) rfl rfl
    (fun p hp => by
      rw [hlook] at hp
      cases hp
      decide)).1 rfl (fun _ => rfl) (fun _ _ _ => rfl) rfl

/-! ## Successful login and registration -/

/-- C9 fails as stated: the sign-in and all store reads succeed, the provider's
`emailVerified`, the profile's `isVerified` and the profile's `isActive` are all true, and
`loginUser` returns `success = false`, because the write that syncs the stored
`emailVerified` throws; the `login` thunk is then rejected. -/
theorem login_fails_when_sync_write_throws :
    syncWriteFailsEnv.signIn "a@b.com" "pw" = .ok sampleUser ∧
    syncWriteFailsEnv.reload = .ok true ∧
    syncWriteFailsEnv.getDoc 0 = none ∧ syncWriteFailsEnv.getDoc 1 = none ∧
    syncWriteFailsEnv.getDoc 2 = none ∧
    (sampleWorld [("u1", staleProfile)]).users.lookup sampleUser.uid = some staleProfile ∧
    staleProfile.isVerified = some true ∧ staleProfile.isActive = some true ∧
    (∃ res w', loginUser syncWriteFailsEnv "a@b.com" "pw" (sampleWorld [("u1", staleProfile)])
        = (.ok res, w') ∧ res.success = false) ∧
    (∃ value w', login syncWriteFailsEnv "a@b.com" "pw" (sampleWorld [("u1", staleProfile)])
        = (.ok (.rejectedWithValue value), w')) := by
  refine ⟨rfl, rfl, rfl, rfl, rfl, by decide, rfl, rfl, ?_, ?_⟩
  · generalize hrun : loginUser syncWriteFailsEnv "a@b.com" "pw"
      (sampleWorld [("u1", staleProfile)]) = out
    have h := hrun
    simp [loginUser, Eff.tryCatch, bind, Eff.andThen, pure, Eff.ret,
      signInWithEmailAndPassword, reload, getDoc, updateDoc, logCall,
      failWith, AuthResult.bare, caughtResult, syncWriteFailsEnv, calmEnv, sampleWorld,
      staleProfile, sampleProfile, sampleUser, List.lookup] at h
    subst h
    exact ⟨_, _, rfl, rfl⟩
  · generalize hrun : login syncWriteFailsEnv "a@b.com" "pw"
      (sampleWorld [("u1", staleProfile)]) = out
    have h := hrun
    simp [login, loginUser, Eff.tryCatch, bind, Eff.andThen, pure, Eff.ret,
      signInWithEmailAndPassword, reload, getDoc, updateDoc, logCall,
      failWith, AuthResult.bare, caughtResult, syncWriteFailsEnv, calmEnv, sampleWorld,
      staleProfile, sampleProfile, sampleUser, List.lookup] at h
    subst h
    exact ⟨_, _, rfl⟩

/-- C9 as amended. For a `loginUser` call in which the sign-in, the reload and all store
reads succeed, the write that syncs the stored `emailVerified` succeeds when one is made
(it is made when the stored flag is not already true), and the provider's `emailVerified`,
the profile's `isVerified` and the profile's `isActive` are all true: `loginUser` returns
`success = true`, the `login` thunk is fulfilled, no `signOut` is called and the provider
session stays active, and reducing `login.fulfilled` with the payload yields
`isAuthenticated = true`, `loading = false` and `isAdmin = true` exactly when the
profile's role is `admin`. -/
theorem login_success_authenticates (env : Env) (email password : String) (w : World)
    (user : FirebaseUser) (profile : UserDoc) (state : AuthState)
    (hsign : env.signIn email password = .ok user) (hreload : env.reload = .ok true)
    (hreads : ∀ n, env.getDoc n = none)
    (hprofile : w.users.lookup user.uid = some profile)
    (hver : profile.isVerified = some true) (hact : profile.isActive = some true)
    (hsync : profile.emailVerified ≠ some true → env.updateDoc = none) :
    ∃ res w1 payload w2 calls,
      loginUser env email password w = (.ok res, w1) ∧ res.success = true ∧
      login env email password w = (.ok (.fulfilled payload), w2) ∧
      w2.log = w.log ++ calls ∧ Call.signOut ∉ calls ∧
      w2.currentUser = some { user with emailVerified := true } ∧
      (authReducer state (.loginFulfilled payload)).isAuthenticated = true ∧
      (authReducer state (.loginFulfilled payload)).loading = false ∧
      ((authReducer state (.loginFulfilled payload)).isAdmin = true
        ↔ profile.role = some "admin") := by
  generalize hrun : loginUser env email password w = out
  generalize hthunk : login env email password w = outThunk
  have h := hrun
  have ht := hthunk
  rcases hpe : profile.emailVerified with _ | _ | _
  · have hu : env.updateDoc = none := hsync (by simp [hpe])
    simp [loginUser, loginUserChecks, Eff.tryCatch, bind, Eff.andThen, pure, Eff.ret,
      signInWithEmailAndPassword, reload, getDoc, updateDoc, logCall, failWith,
      AuthResult.bare, hsign, hreload, hreads, hprofile, hver, hact, hpe, hu,
      List.lookup, UserDoc.update, UserFields.blank, orBool] at h
    simp [login, getUserData, loginPayload, loginUser, loginUserChecks, Eff.tryCatch, bind,
      Eff.andThen, pure, Eff.ret,
      signInWithEmailAndPassword, reload, getDoc, updateDoc, logCall, failWith,
      AuthResult.bare, hsign, hreload, hreads, hprofile, hver, hact, hpe, hu,
      List.lookup, UserDoc.update, UserFields.blank, orBool] at ht
    subst h
    subst ht
    refine ⟨_, _, _, _, _, rfl, rfl, rfl, rfl, ?_, rfl, rfl, rfl, ?_⟩
    · simp
    · simp [authReducer, roleIsAdmin]
  · have hu : env.updateDoc = none := hsync (by simp [hpe])
    simp [loginUser, loginUserChecks, Eff.tryCatch, bind, Eff.andThen, pure, Eff.ret,
      signInWithEmailAndPassword, reload, getDoc, updateDoc, logCall, failWith,
      AuthResult.bare, hsign, hreload, hreads, hprofile, hver, hact, hpe, hu,
      List.lookup, UserDoc.update, UserFields.blank, orBool] at h
    simp [login, getUserData, loginPayload, loginUser, loginUserChecks, Eff.tryCatch, bind,
      Eff.andThen, pure, Eff.ret,
      signInWithEmailAndPassword, reload, getDoc, updateDoc, logCall, failWith,
      AuthResult.bare, hsign, hreload, hreads, hprofile, hver, hact, hpe, hu,
      List.lookup, UserDoc.update, UserFields.blank, orBool] at ht
    subst h
    subst ht
    refine ⟨_, _, _, _, _, rfl, rfl, rfl, rfl, ?_, rfl, rfl, rfl, ?_⟩
    · simp
    · simp [authReducer, roleIsAdmin]
  · simp [loginUser, loginUserChecks, Eff.tryCatch, bind, Eff.andThen, pure, Eff.ret,
      signInWithEmailAndPassword, reload, getDoc, logCall, failWith,
      AuthResult.bare, hsign, hreload, hreads, hprofile, hver, hact, hpe,
      orBool] at h
    simp [login, getUserData, loginPayload, loginUser, loginUserChecks, Eff.tryCatch, bind,
      Eff.andThen, pure, Eff.ret,
      signInWithEmailAndPassword, reload, getDoc, logCall, failWith,
      AuthResult.bare, hsign, hreload, hreads, hprofile, hver, hact, hpe,
      orBool] at ht
    subst h
    subst ht
    refine ⟨_, _, _, _, _, rfl, rfl, rfl, rfl, ?_, rfl, rfl, rfl, ?_⟩
    · simp
    · simp [authReducer, roleIsAdmin]

/-- C9 as amended, at a concrete input: `sampleUser`, whose email the reload reports as
verified, signs in on an active, verified profile with the role `admin`. -/
theorem login_success_authenticates_witness :
    ∃ payload w2,
      login (calmEnv true) "a@b.com" "pw"
          (sampleWorld [("u1", sampleProfile "admin" true true true)])
        = (.ok (.fulfilled payload), w2) ∧
      (authReducer initialState (.loginFulfilled payload)).isAuthenticated = true ∧
      (authReducer initialState (.loginFulfilled payload)).loading = false ∧
      (authReducer initialState (.loginFulfilled payload)).isAdmin = true := by
  obtain ⟨_, _, payload, w2, _, _, _, h3, _, _, _, h7, h8, h9⟩ :=
    login_success_authenticates (calmEnv true) "a@b.com" "pw"
      (sampleWorld [("u1", sampleProfile "admin" true true true)]) sampleUser
      (sampleProfile "admin" true true true) initialState rfl rfl (fun _ => rfl)
      (by decide) rfl rfl (fun _ => rfl)
  exact ⟨payload, w2, h3, h7, h8, h9.mpr rfl⟩

/-- A successful `registerUser` result carries `emailSent = true` and the new user. -/
theorem registerUser_success (env : Env) (email password : String) (input : RegisterInput)
    (w : World) (res : AuthResult) (w' : World)
    (h : registerUser env email password input w = (.ok res, w'))
    (hs : res.success = true) :
    res.emailSent = some true ∧ ∃ user, res.user = some user := by
  cases hc : env.createUser email password <;>
    cases hn : orString input.displayName none <;>
    cases hp : env.updateProfile <;>
    cases hv : env.sendEmailVerification <;>
    cases hd : env.setDoc <;>
    cases ho : env.signOut <;>
    simp [registerUser, Eff.tryCatch, bind, Eff.andThen, pure, Eff.ret,
      createUserWithEmailAndPassword, updateProfile, sendEmailVerification, setDoc, signOut,
      logCall, failWith, AuthResult.bare, caughtResult, hc, hn, hp, hv, hd, ho] at h <;>
    obtain ⟨rfl, rfl⟩ := h <;>
    simp at hs ⊢

/-- C10. For every auth state and every payload with which the `register` thunk is
fulfilled, reducing `register.fulfilled` yields `isAuthenticated = false` and
`isAdmin = false`, and the payload carries `emailSent = true`. -/
theorem register_never_authenticates (env : Env) (arg : RegisterArg) (w w' : World)
    (payload : RegisterPayload) (state : AuthState)
    (h : register env arg w = (.ok (.fulfilled payload), w')) :
    (authReducer state (.registerFulfilled payload)).isAuthenticated = false ∧
    (authReducer state (.registerFulfilled payload)).isAdmin = false ∧
    payload.emailSent = true := by
  rcases hr : registerUser env arg.email arg.password
      (arg.userData.getD { displayName := none, phoneNumber := none, photoURL := none }) w
    with ⟨(e | res), w1⟩
  · simp [register, bind, Eff.andThen, hr] at h
  · by_cases hs : res.success = true
    · obtain ⟨hsent, user, huser⟩ := registerUser_success _ _ _ _ _ _ _ hr hs
      simp [register, bind, Eff.andThen, pure, Eff.ret, hr, hs, huser, hsent, orBool] at h
      obtain ⟨rfl, rfl⟩ := h
      simp [authReducer, roleIsAdmin, UserDoc.blank]
    · simp [register, bind, Eff.andThen, pure, Eff.ret, hr, hs] at h

/-- C10 at a concrete input: `a@b.com` registers in an environment where no call
throws, starting from the initial auth state. -/
theorem register_never_authenticates_witness :
    ∃ payload w',
      register (calmEnv false)
          { email := "a@b.com", password := "pw", userData := none } (sampleWorld [])
        = (.ok (.fulfilled payload), w') ∧
      w'.currentUser = none ∧
      (authReducer initialState (.registerFulfilled payload)).isAuthenticated = false ∧
      (authReducer initialState (.registerFulfilled payload)).isAdmin = false ∧
      payload.emailSent = true := by
  generalize hrun : register (calmEnv false)
    { email := "a@b.com", password := "pw", userData := none } (sampleWorld []) = out
  have h := hrun
  simp [register, registerUser, Eff.tryCatch, bind, Eff.andThen, pure, Eff.ret,
    createUserWithEmailAndPassword, updateProfile, sendEmailVerification, setDoc, signOut,
    logCall, failWith, AuthResult.bare, calmEnv, sampleWorld, sampleUser, orString,
    orBool] at h
  subst h
  have key := register_never_authenticates (calmEnv false)
    { email := "a@b.com", password := "pw", userData := none } (sampleWorld []) _ _
    initialState hrun
  exact ⟨_, _, hrun, rfl, key.1, key.2.1, key.2.2⟩

/-! ## Registration and the verification sync -/

theorem callsSince_append (w w' : World) (calls : List Call)
    (h : w'.log = w.log ++ calls) : callsSince w w' = calls := by
  simp [callsSince, h]

/-- On the all-success path `registerUser` writes a profile with `role = 'user'`,
`emailVerified = false`, `isVerified = false`, `isActive = true`, its last call is the
sign-out and no provider session remains. -/
theorem registerUser_all_success (env : Env) (email password : String)
    (input : RegisterInput) (w : World) (user : FirebaseUser)
    (hcreate : env.createUser email password = .ok user)
    (hprofile : env.updateProfile = none) (hsend : env.sendEmailVerification = none)
    (hset : env.setDoc = none) (hout : env.signOut = none) :
    ∃ res w' doc,
      registerUser env email password input w = (.ok res, w') ∧
      res.success = true ∧ res.emailSent = some true ∧
      w'.currentUser = none ∧
      (callsSince w w').getLast? = some .signOut ∧
      writesSince w w' = [.setDoc user.uid doc] ∧
      w'.users.lookup user.uid = some doc ∧
      doc.role = some "user" ∧ doc.emailVerified = some false ∧
      doc.isVerified = some false ∧ doc.isActive = some true := by
  generalize hrun : registerUser env email password input w = out
  have h := hrun
  cases hn : orString input.displayName none <;>
  · simp [registerUser, Eff.tryCatch, bind, Eff.andThen, pure, Eff.ret,
      createUserWithEmailAndPassword, updateProfile, sendEmailVerification, setDoc, signOut,
      logCall, failWith, AuthResult.bare, hcreate, hprofile, hsend, hset, hout, hn] at h
    subst h
    refine ⟨_, _,
      { uid := some user.uid, email := user.email,
        displayName := orString input.displayName (some ""),
        phoneNumber := orString input.phoneNumber none,
        photoURL := orString input.photoURL none,
        role := some "user", provider := some "password",
        emailVerified := some false, isVerified := some false, isActive := some true,
        createdAt := some env.serverTime, updatedAt := some env.serverTime },
      rfl, rfl, rfl, rfl, ?_, ?_, ?_, rfl, rfl, rfl, rfl⟩
    · simp [callsSince]
    · simp [writesSince, callsSince, List.filter, Call.isWrite]
    · simp [List.lookup]

/-- C11 fails on the code: when the principal is created and then the display-name
update, the verification-email dispatch or the profile write throws, `registerUser`
returns `success = false` from its `catch` block without calling `signOut`, and the
provider session of the new principal stays active. -/
theorem register_failure_keeps_session :
    (∃ res w', registerUser { calmEnv false with updateProfile := some networkError }
        "a@b.com" "pw" sampleInput (sampleWorld []) = (.ok res, w') ∧
      res.success = false ∧ w'.currentUser.isSome = true ∧ Call.signOut ∉ w'.log) ∧
    (∃ res w', registerUser { calmEnv false with sendEmailVerification := some networkError }
        "a@b.com" "pw" sampleInput (sampleWorld []) = (.ok res, w') ∧
      res.success = false ∧ w'.currentUser.isSome = true ∧ Call.signOut ∉ w'.log) ∧
    (∃ res w', registerUser { calmEnv false with setDoc := some networkError }
        "a@b.com" "pw" sampleInput (sampleWorld []) = (.ok res, w') ∧
      res.success = false ∧ w'.currentUser.isSome = true ∧ Call.signOut ∉ w'.log) := by
  refine ⟨?_, ?_, ?_⟩
  · generalize hrun : registerUser { calmEnv false with updateProfile := some networkError }
      "a@b.com" "pw" sampleInput (sampleWorld []) = out
    have h := hrun
    simp [registerUser, Eff.tryCatch, bind, Eff.andThen, pure, Eff.ret,
      createUserWithEmailAndPassword, updateProfile, sendEmailVerification, setDoc, signOut,
      logCall, failWith, AuthResult.bare, caughtResult, calmEnv, sampleWorld, sampleInput,
      orString] at h
    subst h
    exact ⟨_, _, rfl, rfl, rfl, by simp⟩
  · generalize hrun : registerUser
      { calmEnv false with sendEmailVerification := some networkError }
      "a@b.com" "pw" sampleInput (sampleWorld []) = out
    have h := hrun
    simp [registerUser, Eff.tryCatch, bind, Eff.andThen, pure, Eff.ret,
      createUserWithEmailAndPassword, updateProfile, sendEmailVerification, setDoc, signOut,
      logCall, failWith, AuthResult.bare, caughtResult, calmEnv, sampleWorld, sampleInput,
      orString] at h
    subst h
    exact ⟨_, _, rfl, rfl, rfl, by simp⟩
  · generalize hrun : registerUser { calmEnv false with setDoc := some networkError }
      "a@b.com" "pw" sampleInput (sampleWorld []) = out
    have h := hrun
    simp [registerUser, Eff.tryCatch, bind, Eff.andThen, pure, Eff.ret,
      createUserWithEmailAndPassword, updateProfile, sendEmailVerification, setDoc, signOut,
      logCall, failWith, AuthResult.bare, caughtResult, calmEnv, sampleWorld, sampleInput,
      orString] at h
    subst h
    exact ⟨_, _, rfl, rfl, rfl, by simp⟩

/-- When the stored flags already agree with the provider's flag, `syncEmailVerification`
makes no store write and leaves the documents as they are. -/
theorem syncEmailVerification_no_write (env : Env) (arg : UserArg) (w : World) (v : Bool)
    (p : UserDoc) (hreload : env.reload = .ok v)
    (hp : w.users.lookup arg.toUid = some p) (hev : p.emailVerified = some v)
    (hiv : v = true → p.isVerified = some true) :
    writesSince w (syncEmailVerification env arg w).2 = [] ∧
      (syncEmailVerification env arg w).2.users = w.users := by
  generalize hrun : syncEmailVerification env arg w = out
  have h := hrun
  have hiv2 : ¬ (v = true ∧ ¬ p.isVerified = some v) :=
    fun hc => hc.2 (by rw [hiv hc.1, hc.1])
  cases arg with
  | uid s =>
    simp only [UserArg.toUid] at hp
    cases hc : w.currentUser with
    | none =>
      simp [syncEmailVerification, Eff.tryCatch, bind, Eff.andThen, pure, Eff.ret, hc,
        AuthResult.bare] at h
      subst h
      simp [writesSince, callsSince]
    | some cu =>
      by_cases hu : cu.uid = s
      · cases hg : env.getDoc w.reads <;>
        · simp [syncEmailVerification, Eff.tryCatch, bind, Eff.andThen, pure, Eff.ret, hc,
            AuthResult.bare, reload, getDoc, logCall, hreload, hg, hu, hp, hev, hiv2] at h
          subst h
          simp [writesSince, callsSince, List.filter, Call.isWrite]
      · simp [syncEmailVerification, Eff.tryCatch, bind, Eff.andThen, pure, Eff.ret, hc,
          AuthResult.bare, hu] at h
        subst h
        simp [writesSince, callsSince]
  | user u =>
    simp only [UserArg.toUid] at hp
    cases hg : env.getDoc w.reads <;>
    · simp [syncEmailVerification, Eff.tryCatch, bind, Eff.andThen, pure, Eff.ret,
        AuthResult.bare, reload, getDoc, logCall, hreload, hg, hp, hev, hiv2] at h
      subst h
      simp [writesSince, callsSince, List.filter, Call.isWrite]

/-- A `syncEmailVerification` call that stops before the profile is found (no current
user or a uid mismatch, a reload that throws, or no document) makes no store write. -/
theorem syncEmailVerification_early (env : Env) (arg : UserArg) (w1 : World)
    (hearly : (match arg with
        | .uid s => w1.currentUser = none ∨ ∃ cu, w1.currentUser = some cu ∧ cu.uid ≠ s
        | .user _ => False) ∨
      (∃ e, env.reload = .error e) ∨
      ((∃ v, env.reload = .ok v) ∧ w1.users.lookup arg.toUid = none)) :
    writesSince w1 (syncEmailVerification env arg w1).2 = [] ∧
      (syncEmailVerification env arg w1).2.users = w1.users := by
  generalize hrun1 : syncEmailVerification env arg w1 = out1
  have h1 := hrun1
  cases arg with
  | uid s =>
    cases hc : w1.currentUser with
    | none =>
      simp [syncEmailVerification, Eff.tryCatch, bind, Eff.andThen, pure, Eff.ret, hc,
        AuthResult.bare] at h1
      subst h1
      simp [writesSince, callsSince]
    | some cu =>
      by_cases hu : cu.uid = s
      · rcases hearly with hm | ⟨e, he⟩ | ⟨⟨v, hv⟩, hl⟩
        · simp [hc, hu] at hm
        · simp [syncEmailVerification, Eff.tryCatch, bind, Eff.andThen, pure, Eff.ret, hc,
            AuthResult.bare, reload, logCall, he, hu] at h1
          subst h1
          simp [writesSince, callsSince, List.filter, Call.isWrite]
        · simp only [UserArg.toUid] at hl
          cases hg : env.getDoc w1.reads <;>
          · simp [syncEmailVerification, Eff.tryCatch, bind, Eff.andThen, pure, Eff.ret,
              hc, AuthResult.bare, reload, getDoc, logCall, hv, hg, hu, hl] at h1
            subst h1
            simp [writesSince, callsSince, List.filter, Call.isWrite]
      · simp [syncEmailVerification, Eff.tryCatch, bind, Eff.andThen, pure, Eff.ret, hc,
          AuthResult.bare, hu] at h1
        subst h1
        simp [writesSince, callsSince]
  | user u =>
    rcases hearly with hm | ⟨e, he⟩ | ⟨⟨v, hv⟩, hl⟩
    · exact absurd hm (by simp)
    · simp [syncEmailVerification, Eff.tryCatch, bind, Eff.andThen, pure, Eff.ret,
        AuthResult.bare, reload, logCall, he] at h1
      subst h1
      simp [writesSince, callsSince, List.filter, Call.isWrite]
    · simp only [UserArg.toUid] at hl
      cases hg : env.getDoc w1.reads <;>
      · simp [syncEmailVerification, Eff.tryCatch, bind, Eff.andThen, pure, Eff.ret,
          AuthResult.bare, reload, getDoc, logCall, hv, hg, hl] at h1
        subst h1
        simp [writesSince, callsSince, List.filter, Call.isWrite]

theorem lookup_cons_self {α : Type} (key : String) (value : α)
    (rest : List (String × α)) : List.lookup key ((key, value) :: rest) = some value := by
  simp [List.lookup]

/-- After a `syncEmailVerification` call in which the profile read and the write (if one
is made) did not throw, a second call with the provider flag unchanged makes no store
write. -/
theorem syncEmailVerification_twice (env : Env) (arg : UserArg) (w : World)
    (hread : env.getDoc w.reads = none) (hupdate : env.updateDoc = none) :
    writesSince (syncEmailVerification env arg w).2
        (syncEmailVerification env arg (syncEmailVerification env arg w).2).2 = [] ∧
      (syncEmailVerification env arg (syncEmailVerification env arg w).2).2.users
        = (syncEmailVerification env arg w).2.users := by
  generalize hrun : syncEmailVerification env arg w = out
  have h := hrun
  cases hr : env.reload with
  | error e =>
    exact syncEmailVerification_early env arg out.2 (Or.inr (Or.inl ⟨e, hr⟩))
  | ok v =>
    -- the run once the user is known: `uid` is the document read
    have found : ∀ (w0 : World) (uid : String) (p : UserDoc), arg.toUid = uid →
        w0.users.lookup uid = some p →
        ¬ (some v ≠ p.emailVerified ∨ (v = true ∧ p.isVerified ≠ some v)) →
        writesSince w0 (syncEmailVerification env arg w0).2 = [] ∧
          (syncEmailVerification env arg w0).2.users = w0.users := by
      intro w0 uid p hu hl hneed
      have h1 : p.emailVerified = some v := by
        by_contra hne
        exact hneed (Or.inl (fun heq => hne heq.symm))
      have h2 : v = true → p.isVerified = some true := by
        intro hv
        by_contra hne
        exact hneed (Or.inr ⟨hv, by rw [hv]; exact hne⟩)
      exact syncEmailVerification_no_write env arg w0 v p hr (hu ▸ hl) h1 h2
    have updated : ∀ (p : UserDoc) (fields : UserFields),
        fields.emailVerified = some (some v) → fields.isVerified = some (some v) →
        ¬ (some v ≠ (p.update fields).emailVerified ∨
            (v = true ∧ (p.update fields).isVerified ≠ some v)) := by
      intro p fields h1 h2
      simp [UserDoc.update, h1, h2]
    cases arg with
    | uid s =>
      cases hc : w.currentUser with
      | none =>
        simp [syncEmailVerification, Eff.tryCatch, bind, Eff.andThen, pure, Eff.ret, hc,
          AuthResult.bare] at h
        subst h
        exact syncEmailVerification_early env (.uid s) _ (Or.inl (Or.inl hc))
      | some cu =>
        by_cases hu : cu.uid = s
        · cases hl : w.users.lookup s with
          | none =>
            simp [syncEmailVerification, Eff.tryCatch, bind, Eff.andThen, pure, Eff.ret, hc,
              AuthResult.bare, reload, getDoc, logCall, hr, hread, hu, hl] at h
            subst h
            exact syncEmailVerification_early env (.uid s) _
              (Or.inr (Or.inr ⟨⟨v, hr⟩, hl⟩))
          | some p =>
            by_cases hneed : (some v ≠ p.emailVerified ∨ (v = true ∧ p.isVerified ≠ some v))
            · simp [syncEmailVerification, Eff.tryCatch, bind, Eff.andThen, pure, Eff.ret,
                hc, AuthResult.bare, reload, getDoc, updateDoc, failWith, logCall, hr,
                hread, hupdate, hu, hl, hneed] at h
              subst h
              exact found _ s _ rfl (lookup_cons_self _ _ _) (updated p _ rfl rfl)
            · simp [syncEmailVerification, Eff.tryCatch, bind, Eff.andThen, pure, Eff.ret,
                hc, AuthResult.bare, reload, getDoc, logCall, hr,
                hread, hu, hl, hneed] at h
              subst h
              exact found _ s p rfl hl hneed
        · simp [syncEmailVerification, Eff.tryCatch, bind, Eff.andThen, pure, Eff.ret, hc,
            AuthResult.bare, hu] at h
          subst h
          exact syncEmailVerification_early env (.uid s) _ (Or.inl (Or.inr ⟨cu, hc, hu⟩))
    | user u =>
      cases hl : w.users.lookup u.uid with
      | none =>
        simp [syncEmailVerification, Eff.tryCatch, bind, Eff.andThen, pure, Eff.ret,
          AuthResult.bare, reload, getDoc, logCall, hr, hread, hl] at h
        subst h
        exact syncEmailVerification_early env (.user u) _ (Or.inr (Or.inr ⟨⟨v, hr⟩, hl⟩))
      | some p =>
        by_cases hneed : (some v ≠ p.emailVerified ∨ (v = true ∧ p.isVerified ≠ some v))
        · simp [syncEmailVerification, Eff.tryCatch, bind, Eff.andThen, pure, Eff.ret,
            AuthResult.bare, reload, getDoc, updateDoc, failWith, logCall, hr,
            hread, hupdate, hl, hneed] at h
          subst h
          exact found _ u.uid _ rfl (lookup_cons_self _ _ _) (updated p _ rfl rfl)
        · simp [syncEmailVerification, Eff.tryCatch, bind, Eff.andThen, pure, Eff.ret,
            AuthResult.bare, reload, getDoc, logCall, hr, hread, hl, hneed] at h
          subst h
          exact found _ u.uid p rfl hl hneed

/-- C12 fails as stated: the provider reports the email as verified and the stored
profile has `emailVerified = false`. The first `syncEmailVerification` call returns a
failure because its profile read throws, and writes nothing; the second call, made right
after with the provider flag unchanged, reads the profile and writes once. -/
theorem second_sync_writes_after_failed_read :
    (syncEmailVerification firstReadFailsEnv (.user verifiedUser)
        (sampleWorld [("u1", sampleProfile "user" false false true)])).1
      = .ok { AuthResult.bare false with error := some "FirebaseError" } ∧
    writesSince (sampleWorld [("u1", sampleProfile "user" false false true)])
        (syncEmailVerification firstReadFailsEnv (.user verifiedUser)
          (sampleWorld [("u1", sampleProfile "user" false false true)])).2 = [] ∧
    (syncEmailVerification firstReadFailsEnv (.user verifiedUser)
        (syncEmailVerification firstReadFailsEnv (.user verifiedUser)
          (sampleWorld [("u1", sampleProfile "user" false false true)])).2).1
      = .ok { AuthResult.bare true with
              emailVerified := some true, isVerified := some true } ∧
    writesSince
        (syncEmailVerification firstReadFailsEnv (.user verifiedUser)
          (sampleWorld [("u1", sampleProfile "user" false false true)])).2
        (syncEmailVerification firstReadFailsEnv (.user verifiedUser)
          (syncEmailVerification firstReadFailsEnv (.user verifiedUser)
            (sampleWorld [("u1", sampleProfile "user" false false true)])).2).2
      = [.updateDoc "u1"
          { UserFields.blank with
            emailVerified := some (some true), isVerified := some (some true),
            updatedAt := some (some 1000) }] := by
  refine ⟨by rfl, by rfl, by rfl, by rfl⟩

/-- C12 as amended. For every provider `emailVerified` value `v` (what the reload
reports) and every stored profile: `syncEmailVerification` makes no store write when the
stored `emailVerified` equals `v` and, when `v` is true, the stored `isVerified` is true
as well; and after a first call whose profile read and write did not throw, a second call
made right after with the provider flag unchanged makes no store write. -/
theorem sync_writes_idempotent (env : Env) (arg : UserArg) (w : World) :
    (∀ (v : Bool) (p : UserDoc), env.reload = .ok v →
        w.users.lookup arg.toUid = some p → p.emailVerified = some v →
        (v = true → p.isVerified = some true) →
        writesSince w (syncEmailVerification env arg w).2 = []) ∧
    (env.getDoc w.reads = none → env.updateDoc = none →
        writesSince (syncEmailVerification env arg w).2
          (syncEmailVerification env arg (syncEmailVerification env arg w).2).2 = []) :=
  ⟨fun v p hr hp hev hiv => (syncEmailVerification_no_write env arg w v p hr hp hev hiv).1,
   fun hread hupdate => (syncEmailVerification_twice env arg w hread hupdate).1⟩

/-- C12 as amended, at a concrete input: the provider reports the email as verified,
the stored profile has `emailVerified = false`; the first call writes once, the second not at all. -/
theorem sync_writes_idempotent_witness :
    (writesSince (sampleWorld [("u1", sampleProfile "user" false false true)])
        (syncEmailVerification (calmEnv true) (.user verifiedUser)
          (sampleWorld [("u1", sampleProfile "user" false false true)])).2).length = 1 ∧
    writesSince
        (syncEmailVerification (calmEnv true) (.user verifiedUser)
          (sampleWorld [("u1", sampleProfile "user" false false true)])).2
        (syncEmailVerification (calmEnv true) (.user verifiedUser)
          (syncEmailVerification (calmEnv true) (.user verifiedUser)
            (sampleWorld [("u1", sampleProfile "user" false false true)])).2).2 = [] := by
  refine ⟨?_, (sync_writes_idempotent (calmEnv true) (.user verifiedUser)
    (sampleWorld [("u1", sampleProfile "user" false false true)])).2 rfl rfl⟩
  generalize hrun : syncEmailVerification (calmEnv true) (.user verifiedUser)
    (sampleWorld [("u1", sampleProfile "user" false false true)]) = out
  have h := hrun
  simp [syncEmailVerification, Eff.tryCatch, bind, Eff.andThen, pure, Eff.ret,
    AuthResult.bare, reload, getDoc, updateDoc, failWith, logCall, calmEnv, sampleWorld,
    sampleProfile, verifiedUser, sampleUser, List.lookup] at h
  subst h
  simp [writesSince, callsSince, sampleWorld, List.filter, Call.isWrite]

/-! ## Invariants of the auth slice -/

/-- Every action keeps `isAdmin` equal to `userData?.role === 'admin'`. -/
theorem authReducer_isAdmin (s : AuthState) (a : AuthAction)
    (h : s.isAdmin = roleIsAdmin s.userData) :
    (authReducer s a).isAdmin = roleIsAdmin (authReducer s a).userData := by
  cases a with
  | setUserData payload => cases payload <;> simp [authReducer, roleIsAdmin]
  | setEmailVerified payload =>
    cases hd : s.userData <;> simp [authReducer, roleIsAdmin, h, hd]
  | setIsVerified payload =>
    cases hd : s.userData <;> simp [authReducer, roleIsAdmin, h, hd]
  | setIsActive payload =>
    cases hd : s.userData <;> simp [authReducer, roleIsAdmin, h, hd]
  | _ => simp [authReducer, roleIsAdmin, h]

/-- Every action keeps "authenticated implies a user is present". -/
theorem authReducer_user (s : AuthState) (a : AuthAction)
    (h : s.isAuthenticated = true → s.user.isSome = true) :
    (authReducer s a).isAuthenticated = true → (authReducer s a).user.isSome = true := by
  cases a with
  | setUser payload => cases payload <;> simp [authReducer]
  | setUserData payload => cases payload <;> simpa [authReducer] using h
  | _ => first | (simp [authReducer]; done) | simpa [authReducer] using h

theorem roleIsAdmin_iff (userData : Option UserDoc) :
    roleIsAdmin userData = true ↔ ∃ d, userData = some d ∧ d.role = some "admin" := by
  cases userData <;> simp [roleIsAdmin]

/-- C17. In every auth state reachable from `initialState` by reducing actions of the
slice (with any payloads), `isAdmin` is true exactly when `userData` is non-null and its
role is `admin`. After `setUserData(p)`, `isAdmin` is `p.role === 'admin'` whatever the
previous state was, so a role that changed from `user` to `admin` between two
reconciliations is reflected after the second. -/
theorem isAdmin_follows_role :
    (∀ s, Reachable s →
      (s.isAdmin = true ↔ ∃ d, s.userData = some d ∧ d.role = some "admin")) ∧
    (∀ (s : AuthState) (p : UserDoc),
      (authReducer s (.setUserData (some p))).isAdmin = (p.role == some "admin")) ∧
    (∀ (s : AuthState) (p q : UserDoc), p.role = some "user" → q.role = some "admin" →
      (authReducer s (.setUserData (some p))).isAdmin = false ∧
      (authReducer (authReducer s (.setUserData (some p)))
        (.setUserData (some q))).isAdmin = true) := by
  refine ⟨?_, ?_, ?_⟩
  · intro s hs
    have inv : s.isAdmin = roleIsAdmin s.userData := by
      induction hs with
      | init => rfl
      | step s a _ ih => exact authReducer_isAdmin s a ih
    rw [inv]
    exact roleIsAdmin_iff s.userData
  · intro s p
    rfl
  · intro s p q hp hq
    simp [authReducer, hp, hq]

/-- C17 at a concrete input: the state reached from `initialState` by a `setUserData`
with the role `user` and then one with the role `admin`. -/
theorem isAdmin_follows_role_witness :
    ((authReducer (authReducer initialState
          (.setUserData (some (sampleProfile "user" true true true))))
        (.setUserData (some (sampleProfile "admin" true true true)))).isAdmin = true ↔
      ∃ d, (authReducer (authReducer initialState
          (.setUserData (some (sampleProfile "user" true true true))))
        (.setUserData (some (sampleProfile "admin" true true true)))).userData = some d ∧
        d.role = some "admin") ∧
    (authReducer initialState
        (.setUserData (some (sampleProfile "user" true true true)))).isAdmin = false ∧
    (authReducer (authReducer initialState
          (.setUserData (some (sampleProfile "user" true true true))))
        (.setUserData (some (sampleProfile "admin" true true true)))).isAdmin = true :=
  ⟨isAdmin_follows_role.1 _ (.step _ _ (.step _ _ .init)),
   isAdmin_follows_role.2.2 initialState (sampleProfile "user" true true true)
     (sampleProfile "admin" true true true) rfl rfl⟩

/-- C18. In every auth state reachable from `initialState` by reducing actions of the
slice (the payloads of `login.fulfilled` and `googleLogin.fulfilled` carry a user),
`isAuthenticated = true` implies that `user` is non-null; `setUser(u)` with a non-null
`u` sets `loading = true` and `setUser(null)` sets `loading = false`. -/
theorem authenticated_has_user :
    (∀ s, Reachable s → s.isAuthenticated = true → s.user.isSome = true) ∧
    (∀ (s : AuthState) (u : FirebaseUser), (authReducer s (.setUser (some u))).loading = true) ∧
    (∀ s : AuthState, (authReducer s (.setUser none)).loading = false) := by
  refine ⟨?_, fun _ _ => rfl, fun _ => rfl⟩
  intro s hs
  induction hs with
  | init => intro h; cases h
  | step s a _ ih => exact authReducer_user s a ih

/-- C18 at a concrete input: the state reached from `initialState` by `setUser` with
`sampleUser`. -/
theorem authenticated_has_user_witness :
    (authReducer initialState (.setUser (some sampleUser))).isAuthenticated = true ∧
    (authReducer initialState (.setUser (some sampleUser))).user.isSome = true :=
  ⟨rfl, authenticated_has_user.1 _ (.step _ _ .init) rfl⟩

/-- C19 fails as stated: from the initial state with an error message set,
`logout.fulfilled` leaves `loading = false` where `initialState` has `loading = true`,
and it leaves the error in place where `initialState` has `error = null`. -/
theorem logout_fulfilled_differs_from_initial :
    (authReducer { initialState with error := some (.message "Network error") }
        .logoutFulfilled).loading = false ∧
    initialState.loading = true ∧
    (authReducer { initialState with error := some (.message "Network error") }
        .logoutFulfilled).error = some (.message "Network error") ∧
    initialState.error = none ∧
    authReducer { initialState with error := some (.message "Network error") }
        .logoutFulfilled ≠ initialState := by
  refine ⟨rfl, rfl, rfl, rfl, ?_⟩
  intro h
  have := congrArg AuthState.loading h
  simp [authReducer, initialState] at this

/-- C19 as amended. For every auth state, reducing `logout.fulfilled` sets `user`,
`userData`, `isAuthenticated`, `isAdmin`, `emailVerified`, `isVerified` and `isActive` to
their values in `initialState`, sets `loading` to `false` (`initialState` has
`loading = true`) and leaves `error` as it was: the state afterwards is `initialState`
with `loading = false` and the previous `error`. -/
theorem logout_fulfilled_resets (s : AuthState) :
    (authReducer s .logoutFulfilled).user = initialState.user ∧
    (authReducer s .logoutFulfilled).userData = initialState.userData ∧
    (authReducer s .logoutFulfilled).isAuthenticated = initialState.isAuthenticated ∧
    (authReducer s .logoutFulfilled).isAdmin = initialState.isAdmin ∧
    (authReducer s .logoutFulfilled).emailVerified = initialState.emailVerified ∧
    (authReducer s .logoutFulfilled).isVerified = initialState.isVerified ∧
    (authReducer s .logoutFulfilled).isActive = initialState.isActive ∧
    (authReducer s .logoutFulfilled).loading = false ∧
    initialState.loading = true ∧
    (authReducer s .logoutFulfilled).error = s.error ∧
    authReducer s .logoutFulfilled
      = { initialState with loading := false, error := s.error } :=
  ⟨rfl, rfl, rfl, rfl, rfl, rfl, rfl, rfl, rfl, rfl, rfl⟩

/-! ## Lemmas on the calls made by the handler -/

theorem lookup_filter_ne {α : Type} (users : List (String × α)) (uid key : String)
    (h : key ≠ uid) :
    List.lookup key (users.filter (fun p => p.1 != uid)) = List.lookup key users := by
  induction users with
  | nil => rfl
  | cons x rest ih =>
    obtain ⟨k, d⟩ := x
    by_cases hk : k = uid
    · subst hk
      have hne : (key == k) = false := by simpa using h
      simp [List.filter, List.lookup, hne, ih]
    · have hk2 : (k != uid) = true := by simpa using hk
      simp only [List.filter, hk2, List.lookup]
      cases hkk : key == k <;> simp [ih]

/-- The store after a document has been replaced: the lookup of its key gives the new
document, every other lookup is unchanged. -/
theorem lookup_replace {α : Type} (users : List (String × α)) (uid key : String) (d : α) :
    List.lookup key ((uid, d) :: users.filter (fun p => p.1 != uid))
      = if key = uid then some d else List.lookup key users := by
  by_cases h : key = uid
  · subst h
    simp [List.lookup]
  · have hne : (key == uid) = false := by simpa using h
    simp [List.lookup, hne, h, lookup_filter_ne users uid key h]

/-- The first `getUserData` call of a run that finds the profile. -/
theorem getUserData_found (env : Env) (uid : String) (w : World) (p : UserDoc)
    (hread : env.getDoc w.reads = none) (hp : w.users.lookup uid = some p) :
    getUserData env uid w
      = (.ok { success := true, data := some p, error := none },
         { w with reads := w.reads + 1, log := w.log ++ [.getDoc uid] }) := by
  simp [getUserData, Eff.tryCatch, bind, Eff.andThen, pure, Eff.ret, getDoc, logCall,
    hread, hp]

/-- A `getUserData` call returns normally; it makes one read, and the data it returns, if
any, is the stored document. -/
theorem getUserData_run (env : Env) (uid : String) (w : World) :
    ∃ r, getUserData env uid w
        = (.ok r, { w with reads := w.reads + 1, log := w.log ++ [.getDoc uid] }) ∧
      ((if r.success then r.data else none) = none ∨
        (if r.success then r.data else none) = w.users.lookup uid) := by
  cases hread : env.getDoc w.reads <;> cases hp : w.users.lookup uid <;>
    simp [getUserData, Eff.tryCatch, bind, Eff.andThen, pure, Eff.ret, getDoc, logCall,
      hread, hp]

/-- A `checkEmailVerification` call returns normally, with `true` exactly when the reload
reports the email as verified; it makes the reload call and leaves the store as it is. -/
theorem checkEmailVerification_run (env : Env) (user : FirebaseUser) (w : World) :
    ∃ v w', checkEmailVerification env user w = (.ok v, w') ∧
      (v = true ↔ env.reload = .ok true) ∧
      (v = false ∨ env.reload = .ok v) ∧
      w'.users = w.users ∧ w'.log = w.log ++ [.reload user.uid] := by
  generalize hrun : checkEmailVerification env user w = out
  have h := hrun
  rcases hr : env.reload with e | v <;>
  · simp [checkEmailVerification, Eff.tryCatch, bind, Eff.andThen, pure, Eff.ret, reload,
      logCall, hr] at h
    subst h
    exact ⟨_, _, rfl, by simp, by simp, rfl, rfl⟩

/-- A `logoutUser` call returns normally; it makes the sign-out call and leaves the store
as it is. -/
theorem logoutUser_run (env : Env) (w : World) :
    ∃ r w', logoutUser env w = (.ok r, w') ∧
      w'.users = w.users ∧ w'.log = w.log ++ [.signOut] ∧
      (env.signOut = none → w'.currentUser = none) := by
  generalize hrun : logoutUser env w = out
  have h := hrun
  cases hs : env.signOut <;>
  · simp [logoutUser, Eff.tryCatch, bind, Eff.andThen, pure, Eff.ret, signOut, failWith,
      logCall, hs] at h
    subst h
    exact ⟨_, _, rfl, rfl, rfl, by simp⟩

theorem orElse_self {α : Type} (x y : Option α) (h : x = y) : (x <|> y) = y := by
  subst h
  cases x <;> rfl

theorem mem_callsSince_extends (w w1 w2 : World) (c : Call)
    (h1 : w.log <+: w1.log) (h2 : w2.log = w1.log ++ [c]) : c ∈ callsSince w w2 := by
  obtain ⟨t, ht⟩ := h1
  simp [callsSince, h2, ← ht]

/-- A `syncEmailVerification` call on a user object whose profile exists returns
normally; the profile is still stored afterwards, with the same `isActive` and `role`, and
its `isVerified` is the one stored before or the flag the reload reports. -/
theorem syncEmailVerification_user_run (env : Env) (user : FirebaseUser) (w : World)
    (p : UserDoc) (hp : w.users.lookup user.uid = some p) :
    ∃ r w', syncEmailVerification env (.user user) w = (.ok r, w') ∧
      w.log <+: w'.log ∧
      ∃ q, w'.users.lookup user.uid = some q ∧ q.isActive = p.isActive ∧ q.role = p.role ∧
        (q.isVerified = p.isVerified ∨ ∃ v, env.reload = .ok v ∧ q.isVerified = some v) := by
  generalize hrun : syncEmailVerification env (.user user) w = out
  have h := hrun
  rcases hr : env.reload with e | v
  · simp [syncEmailVerification, Eff.tryCatch, bind, Eff.andThen, pure, Eff.ret,
      AuthResult.bare, reload, logCall, hr] at h
    subst h
    exact ⟨_, _, rfl, by simp, p, hp, rfl, rfl, Or.inl rfl⟩
  · cases hg : env.getDoc w.reads with
    | some e =>
      simp [syncEmailVerification, Eff.tryCatch, bind, Eff.andThen, pure, Eff.ret,
        AuthResult.bare, reload, getDoc, logCall, hr, hg] at h
      subst h
      exact ⟨_, _, rfl, by simp, p, hp, rfl, rfl, Or.inl rfl⟩
    | none =>
      by_cases hneed : (some v ≠ p.emailVerified ∨ (v = true ∧ p.isVerified ≠ some v))
      · cases hu : env.updateDoc with
        | some e =>
          simp [syncEmailVerification, Eff.tryCatch, bind, Eff.andThen, pure, Eff.ret,
            AuthResult.bare, reload, getDoc, updateDoc, failWith, logCall, hr, hg, hu, hp,
            hneed] at h
          subst h
          exact ⟨_, _, rfl, by simp, p, hp, rfl, rfl, Or.inl rfl⟩
        | none =>
          simp [syncEmailVerification, Eff.tryCatch, bind, Eff.andThen, pure, Eff.ret,
            AuthResult.bare, reload, getDoc, updateDoc, failWith, logCall, hr, hg, hu, hp,
            hneed] at h
          subst h
          exact ⟨_, _, rfl, by simp, _, lookup_cons_self _ _ _, rfl, rfl,
            Or.inr ⟨v, rfl, rfl⟩⟩
      · simp [syncEmailVerification, Eff.tryCatch, bind, Eff.andThen, pure, Eff.ret,
          AuthResult.bare, reload, getDoc, logCall, hr, hg, hp, hneed] at h
        subst h
        exact ⟨_, _, rfl, by simp, p, hp, rfl, rfl, Or.inl rfl⟩

/-- What `syncIfNeeded` leaves as it found it: everything of the app except the provider
and the store. -/
theorem syncIfNeeded_run (env : Env) (user : FirebaseUser) (p : UserDoc) (v : Bool)
    (app : App) (hp : app.world.users.lookup user.uid = some p)
    (hv : v = false ∨ env.reload = .ok v) :
    ∃ u app1, syncIfNeeded none env user p v app = (.ok u, app1) ∧
      app1.auth = app.auth ∧ app1.dispatched = app.dispatched ∧
      app1.storage = app.storage ∧ app1.toasts = app.toasts ∧
      app1.navigations = app.navigations ∧ app1.isMounted = app.isMounted ∧
      app.world.log <+: app1.world.log ∧
      u.isActive = p.isActive ∧
      (some v = p.emailVerified → u = p ∧ app1 = app) ∧
      ∃ q, app1.world.users.lookup user.uid = some q ∧
        (q.isVerified = some false → v = false ∨ u.isVerified = some false) := by
  generalize hrun : syncIfNeeded none env user p v app = out
  have h := hrun
  by_cases hn : some v ≠ p.emailVerified
  · obtain ⟨r, w1, hs, hext, q, hq, hact, _, hver⟩ :=
      syncEmailVerification_user_run env user app.world p hp
    obtain ⟨r2, hg, hfetch⟩ := getUserData_run env user.uid w1
    have hq2 : (q.isVerified = some false → v = false ∨ p.isVerified = some false) := by
      intro hf
      rcases hver with h | ⟨v2, hr, h⟩
      · exact Or.inr (h ▸ hf)
      · rcases hv with hv | hv
        · exact Or.inl hv
        · rw [hr] at hv
          cases hv
          rw [hf] at h
          cases h
          exact Or.inl rfl
    rcases hfetch with hnone | hsome
    · simp [syncIfNeeded, hn, bind, Handler.andThen, await, hs, hg, hnone, pure,
        Handler.ret] at h
      subst h
      refine ⟨_, _, rfl, rfl, rfl, rfl, rfl, rfl, rfl, ?_, rfl, fun h => absurd h hn,
        q, hq, hq2⟩
      simpa using hext.trans (List.prefix_append _ _)
    · rw [hq] at hsome
      simp [syncIfNeeded, hn, bind, Handler.andThen, await, hs, hg, hsome, pure,
        Handler.ret] at h
      subst h
      refine ⟨_, _, rfl, rfl, rfl, rfl, rfl, rfl, rfl, ?_, ?_, fun h => absurd h hn,
        q, hq, ?_⟩
      · simpa using hext.trans (List.prefix_append _ _)
      · simpa [UserDoc.assign] using orElse_self _ _ hact
      · intro hf
        right
        simp [UserDoc.assign, hf]
  · simp [syncIfNeeded, hn, pure, Handler.ret] at h
    subst h
    exact ⟨_, _, rfl, rfl, rfl, rfl, rfl, rfl, rfl, List.prefix_refl _, rfl,
      fun _ => ⟨rfl, rfl⟩, p, hp, fun h => Or.inr h⟩

/-- The loop of `clearAllRateLimits` over the keys `ks`, on a storage that can be
accessed: the items whose key is one of `ks` and starts with `RATE_LIMIT_STORAGE_KEY`
are removed, the others stay. -/
theorem clearAllRateLimits_loop (ks : List String) (acc : LocalStorage)
    (h : acc.accessDenied = false) :
    ks.foldlM (fun (acc : LocalStorage) key =>
        if startsWith key RATE_LIMIT_STORAGE_KEY then acc.removeItem key else pure acc) acc
      = .ok { acc with items := acc.items.filter (fun p =>
          !(ks.contains p.1 && startsWith p.1 RATE_LIMIT_STORAGE_KEY)) } := by
  induction ks generalizing acc with
  | nil => simp [pure, Except.pure]
  | cons k ks ih =>
    rw [List.foldlM_cons]
    by_cases hk : startsWith k RATE_LIMIT_STORAGE_KEY = true
    · have h1 : acc.removeItem k = .ok (acc.erase k) := by simp [LocalStorage.removeItem, h]
      simp only [hk, if_true, h1, bind, Except.bind]
      rw [ih (acc.erase k) h]
      simp only [LocalStorage.erase, List.filter_filter]
      congr 2
      apply List.filter_congr
      intro p _
      by_cases hpk : p.1 = k
      · simp [hpk, hk]
      · simp [hpk]
    · have e : (pure acc : Except JsError LocalStorage) = .ok acc := rfl
      rw [if_neg hk, e]
      simp only [bind, Except.bind]
      rw [ih acc h]
      congr 2
      apply List.filter_congr
      intro p _
      by_cases hpk : p.1 = k
      · simp [hpk, hk]
      · simp [hpk]

/-- On a storage that can be accessed `clearAllRateLimits` returns normally and removes
exactly the items whose key starts with `RATE_LIMIT_STORAGE_KEY`. -/
theorem clearAllRateLimits_ok (ls : LocalStorage) (h : ls.accessDenied = false) :
    clearAllRateLimits ls
      = .ok { ls with
              items := ls.items.filter (fun p => !startsWith p.1 RATE_LIMIT_STORAGE_KEY) } := by
  simp only [clearAllRateLimits, LocalStorage.keys, h, bind, Except.bind]
  simp only [Bool.false_eq_true, if_false]
  rw [clearAllRateLimits_loop _ ls h]
  congr 2
  apply List.filter_congr
  intro p hp
  have : (List.map Prod.fst ls.items).contains p.1 = true := by
    simp only [List.contains_iff_exists_mem_beq, List.mem_map]
    exact ⟨p.1, ⟨p, hp, rfl⟩, by simp⟩
  rw [this, Bool.true_and]

/-- Every key `recordFailedAttempt` and `checkRateLimit` use starts with
`RATE_LIMIT_STORAGE_KEY`. -/
theorem startsWith_storageKey (action identifier : String) :
    startsWith (storageKey action identifier) RATE_LIMIT_STORAGE_KEY = true := by
  simp [startsWith, storageKey, String.data_append, List.isPrefixOf_iff_prefix]

/-- No value is found under a key whose items have all been filtered out. -/
theorem lookup_filter_none {α : Type} (items : List (String × α)) (keep : String → Bool)
    (key : String) (h : keep key = false) :
    List.lookup key (items.filter (fun p => keep p.1)) = none := by
  induction items with
  | nil => rfl
  | cons x rest ih =>
    obtain ⟨k, d⟩ := x
    by_cases hk : keep k = true
    · have hne : (key == k) = false := by
        simp only [beq_eq_false_iff_ne, ne_eq]
        intro e
        rw [e, hk] at h
        cases h
      simp [List.filter, hk, List.lookup, hne, ih]
    · simp [List.filter, hk, ih]

/-- The last step of the handler when the profile is active and both verification flags
are true: the user data is dispatched with both flags true. -/
theorem reconcileFlags_accepts (teardownAt : Option Nat) (env : Env) (u : UserDoc)
    (v : Bool) (app : App) (hact : definedOrTrue u.isActive = true) (hv : v = true)
    (hver : u.isVerified.getD v = true) :
    reconcileFlags teardownAt env u v app
      = dispatch (.setUserData (some
          { u with
            role := orString u.role (some "user"),
            emailVerified := some true, isVerified := some true,
            isActive := some true })) app := by
  subst hv
  simp [reconcileFlags, hact, hver]

/-- The last step of the handler, inside the `try` block, when the profile is disabled or
a verification flag is false and the effect stays mounted: `logoutUser` is called and
`resetAuth` dispatched; when `localStorage` can be accessed the rate-limit records are
removed, the message of the branch taken is shown (the account-disabled one whenever
`isActive` is false) and the app navigates to `/login`. -/
theorem reconcileFlags_ends_session (env : Env) (u d : UserDoc) (v : Bool) (app : App)
    (hm : app.isMounted = true)
    (hend : definedOrTrue u.isActive = false ∨ v = false ∨ u.isVerified.getD v = false) :
    ∃ app', Handler.tryCatch (reconcileFlags none env u v)
          (fun _ => whenMounted (dispatch (.setUserData (some d)))) app = (.ok (), app') ∧
      app'.world.log = app.world.log ++ [.signOut] ∧
      app'.world.users = app.world.users ∧
      (env.signOut = none → app'.world.currentUser = none) ∧
      (∃ rest, app'.dispatched = app.dispatched ++ (AuthAction.resetAuth, true) :: rest) ∧
      app'.auth.isAuthenticated = false ∧ app'.auth.user = none ∧
      (app.storage.accessDenied = false →
        app'.dispatched = app.dispatched ++ [(.resetAuth, true)] ∧
        app'.auth = authReducer app.auth .resetAuth ∧
        app'.storage = { app.storage with
          items := app.storage.items.filter
            (fun p => !startsWith p.1 RATE_LIMIT_STORAGE_KEY) } ∧
        app'.toasts = app.toasts ++
          [if definedOrTrue u.isActive = false
            then "Your account has been disabled. Please contact support."
            else "Please verify your email to continue."] ∧
        app'.navigations = app.navigations ++ ["/login"]) := by
  generalize hrun : Handler.tryCatch (reconcileFlags none env u v)
    (fun _ => whenMounted (dispatch (.setUserData (some d)))) app = out
  have h := hrun
  obtain ⟨r, w1, hl, husers, hlog, hcur⟩ := logoutUser_run env app.world
  have hbranch : definedOrTrue u.isActive = false ∨
      (definedOrTrue u.isActive = true ∧ (!v || !u.isVerified.getD v) = true) := by
    cases ha : definedOrTrue u.isActive
    · exact Or.inl rfl
    · right
      rcases hend with h1 | h1 | h1
      · rw [ha] at h1; cases h1
      · simp [h1]
      · simp [h1]
  cases hs : app.storage.accessDenied with
  | true =>
    have hclear : clearAllRateLimits app.storage = .error securityError := by
      simp [clearAllRateLimits, LocalStorage.keys, hs, bind, Except.bind]
    rcases hbranch with hb | ⟨hb1, hb2⟩
    · simp [Handler.tryCatch, reconcileFlags, hb, bind, Handler.andThen, await, hl,
        dispatch, clearAllRateLimitsCall, hclear, whenMounted, hm] at h
      subst h
      exact ⟨_, rfl, hlog, husers, hcur, ⟨[(.setUserData (some d), true)], by simp⟩, rfl, rfl,
        by simp⟩
    · simp [Handler.tryCatch, reconcileFlags, hb1, hb2, bind, Handler.andThen, await, hl,
        dispatch, clearAllRateLimitsCall, hclear, whenMounted, hm] at h
      subst h
      exact ⟨_, rfl, hlog, husers, hcur, ⟨[(.setUserData (some d), true)], by simp⟩, rfl, rfl,
        by simp⟩
  | false =>
    have hclear := clearAllRateLimits_ok app.storage hs
    rcases hbranch with hb | ⟨hb1, hb2⟩
    · simp [Handler.tryCatch, reconcileFlags, hb, bind, Handler.andThen, await, hl,
        dispatch, clearAllRateLimitsCall, hclear, whenMounted, hm, toastError,
        navigate] at h
      subst h
      exact ⟨_, rfl, hlog, husers, hcur, ⟨[], rfl⟩, rfl, rfl,
        fun _ => ⟨rfl, rfl, rfl, by simp [hb], rfl⟩⟩
    · simp [Handler.tryCatch, reconcileFlags, hb1, hb2, bind, Handler.andThen, await, hl,
        dispatch, clearAllRateLimitsCall, hclear, whenMounted, hm, toastError,
        navigate] at h
      subst h
      exact ⟨_, rfl, hlog, husers, hcur, ⟨[], rfl⟩, rfl, rfl,
        fun _ => ⟨rfl, rfl, rfl, by simp [hb1], rfl⟩⟩

/-- A run of the handler that finds the profile while the effect stays mounted comes down
to its last step, `reconcileFlags`, inside the `try` block: by then `setUser` has been
dispatched, nothing else has, and the data `u` handed to the last step has the `isActive`
of the profile fetched. -/
theorem authStateChanged_found (env : Env) (user : FirebaseUser) (app : App) (p : UserDoc)
    (hm : app.isMounted = true) (hread : env.getDoc app.world.reads = none)
    (hp : app.world.users.lookup user.uid = some p) :
    ∃ u v app1,
      authStateChanged none env (some user) app
        = Handler.tryCatch (reconcileFlags none env u v)
            (fun _ => whenMounted
              (dispatch (.setUserData (some (defaultUserData user false))))) app1 ∧
      (v = true ↔ env.reload = .ok true) ∧
      app1.isMounted = true ∧
      app1.auth = authReducer app.auth (.setUser (some user)) ∧
      app1.dispatched = app.dispatched ++ [(.setUser (some user), true)] ∧
      app1.storage = app.storage ∧ app1.toasts = app.toasts ∧
      app1.navigations = app.navigations ∧
      app.world.log <+: app1.world.log ∧
      u.isActive = p.isActive ∧
      (some v = p.emailVerified →
        u = p ∧ app1.world.users = app.world.users ∧
        app1.world.log = app.world.log ++ [.getDoc user.uid, .reload user.uid]) ∧
      ∃ q, app1.world.users.lookup user.uid = some q ∧
        (q.isVerified = some false → v = false ∨ u.isVerified = some false) := by
  have hg := getUserData_found env user.uid app.world p hread hp
  obtain ⟨v, w2, hc, hiff, hv, husers, hlog⟩ := checkEmailVerification_run env user
    { app.world with reads := app.world.reads + 1,
                     log := app.world.log ++ [.getDoc user.uid] }
  obtain ⟨u, app1, hsync, h1, h2, h3, h4, h5, h6, h7, h8, h9, q, hq, hq2⟩ :=
    syncIfNeeded_run env user p v
      { world := w2, auth := authReducer app.auth (.setUser (some user)),
        dispatched := app.dispatched ++ [(.setUser (some user), true)],
        storage := app.storage, toasts := app.toasts, navigations := app.navigations,
        isMounted := true, awaits := app.awaits + 1 + 1 }
      (by simpa [husers] using hp) hv
  refine ⟨u, v, app1, ?_, hiff, h6, h1, h2, h3, h4, h5, ?_, h8, ?_, q, hq, hq2⟩
  · simp [authStateChanged, whenMounted, hm, Handler.tryCatch, bind, Handler.andThen,
      dispatch, await, hg, hc, hsync, h6]
  · refine List.IsPrefix.trans ?_ h7
    simp [hlog]
  · intro hsame
    obtain ⟨hu, happ⟩ := h9 hsame
    subst happ
    exact ⟨hu, husers, by simp [hlog]⟩

/-! ## Passive reconciliation -/

/-- C13 fails as stated: for the profile stored with `emailVerified = true` and
`isVerified = false` while the provider reports the email as verified, the handler makes
no sync update (its `needsSync` compares `emailVerified` only), the stored `isVerified`
stays false, and the run signs the user out as unverified: `logoutUser` is called,
`resetAuth` dispatched, the verify-your-email message shown and the app sent to `/login`.
On the same input `syncEmailVerification` itself does write `emailVerified = true`,
`isVerified = true`. -/
theorem passive_sync_misses_isVerified_catch_up :
    (authStateChanged none (calmEnv true) (some verifiedUser)
        (signedInApp verifiedUser [("u1", sampleProfile "user" true false true)])).1
      = .ok () ∧
    (authStateChanged none (calmEnv true) (some verifiedUser)
        (signedInApp verifiedUser [("u1", sampleProfile "user" true false true)])).2.world.log
      = [.getDoc "u1", .reload "u1", .signOut] ∧
    (authStateChanged none (calmEnv true) (some verifiedUser)
        (signedInApp verifiedUser [("u1", sampleProfile "user" true false true)])).2.world.users
      = [("u1", sampleProfile "user" true false true)] ∧
    (authStateChanged none (calmEnv true) (some verifiedUser)
        (signedInApp verifiedUser
          [("u1", sampleProfile "user" true false true)])).2.world.currentUser = none ∧
    (authStateChanged none (calmEnv true) (some verifiedUser)
        (signedInApp verifiedUser [("u1", sampleProfile "user" true false true)])).2.dispatched
      = [(.setUser (some verifiedUser), true), (.resetAuth, true)] ∧
    (authStateChanged none (calmEnv true) (some verifiedUser)
        (signedInApp verifiedUser
          [("u1", sampleProfile "user" true false true)])).2.auth.isAuthenticated = false ∧
    (authStateChanged none (calmEnv true) (some verifiedUser)
        (signedInApp verifiedUser [("u1", sampleProfile "user" true false true)])).2.toasts
      = ["Please verify your email to continue."] ∧
    (authStateChanged none (calmEnv true) (some verifiedUser)
        (signedInApp verifiedUser [("u1", sampleProfile "user" true false true)])).2.navigations
      = ["/login"] ∧
    writesSince (signedInApp verifiedUser [("u1", sampleProfile "user" true false true)]).world
        (syncEmailVerification (calmEnv true) (.user verifiedUser)
          (signedInApp verifiedUser [("u1", sampleProfile "user" true false true)]).world).2
      = [.updateDoc "u1"
          { UserFields.blank with
            emailVerified := some (some true), isVerified := some (some true),
            updatedAt := some (some 1000) }] :=
  ⟨rfl, rfl, rfl, rfl, rfl, rfl, rfl, rfl, rfl⟩

/-- C13 as amended. In every run of the `onAuthStateChange` handler that finds a profile
that is not disabled, stored with `emailVerified = true` and `isVerified = false`, while
the provider reports the email as verified and the effect stays mounted: no store write
is made (the calls are the profile read, the reload and the sign-out), the stored
profiles are left as they are, `logoutUser` is called (the sign-out is the last call),
`resetAuth` is dispatched after `setUser`, and the resulting auth state has
`isAuthenticated = false`; when `localStorage` can be accessed the verify-your-email
message is shown and the app navigates to `/login`. -/
theorem passive_sync_compares_emailVerified_only (env : Env) (user : FirebaseUser)
    (app : App) (p : UserDoc) (hm : app.isMounted = true)
    (hread : env.getDoc app.world.reads = none)
    (hp : app.world.users.lookup user.uid = some p)
    (hev : p.emailVerified = some true) (hiv : p.isVerified = some false)
    (hact : p.isActive ≠ some false) (hreload : env.reload = .ok true) :
    ∃ app', authStateChanged none env (some user) app = (.ok (), app') ∧
      writesSince app.world app'.world = [] ∧
      app'.world.users = app.world.users ∧
      callsSince app.world app'.world
        = [.getDoc user.uid, .reload user.uid, .signOut] ∧
      (∃ rest, app'.dispatched
        = app.dispatched ++ (.setUser (some user), true) :: (.resetAuth, true) :: rest) ∧
      app'.auth.isAuthenticated = false ∧
      (app.storage.accessDenied = false →
        app'.toasts = app.toasts ++ ["Please verify your email to continue."] ∧
        app'.navigations = app.navigations ++ ["/login"]) := by
  obtain ⟨u, v, app1, hrun, hiff, hm1, _, hdisp, hst, hto, hnav, _, _, hsame, _⟩ :=
    authStateChanged_found env user app p hm hread hp
  have hv : v = true := hiff.mpr hreload
  subst hv
  obtain ⟨hu, husers, hlog1⟩ := hsame hev.symm
  subst hu
  have hactive : definedOrTrue u.isActive = true := by
    rcases ha : u.isActive with _ | _ | _
    · rfl
    · exact absurd ha hact
    · rfl
  obtain ⟨app', hend, hlog, husers2, _, ⟨rest, hrest⟩, hna, _, hacc⟩ :=
    reconcileFlags_ends_session env u (defaultUserData user false) true app1 hm1
      (Or.inr (Or.inr (by simp [hiv])))
  have hcalls : callsSince app.world app'.world
      = [.getDoc user.uid, .reload user.uid, .signOut] := by
    simp [callsSince, hlog, hlog1]
  refine ⟨app', hrun.trans hend, ?_, husers2.trans husers, hcalls, ⟨rest, ?_⟩, hna, ?_⟩
  · simp [writesSince, hcalls, Call.isWrite]
  · rw [hrest, hdisp]
    simp
  · intro hs
    obtain ⟨_, _, _, h4, h5⟩ := hacc (hst ▸ hs)
    rw [h4, h5, hto, hnav]
    simp [hactive]

/-- C13 as amended, at a concrete input: the profile of the account is stored with
`emailVerified = true` and `isVerified = false`, the provider reports the email as
verified, and `localStorage` is empty. -/
theorem passive_sync_compares_emailVerified_only_witness :
    ∃ app', authStateChanged none (calmEnv true) (some verifiedUser)
        (signedInApp verifiedUser [("u1", sampleProfile "user" true false true)])
          = (.ok (), app') ∧
      writesSince
        (signedInApp verifiedUser [("u1", sampleProfile "user" true false true)]).world
        app'.world = [] ∧
      app'.world.users
        = (signedInApp verifiedUser [("u1", sampleProfile "user" true false true)]).world.users ∧
      callsSince
        (signedInApp verifiedUser [("u1", sampleProfile "user" true false true)]).world
        app'.world
        = [.getDoc verifiedUser.uid, .reload verifiedUser.uid, .signOut] ∧
      (∃ rest, app'.dispatched
        = (signedInApp verifiedUser [("u1", sampleProfile "user" true false true)]).dispatched
          ++ (.setUser (some verifiedUser), true) :: (.resetAuth, true) :: rest) ∧
      app'.auth.isAuthenticated = false ∧
      ((signedInApp verifiedUser
          [("u1", sampleProfile "user" true false true)]).storage.accessDenied = false →
        app'.toasts
          = (signedInApp verifiedUser [("u1", sampleProfile "user" true false true)]).toasts
            ++ ["Please verify your email to continue."] ∧
        app'.navigations
          = (signedInApp verifiedUser
              [("u1", sampleProfile "user" true false true)]).navigations ++ ["/login"]) :=
  passive_sync_compares_emailVerified_only (calmEnv true) verifiedUser
    (signedInApp verifiedUser [("u1", sampleProfile "user" true false true)])
    (sampleProfile "user" true false true) rfl rfl (by decide) rfl rfl (by decide) rfl

/-- C14 fails on the code: when no profile is stored for the principal and the provider
reports the email as unverified, the handler dispatches default user data without the
verification check that its profile-found branch makes; the run completes with
`isAuthenticated = true`, `emailVerified = false` and `isVerified = false`, `logoutUser`
is not called and the provider session stays active. -/
theorem absent_profile_authenticates_unverified :
    (authStateChanged none (calmEnv false) (some sampleUser)
        (signedInApp sampleUser [])).1 = .ok () ∧
    (authStateChanged none (calmEnv false) (some sampleUser)
        (signedInApp sampleUser [])).2.auth.isAuthenticated = true ∧
    (authStateChanged none (calmEnv false) (some sampleUser)
        (signedInApp sampleUser [])).2.auth.emailVerified = false ∧
    (authStateChanged none (calmEnv false) (some sampleUser)
        (signedInApp sampleUser [])).2.auth.isVerified = false ∧
    (authStateChanged none (calmEnv false) (some sampleUser)
        (signedInApp sampleUser [])).2.world.log = [.getDoc "u1", .reload "u1"] ∧
    (authStateChanged none (calmEnv false) (some sampleUser)
        (signedInApp sampleUser [])).2.world.currentUser.isSome = true ∧
    (authStateChanged none (calmEnv false) (some sampleUser)
        (signedInApp sampleUser [])).2.dispatched
      = [(.setUser (some sampleUser), true),
         (.setUserData (some (defaultUserData sampleUser false)), true)] :=
  ⟨rfl, rfl, rfl, rfl, rfl, rfl, rfl⟩

/-- The session check on the path that finds the profile. In every run of the
`onAuthStateChange` handler with a non-null
principal that finds the profile and during which the effect stays mounted, the run
completes and: if the resulting auth state has `isAuthenticated = true` then it also has
`emailVerified = true` and `isVerified = true`; and whenever the provider does not report
the email as verified, or the profile stored at the end of the run has
`isVerified = false`, `logoutUser` has been called, `resetAuth` has been dispatched after
`setUser`, and the resulting auth state has no user and `isAuthenticated = false`. -/
theorem found_profile_authenticates_only_verified (env : Env) (user : FirebaseUser)
    (app : App) (p : UserDoc) (hm : app.isMounted = true)
    (hread : env.getDoc app.world.reads = none)
    (hp : app.world.users.lookup user.uid = some p) :
    ∃ app', authStateChanged none env (some user) app = (.ok (), app') ∧
      (app'.auth.isAuthenticated = true →
        app'.auth.emailVerified = true ∧ app'.auth.isVerified = true) ∧
      ((env.reload ≠ .ok true ∨
          ∃ q, app'.world.users.lookup user.uid = some q ∧ q.isVerified = some false) →
        Call.signOut ∈ callsSince app.world app'.world ∧
        (∃ rest, app'.dispatched
          = app.dispatched ++ (.setUser (some user), true) :: (.resetAuth, true) :: rest) ∧
        app'.auth.isAuthenticated = false ∧ app'.auth.user = none) := by
  obtain ⟨u, v, app1, hrun, hiff, hm1, hauth, hdisp, _, _, _, hpre, _, _, q, hq, hq2⟩ :=
    authStateChanged_found env user app p hm hread hp
  by_cases hacc : definedOrTrue u.isActive = true ∧ v = true ∧ u.isVerified.getD v = true
  · obtain ⟨h1, h2, h3⟩ := hacc
    simp only [Handler.tryCatch, reconcileFlags_accepts none env u v app1 h1 h2 h3,
      dispatch] at hrun
    refine ⟨_, hrun, ?_, ?_⟩
    · intro _
      exact ⟨rfl, rfl⟩
    · intro hbad
      exfalso
      rcases hbad with hb | ⟨q2, hq2a, hq2b⟩
      · exact hb (hiff.mp h2)
      · have hqq : q2 = q := by
          have := hq2a.symm.trans hq
          simpa using this
        subst hqq
        rcases hq2 hq2b with hv | hu
        · rw [h2] at hv; cases hv
        · rw [hu] at h3; cases h3
  · have hend : definedOrTrue u.isActive = false ∨ v = false ∨ u.isVerified.getD v = false := by
      by_contra hcon
      apply hacc
      simp only [not_or, Bool.not_eq_false] at hcon
      exact hcon
    obtain ⟨app', hend2, hlog, _, _, ⟨rest, hrest⟩, hna, hnu, _⟩ :=
      reconcileFlags_ends_session env u (defaultUserData user false) v app1 hm1 hend
    refine ⟨app', hrun.trans hend2, ?_, ?_⟩
    · intro h
      rw [hna] at h
      cases h
    · intro _
      refine ⟨mem_callsSince_extends _ _ _ _ hpre hlog, ⟨rest, ?_⟩, hna, hnu⟩
      rw [hrest, hdisp]
      simp

/-- The session check on the path that finds the profile, at a concrete input: the
profile of the account is stored with
`emailVerified = true` and `isVerified = false` while the provider reports the email as
verified. -/
theorem found_profile_authenticates_only_verified_witness :
    ∃ app', authStateChanged none (calmEnv true) (some verifiedUser)
        (signedInApp verifiedUser [("u1", sampleProfile "user" true false true)])
          = (.ok (), app') ∧
      (app'.auth.isAuthenticated = true →
        app'.auth.emailVerified = true ∧ app'.auth.isVerified = true) ∧
      (((calmEnv true).reload ≠ .ok true ∨
          ∃ q, app'.world.users.lookup verifiedUser.uid = some q ∧
            q.isVerified = some false) →
        Call.signOut ∈ callsSince
          (signedInApp verifiedUser [("u1", sampleProfile "user" true false true)]).world
          app'.world ∧
        (∃ rest, app'.dispatched
          = (signedInApp verifiedUser [("u1", sampleProfile "user" true false true)]).dispatched
            ++ (.setUser (some verifiedUser), true) :: (.resetAuth, true) :: rest) ∧
        app'.auth.isAuthenticated = false ∧ app'.auth.user = none) :=
  found_profile_authenticates_only_verified (calmEnv true) verifiedUser
    (signedInApp verifiedUser [("u1", sampleProfile "user" true false true)])
    (sampleProfile "user" true false true) rfl rfl (by decide)

/-- The last step of the handler when the profile is disabled or a verification flag is
false, the effect stays mounted and `localStorage` cannot be accessed: after `logoutUser`
and `resetAuth`, `clearAllRateLimits` throws and the `catch` block dispatches the default
user data; no message is shown and the app does not navigate. -/
theorem reconcileFlags_storage_denied (env : Env) (u d : UserDoc) (v : Bool) (app : App)
    (hm : app.isMounted = true)
    (hend : definedOrTrue u.isActive = false ∨ v = false ∨ u.isVerified.getD v = false)
    (hs : app.storage.accessDenied = true) :
    ∃ app', Handler.tryCatch (reconcileFlags none env u v)
          (fun _ => whenMounted (dispatch (.setUserData (some d)))) app = (.ok (), app') ∧
      app'.world.log = app.world.log ++ [.signOut] ∧
      app'.dispatched
        = app.dispatched ++ [(.resetAuth, true), (.setUserData (some d), true)] ∧
      app'.auth = authReducer (authReducer app.auth .resetAuth) (.setUserData (some d)) ∧
      app'.storage = app.storage ∧ app'.toasts = app.toasts ∧
      app'.navigations = app.navigations := by
  generalize hrun : Handler.tryCatch (reconcileFlags none env u v)
    (fun _ => whenMounted (dispatch (.setUserData (some d)))) app = out
  have h := hrun
  obtain ⟨r, w1, hl, husers, hlog, hcur⟩ := logoutUser_run env app.world
  have hbranch : definedOrTrue u.isActive = false ∨
      (definedOrTrue u.isActive = true ∧ (!v || !u.isVerified.getD v) = true) := by
    cases ha : definedOrTrue u.isActive
    · exact Or.inl rfl
    · right
      rcases hend with h1 | h1 | h1
      · rw [ha] at h1; cases h1
      · simp [h1]
      · simp [h1]
  have hclear : clearAllRateLimits app.storage = .error securityError := by
    simp [clearAllRateLimits, LocalStorage.keys, hs, bind, Except.bind]
  rcases hbranch with hb | ⟨hb1, hb2⟩
  · simp [Handler.tryCatch, reconcileFlags, hb, bind, Handler.andThen, await, hl,
      dispatch, clearAllRateLimitsCall, hclear, whenMounted, hm] at h
    subst h
    exact ⟨_, rfl, hlog, by simp, rfl, rfl, rfl, rfl⟩
  · simp [Handler.tryCatch, reconcileFlags, hb1, hb2, bind, Handler.andThen, await, hl,
      dispatch, clearAllRateLimitsCall, hclear, whenMounted, hm] at h
    subst h
    exact ⟨_, rfl, hlog, by simp, rfl, rfl, rfl, rfl⟩

/-- C15 fails as stated. The profile fetched for `sampleUser` has `isActive = false`.
When `localStorage` cannot be accessed, `clearAllRateLimits` throws after `logoutUser`
and `resetAuth`, and the `catch` block of the handler dispatches `setUserData` with
`isActive: true`; no message is shown and the app does not navigate. When the effect is
torn down while `logoutUser` is awaited, the message is shown and the app does not
navigate. -/
theorem disabled_profile_setUserData_when_storage_denied :
    (authStateChanged none (calmEnv false) (some sampleUser)
        (disabledProfileApp deniedStorage)).1 = .ok () ∧
    (authStateChanged none (calmEnv false) (some sampleUser)
        (disabledProfileApp deniedStorage)).2.world.log
      = [.getDoc "u1", .reload "u1", .signOut] ∧
    (authStateChanged none (calmEnv false) (some sampleUser)
        (disabledProfileApp deniedStorage)).2.dispatched
      = [(.setUser (some sampleUser), true), (.resetAuth, true),
         (.setUserData (some (defaultUserData sampleUser false)), true)] ∧
    (defaultUserData sampleUser false).isActive = some true ∧
    (authStateChanged none (calmEnv false) (some sampleUser)
        (disabledProfileApp deniedStorage)).2.auth.isActive = true ∧
    (authStateChanged none (calmEnv false) (some sampleUser)
        (disabledProfileApp deniedStorage)).2.toasts = [] ∧
    (authStateChanged none (calmEnv false) (some sampleUser)
        (disabledProfileApp deniedStorage)).2.navigations = [] ∧
    (authStateChanged (some 2) (calmEnv false) (some sampleUser)
        (disabledProfileApp lockedOutStorage)).2.dispatched
      = [(.setUser (some sampleUser), true), (.resetAuth, false)] ∧
    (authStateChanged (some 2) (calmEnv false) (some sampleUser)
        (disabledProfileApp lockedOutStorage)).2.toasts
      = ["Your account has been disabled. Please contact support."] ∧
    (authStateChanged (some 2) (calmEnv false) (some sampleUser)
        (disabledProfileApp lockedOutStorage)).2.navigations = [] := by
  refine ⟨by rfl, by rfl, by rfl, rfl, by rfl, by rfl, by rfl, by rfl, by rfl, by rfl⟩

/-- C15 as amended. In a run of the `onAuthStateChange` handler during which the effect
stays mounted, for every fetched profile with `isActive = false`, whatever its
verification flags and whatever the provider reports, the handler calls `logoutUser`
(the sign-out is the last call made) and dispatches `setUser` and then `resetAuth`.
When `localStorage` can be accessed it dispatches nothing else (so `setUserData` is never
dispatched), removes every item whose key starts with `RATE_LIMIT_STORAGE_KEY` and keeps
the others (so no record is left under the key of any action and identifier), shows the
account-disabled message and no other, and navigates to `/login`. When `localStorage`
cannot be accessed, `clearAllRateLimits` throws and the `catch` block dispatches
`setUserData` with the default user data, whose `isActive` is true; the storage is left
as it is, no message is shown and the app does not navigate. -/
theorem disabled_profile_ends_session (env : Env) (user : FirebaseUser) (app : App)
    (p : UserDoc) (hm : app.isMounted = true) (hread : env.getDoc app.world.reads = none)
    (hp : app.world.users.lookup user.uid = some p) (hact : p.isActive = some false) :
    ∃ app', authStateChanged none env (some user) app = (.ok (), app') ∧
      (callsSince app.world app'.world).getLast? = some .signOut ∧
      (∃ rest, app'.dispatched
        = app.dispatched ++ (.setUser (some user), true) :: (.resetAuth, true) :: rest) ∧
      (app.storage.accessDenied = false →
        app'.dispatched
          = app.dispatched ++ [(.setUser (some user), true), (.resetAuth, true)] ∧
        app'.auth = authReducer (authReducer app.auth (.setUser (some user))) .resetAuth ∧
        app'.storage.items
          = app.storage.items.filter
              (fun item => !startsWith item.1 RATE_LIMIT_STORAGE_KEY) ∧
        (∀ action identifier, app'.storage.lookup (storageKey action identifier) = none) ∧
        app'.toasts
          = app.toasts ++ ["Your account has been disabled. Please contact support."] ∧
        app'.navigations = app.navigations ++ ["/login"]) ∧
      (app.storage.accessDenied = true →
        app'.dispatched
          = app.dispatched ++ [(.setUser (some user), true), (.resetAuth, true),
              (.setUserData (some (defaultUserData user false)), true)] ∧
        (defaultUserData user false).isActive = some true ∧
        app'.storage = app.storage ∧ app'.toasts = app.toasts ∧
        app'.navigations = app.navigations) := by
  obtain ⟨u, v, app1, hrun, _, hm1, hauth, hdisp, hst, hto, hnav, hpre, hu, _, _⟩ :=
    authStateChanged_found env user app p hm hread hp
  have hdis : definedOrTrue u.isActive = false := by rw [hu, hact]; rfl
  cases hs : app.storage.accessDenied with
  | false =>
    obtain ⟨app', hend, hlog, _, _, _, _, _, hrest⟩ :=
      reconcileFlags_ends_session env u (defaultUserData user false) v app1 hm1 (Or.inl hdis)
    obtain ⟨h1, h2, h3, h4, h5⟩ := hrest (hst ▸ hs)
    refine ⟨app', hrun.trans hend, ?_, ⟨[], ?_⟩, fun _ => ⟨?_, ?_, ?_, ?_, ?_, ?_⟩,
      fun hc => by cases hc⟩
    · obtain ⟨t, ht⟩ := hpre
      simp [callsSince, hlog, ← ht]
    · rw [h1, hdisp]
      simp
    · rw [h1, hdisp]
      simp
    · rw [h2, hauth]
    · rw [h3, hst]
    · rw [h3]
      intro action identifier
      exact lookup_filter_none _ (fun key => !startsWith key RATE_LIMIT_STORAGE_KEY) _
        (by simp [startsWith_storageKey])
    · rw [h4, hto]
      simp [hdis]
    · rw [h5, hnav]
  | true =>
    obtain ⟨app', hend, hlog, h1, _, h3, h4, h5⟩ :=
      reconcileFlags_storage_denied env u (defaultUserData user false) v app1 hm1
        (Or.inl hdis) (hst ▸ hs)
    refine ⟨app', hrun.trans hend, ?_,
      ⟨[(.setUserData (some (defaultUserData user false)), true)], ?_⟩,
      (fun hc => by cases hc),
      fun _ => ⟨?_, rfl, ?_, ?_, ?_⟩⟩
    · obtain ⟨t, ht⟩ := hpre
      simp [callsSince, hlog, ← ht]
    · rw [h1, hdisp]
      simp
    · rw [h1, hdisp]
      simp
    · rw [h3, hst]
    · rw [h4, hto]
    · rw [h5, hnav]

/-- C15 as amended, at a concrete input: the profile of `sampleUser` is disabled and both
its verification flags are false, the provider reports the email as unverified, and
`localStorage` holds a rate-limit record. -/
theorem disabled_profile_ends_session_witness :
    ∃ app', authStateChanged none (calmEnv false) (some sampleUser)
        (disabledProfileApp lockedOutStorage) = (.ok (), app') ∧
      (callsSince (disabledProfileApp lockedOutStorage).world app'.world).getLast?
        = some .signOut ∧
      app'.dispatched = [(.setUser (some sampleUser), true), (.resetAuth, true)] ∧
      app'.auth
        = authReducer (authReducer initialState (.setUser (some sampleUser))) .resetAuth ∧
      app'.storage.items = [("theme", .malformed "dark")] ∧
      (∀ action identifier, app'.storage.lookup (storageKey action identifier) = none) ∧
      app'.toasts = ["Your account has been disabled. Please contact support."] ∧
      app'.navigations = ["/login"] := by
  obtain ⟨app', h1, h2, _, h4, _⟩ :=
    disabled_profile_ends_session (calmEnv false) sampleUser
      (disabledProfileApp lockedOutStorage)
      (sampleProfile "user" false false false) rfl rfl (by decide) rfl
  obtain ⟨h5, h6, h7, h8, h9, h10⟩ := h4 rfl
  exact ⟨app', h1, h2, h5, h6, h7.trans (by decide), h8, h9, h10⟩

/-! ## Lemmas on relations between the states of a run -/

/-- A relation between states that is transitive holds across `m >>= f` when it holds
across `m` and, from every state `m` returns in, across the continuation. -/
theorem eff_rel_bind {α β : Type} (R : World → World → Prop)
    (htrans : ∀ a b c, R a b → R b c → R a c) (m : Eff α) (f : α → Eff β) (w : World)
    (hm : R w (m w).2) (hf : ∀ a w1, m w = (.ok a, w1) → R w1 (f a w1).2) :
    R w ((m >>= f) w).2 := by
  show R w (Eff.andThen m f w).2
  unfold Eff.andThen
  rcases hmw : m w with ⟨r, w1⟩
  rw [hmw] at hm
  cases r with
  | error e => exact hm
  | ok a => exact htrans _ _ _ hm (hf a w1 hmw)

theorem eff_rel_tryCatch {α : Type} (R : World → World → Prop)
    (htrans : ∀ a b c, R a b → R b c → R a c) (body : Eff α) (handler : JsError → Eff α)
    (w : World) (hb : R w (body w).2)
    (hh : ∀ e w1, body w = (.error e, w1) → R w1 (handler e w1).2) :
    R w (Eff.tryCatch body handler w).2 := by
  unfold Eff.tryCatch
  rcases hbw : body w with ⟨r, w1⟩
  rw [hbw] at hb
  cases r with
  | error e => exact htrans _ _ _ hb (hh e w1 hbw)
  | ok a => exact hb

theorem eff_rel_pure {α : Type} (R : World → World → Prop) (hrefl : ∀ a, R a a) (a : α)
    (w : World) : R w ((pure a : Eff α) w).2 := hrefl w

theorem rolesKept_refl (w : World) : RolesKept w w := fun _ p h => ⟨p, h, rfl⟩

theorem rolesKept_trans (a b c : World) (h1 : RolesKept a b) (h2 : RolesKept b c) :
    RolesKept a c := by
  intro uid p hp
  obtain ⟨p1, hp1, hr1⟩ := h1 uid p hp
  obtain ⟨p2, hp2, hr2⟩ := h2 uid p1 hp1
  exact ⟨p2, hp2, hr2.trans hr1⟩

theorem namedRolesKept_refl (w : World) : NamedRolesKept w w :=
  fun _ p _ h hr _ => ⟨p, h, hr⟩

theorem namedRolesKept_trans (a b c : World) (h1 : NamedRolesKept a b)
    (h2 : NamedRolesKept b c) : NamedRolesKept a c := by
  intro uid p r hp hr hne
  obtain ⟨p1, hp1, hr1⟩ := h1 uid p r hp hr hne
  exact h2 uid p1 r hp1 hr1 hne

theorem rolesKept_named {w w' : World} (h : RolesKept w w') : NamedRolesKept w w' := by
  intro uid p r hp hr _
  obtain ⟨p1, hp1, hr1⟩ := h uid p hp
  exact ⟨p1, hp1, hr1.trans hr⟩

theorem writesAre_refl {P : Call → Prop} (w : World) : WritesAre P w w :=
  ⟨[], by simp, fun _ h => by cases h⟩

theorem writesAre_trans {P : Call → Prop} (a b c : World) (h1 : WritesAre P a b)
    (h2 : WritesAre P b c) : WritesAre P a c := by
  obtain ⟨c1, hl1, hc1⟩ := h1
  obtain ⟨c2, hl2, hc2⟩ := h2
  refine ⟨c1 ++ c2, by rw [hl2, hl1, List.append_assoc], ?_⟩
  intro x hmem
  rcases List.mem_append.mp hmem with h | h
  · exact hc1 x h
  · exact hc2 x h

theorem routineSync_refl {P : Call → Prop} (w : World) : RoutineSync P w w :=
  ⟨rolesKept_refl w, writesAre_refl w⟩

theorem routineSync_trans {P : Call → Prop} (a b c : World) (h1 : RoutineSync P a b)
    (h2 : RoutineSync P b c) : RoutineSync P a c :=
  ⟨rolesKept_trans a b c h1.1 h2.1, writesAre_trans a b c h1.2 h2.2⟩

theorem readOnlyStep_routine {P : Call → Prop} {w w' : World} (h : ReadOnlyStep w w') :
    RoutineSync P w w' := by
  obtain ⟨hu, c, hl, hc⟩ := h
  refine ⟨fun uid p hp => ⟨p, by rw [hu]; exact hp, rfl⟩, [c], hl, ?_⟩
  intro x hmem hw
  rw [List.mem_singleton] at hmem
  subst hmem
  rw [hc] at hw
  cases hw

theorem readOnlyStep_rolesKept {w w' : World} (h : ReadOnlyStep w w') : RolesKept w w' :=
  fun _ p hp => ⟨p, by rw [h.1]; exact hp, rfl⟩

theorem readOnlyStep_named {w w' : World} (h : ReadOnlyStep w w') : NamedRolesKept w w' :=
  rolesKept_named (readOnlyStep_rolesKept h)

theorem signInWithEmailAndPassword_readOnly (env : Env) (email password : String)
    (w : World) : ReadOnlyStep w (signInWithEmailAndPassword env email password w).2 := by
  cases h : env.signIn email password <;>
    simp [ReadOnlyStep, signInWithEmailAndPassword, bind, Eff.andThen, logCall, h,
      Call.isWrite]

theorem signInWithPopup_readOnly (env : Env) (w : World) :
    ReadOnlyStep w (signInWithPopup env w).2 := by
  cases h : env.signInPopup <;>
    simp [ReadOnlyStep, signInWithPopup, bind, Eff.andThen, logCall, h, Call.isWrite]

theorem reload_readOnly (env : Env) (user : FirebaseUser) (w : World) :
    ReadOnlyStep w (reload env user w).2 := by
  cases h : env.reload <;>
    simp [ReadOnlyStep, reload, bind, Eff.andThen, logCall, h, Call.isWrite]

theorem sendEmailVerification_readOnly (env : Env) (user : FirebaseUser) (w : World) :
    ReadOnlyStep w (sendEmailVerification env user w).2 := by
  cases h : env.sendEmailVerification <;>
    simp [ReadOnlyStep, sendEmailVerification, bind, Eff.andThen, logCall, failWith, h,
      Call.isWrite]

theorem signOut_readOnly (env : Env) (w : World) : ReadOnlyStep w (signOut env w).2 := by
  cases h : env.signOut <;>
    simp [ReadOnlyStep, signOut, bind, Eff.andThen, logCall, failWith, h, Call.isWrite]

theorem getDoc_readOnly (env : Env) (uid : String) (w : World) :
    ReadOnlyStep w (getDoc env uid w).2 := by
  cases h : env.getDoc w.reads <;>
    simp [ReadOnlyStep, getDoc, bind, Eff.andThen, logCall, h, Call.isWrite]

/-- What a `getDoc` call that returns has read: the stored document; the store is as
before. -/
theorem getDoc_returns (env : Env) (uid : String) (w w1 : World) (d : Option UserDoc)
    (h : getDoc env uid w = (.ok d, w1)) : d = w.users.lookup uid ∧ w1.users = w.users := by
  cases hg : env.getDoc w.reads <;>
    simp [getDoc, bind, Eff.andThen, logCall, hg] at h
  obtain ⟨h1, h2⟩ := h
  subst h2
  exact ⟨h1.symm, rfl⟩

/-- The `setDoc` that creates a profile where none is stored keeps every role. -/
theorem setDoc_rolesKept (env : Env) (uid : String) (data : UserDoc) (w : World)
    (hnone : w.users.lookup uid = none) : RolesKept w (setDoc env uid data w).2 := by
  intro k p hp
  refine ⟨p, ?_, rfl⟩
  cases h : env.setDoc with
  | some e => simpa [setDoc, bind, Eff.andThen, logCall, failWith, h] using hp
  | none =>
    have hk : k ≠ uid := by
      intro hk
      subst hk
      rw [hnone] at hp
      cases hp
    simp only [setDoc, bind, Eff.andThen, logCall, failWith, h]
    rw [lookup_replace]
    simpa [hk] using hp

theorem setDoc_log (env : Env) (uid : String) (data : UserDoc) (w : World) :
    (setDoc env uid data w).2.log = w.log ++ [.setDoc uid data] := by
  cases h : env.setDoc <;> simp [setDoc, bind, Eff.andThen, logCall, failWith, h]

theorem setDoc_routine {P : Call → Prop} (env : Env) (uid : String) (data : UserDoc)
    (w : World) (hnone : w.users.lookup uid = none) (hP : P (.setDoc uid data)) :
    RoutineSync P w (setDoc env uid data w).2 := by
  refine ⟨setDoc_rolesKept env uid data w hnone, [.setDoc uid data],
    setDoc_log env uid data w, ?_⟩
  intro x hmem _
  rw [List.mem_singleton] at hmem
  subst hmem
  exact hP

/-- An `updateDoc` that gives no role keeps every role. -/
theorem updateDoc_rolesKept (env : Env) (uid : String) (fields : UserFields) (w : World)
    (hrole : fields.role = none) : RolesKept w (updateDoc env uid fields w).2 := by
  intro k p hp
  cases h : env.updateDoc with
  | some e =>
    exact ⟨p, by simpa [updateDoc, bind, Eff.andThen, logCall, failWith, h] using hp, rfl⟩
  | none =>
    cases hl : w.users.lookup uid with
    | none =>
      exact ⟨p, by simpa [updateDoc, bind, Eff.andThen, logCall, failWith, h, hl] using hp,
        rfl⟩
    | some stored =>
      simp only [updateDoc, bind, Eff.andThen, logCall, failWith, h, hl]
      rw [lookup_replace]
      by_cases hk : k = uid
      · subst hk
        rw [hl] at hp
        cases hp
        exact ⟨p.update fields, by simp, by simp [UserDoc.update, hrole]⟩
      · exact ⟨p, by simpa [hk] using hp, rfl⟩

theorem updateDoc_log (env : Env) (uid : String) (fields : UserFields) (w : World) :
    (updateDoc env uid fields w).2.log = w.log ++ [.updateDoc uid fields] := by
  cases h : env.updateDoc <;> cases hl : w.users.lookup uid <;>
    simp [updateDoc, bind, Eff.andThen, logCall, failWith, h, hl]

/-- An `updateDoc` that gives no role and satisfies `P` is a routine sync. -/
theorem updateDoc_routine {P : Call → Prop} (env : Env) (uid : String)
    (fields : UserFields) (w : World) (hrole : fields.role = none)
    (hP : P (.updateDoc uid fields)) : RoutineSync P w (updateDoc env uid fields w).2 := by
  refine ⟨updateDoc_rolesKept env uid fields w hrole, [.updateDoc uid fields],
    updateDoc_log env uid fields w, ?_⟩
  intro x hmem _
  rw [List.mem_singleton] at hmem
  subst hmem
  exact hP

/-- A `syncEmailVerification` run keeps every role, and each of its store writes is an
`updateDoc` that gives only the verification fields. -/
theorem syncEmailVerification_routine (env : Env) (arg : UserArg) (w : World) :
    RoutineSync Call.IsVerificationUpdate w (syncEmailVerification env arg w).2 := by
  have tail : ∀ (user : FirebaseUser) (uid : String) (w1 : World),
      RoutineSync Call.IsVerificationUpdate w1
        ((if user.uid ≠ uid then
            (pure { AuthResult.bare false with error := some "User ID mismatch" } :
              Eff AuthResult)
          else do
            let firebaseUser ← reload env user
            let userDoc ← getDoc env uid
            match userDoc with
            | none =>
              pure { AuthResult.bare false with error := some "User document not found" }
            | some currentData =>
              if some firebaseUser.emailVerified ≠ currentData.emailVerified ∨
                  (firebaseUser.emailVerified = true ∧
                    currentData.isVerified ≠ some firebaseUser.emailVerified) then
                updateDoc env uid
                  { UserFields.blank with
                    emailVerified := some (some firebaseUser.emailVerified),
                    isVerified := some (some firebaseUser.emailVerified),
                    updatedAt := some (some env.serverTime) }
              pure { AuthResult.bare true with
                     emailVerified := some firebaseUser.emailVerified,
                     isVerified := some firebaseUser.emailVerified }) w1).2 := by
    intro user uid w1
    split
    · exact eff_rel_pure _ routineSync_refl _ _
    · apply eff_rel_bind _ routineSync_trans
      · exact readOnlyStep_routine (reload_readOnly _ _ _)
      · intro fu w2 _
        apply eff_rel_bind _ routineSync_trans
        · exact readOnlyStep_routine (getDoc_readOnly _ _ _)
        · intro d w3 _
          split
          · exact eff_rel_pure _ routineSync_refl _ _
          · split
            · apply eff_rel_bind _ routineSync_trans
              · exact updateDoc_routine _ _ _ _ rfl
                  ⟨_, _, rfl, rfl, rfl, rfl, rfl, rfl, rfl, rfl, rfl, rfl⟩
              · intro _ w4 _
                exact eff_rel_pure _ routineSync_refl _ _
            · apply eff_rel_bind _ routineSync_trans
              · exact eff_rel_pure _ routineSync_refl _ _
              · intro _ w4 _
                exact eff_rel_pure _ routineSync_refl _ _
  unfold syncEmailVerification
  apply eff_rel_tryCatch _ routineSync_trans
  · apply eff_rel_bind _ routineSync_trans
    · exact routineSync_refl _
    · intro current w1 _
      cases arg with
      | uid s =>
        cases current with
        | none => exact eff_rel_pure _ routineSync_refl _ _
        | some cu => exact tail cu s w1
      | user u => exact tail u u.uid w1
  · intro e w1 _
    exact eff_rel_pure _ routineSync_refl _ _

/-- The post-login checks of `loginUser` make no store write. -/
theorem loginUserChecks_routine (P : Call → Prop) (env : Env) (user : FirebaseUser)
    (w : World) : RoutineSync P w (loginUserChecks env user w).2 := by
  have send : ∀ w1 : World, RoutineSync P w1
      (Eff.tryCatch (sendEmailVerification env user) (fun _ => pure ()) w1).2 := by
    intro w1
    apply eff_rel_tryCatch _ routineSync_trans
    · exact readOnlyStep_routine (sendEmailVerification_readOnly _ _ _)
    · intro e w2 _
      exact eff_rel_pure _ routineSync_refl _ _
  have out : ∀ (r : AuthResult) (w1 : World), RoutineSync P w1
      ((do signOut env; pure r : Eff AuthResult) w1).2 := by
    intro r w1
    apply eff_rel_bind _ routineSync_trans
    · exact readOnlyStep_routine (signOut_readOnly _ _)
    · intro _ w2 _
      exact eff_rel_pure _ routineSync_refl _ _
  unfold loginUserChecks
  split
  · apply eff_rel_bind _ routineSync_trans
    · exact send _
    · intro _ w1 _
      exact out _ _
  · apply eff_rel_bind _ routineSync_trans
    · exact readOnlyStep_routine (getDoc_readOnly _ _ _)
    · intro d w1 _
      dsimp only
      split
      · apply eff_rel_bind _ routineSync_trans
        · exact send _
        · intro _ w2 _
          exact out _ _
      · split
        · exact out _ _
        · exact eff_rel_pure _ routineSync_refl _ _

/-- A `loginUser` run keeps the role of every stored profile, and its `updateDoc` calls
give only the verification fields. -/
theorem loginUser_routine (env : Env) (email password : String) (w : World) :
    RoutineSync Call.UpdatesOnlyVerification w (loginUser env email password w).2 := by
  unfold loginUser
  apply eff_rel_tryCatch _ routineSync_trans
  · apply eff_rel_bind _ routineSync_trans
    · exact readOnlyStep_routine (signInWithEmailAndPassword_readOnly _ _ _ _)
    · intro user w1 _
      apply eff_rel_bind _ routineSync_trans
      · exact readOnlyStep_routine (reload_readOnly _ _ _)
      · intro user2 w2 _
        apply eff_rel_bind _ routineSync_trans
        · exact readOnlyStep_routine (getDoc_readOnly _ _ _)
        · intro d w3 hd
          obtain ⟨hd1, hd2⟩ := getDoc_returns _ _ _ _ _ hd
          cases d with
          | none =>
            apply eff_rel_bind _ routineSync_trans
            · exact setDoc_routine _ _ _ _ (by rw [hd2]; exact hd1.symm)
                (fun _ _ h => by cases h)
            · intro _ w4 _
              exact loginUserChecks_routine _ _ _ _
          | some userData =>
            dsimp only
            split
            · apply eff_rel_bind _ routineSync_trans
              · exact readOnlyStep_routine (signOut_readOnly _ _)
              · intro _ w4 _
                exact eff_rel_pure _ routineSync_refl _ _
            · split
              · apply eff_rel_bind _ routineSync_trans
                · exact updateDoc_routine _ _ _ _ rfl
                    (fun _ _ h => by
                      cases h
                      exact ⟨rfl, rfl, rfl, rfl, rfl, rfl, rfl, rfl, rfl⟩)
                · intro _ w4 _
                  exact loginUserChecks_routine _ _ _ _
              · apply eff_rel_bind _ routineSync_trans
                · exact eff_rel_pure _ routineSync_refl _ _
                · intro _ w4 _
                  exact loginUserChecks_routine _ _ _ _
  · intro e w1 _
    exact eff_rel_pure _ routineSync_refl _ _

/-- The post-login checks of `loginWithGoogle` make no store write. -/
theorem loginWithGoogleChecks_rolesKept (env : Env) (user : FirebaseUser)
    (userData : UserDoc) (w : World) :
    RolesKept w (loginWithGoogleChecks env user userData w).2 := by
  have out : ∀ (r : AuthResult) (w1 : World), RolesKept w1
      ((do signOut env; pure r : Eff AuthResult) w1).2 := by
    intro r w1
    apply eff_rel_bind _ rolesKept_trans
    · exact readOnlyStep_rolesKept (signOut_readOnly _ _)
    · intro _ w2 _
      exact eff_rel_pure _ rolesKept_refl _ _
  unfold loginWithGoogleChecks
  split
  · exact out _ _
  · apply eff_rel_bind _ rolesKept_trans
    · exact readOnlyStep_rolesKept (getDoc_readOnly _ _ _)
    · intro d w1 _
      dsimp only
      split
      · exact out _ _
      · exact eff_rel_pure _ rolesKept_refl _ _

/-- The `updateDoc` of `loginWithGoogle`, which gives as role the stored role or, when
that is missing or empty, `user`, keeps every role that is a non-empty string. -/
theorem updateDoc_namedRolesKept (env : Env) (uid : String) (fields : UserFields)
    (w : World) (existing : UserDoc) (hex : w.users.lookup uid = some existing)
    (hrole : fields.role = some (orString existing.role (some "user"))) :
    NamedRolesKept w (updateDoc env uid fields w).2 := by
  intro k p r hp hr hne
  cases h : env.updateDoc with
  | some e =>
    exact ⟨p, by simpa [updateDoc, bind, Eff.andThen, logCall, failWith, h] using hp, hr⟩
  | none =>
    simp only [updateDoc, bind, Eff.andThen, logCall, failWith, h, hex]
    rw [lookup_replace]
    by_cases hk : k = uid
    · subst hk
      rw [hex] at hp
      cases hp
      exact ⟨existing.update fields, by simp, by simp [UserDoc.update, hrole, hr, orString, hne]⟩
    · exact ⟨p, by simpa [hk] using hp, hr⟩

theorem setDoc_namedRolesKept (env : Env) (uid : String) (data : UserDoc) (w : World)
    (hnone : w.users.lookup uid = none) : NamedRolesKept w (setDoc env uid data w).2 :=
  rolesKept_named (setDoc_rolesKept env uid data w hnone)

/-- A `loginWithGoogle` run keeps every stored role that is a non-empty string. -/
theorem loginWithGoogle_namedRolesKept (env : Env) (w : World) :
    NamedRolesKept w (loginWithGoogle env w).2 := by
  unfold loginWithGoogle
  apply eff_rel_tryCatch _ namedRolesKept_trans
  · apply eff_rel_bind _ namedRolesKept_trans
    · exact readOnlyStep_named (signInWithPopup_readOnly _ _)
    · intro user w1 _
      apply eff_rel_bind _ namedRolesKept_trans
      · exact readOnlyStep_named (reload_readOnly _ _ _)
      · intro user2 w2 _
        apply eff_rel_bind _ namedRolesKept_trans
        · exact readOnlyStep_named (getDoc_readOnly _ _ _)
        · intro d w3 hd
          obtain ⟨hd1, hd2⟩ := getDoc_returns _ _ _ _ _ hd
          cases d with
          | none =>
            apply eff_rel_bind _ namedRolesKept_trans
            · exact setDoc_namedRolesKept _ _ _ _ (by rw [hd2]; exact hd1.symm)
            · intro _ w4 _
              exact rolesKept_named (loginWithGoogleChecks_rolesKept _ _ _ _)
          | some existingData =>
            dsimp only
            split
            · apply eff_rel_bind _ namedRolesKept_trans
              · exact readOnlyStep_named (signOut_readOnly _ _)
              · intro _ w4 _
                exact eff_rel_pure _ namedRolesKept_refl _ _
            · apply eff_rel_bind _ namedRolesKept_trans
              · exact updateDoc_namedRolesKept _ _ _ _ existingData
                  (by rw [hd2]; exact hd1.symm) rfl
              · intro _ w4 _
                exact rolesKept_named (loginWithGoogleChecks_rolesKept _ _ _ _)
  · intro e w1 _
    exact eff_rel_pure _ namedRolesKept_refl _ _

/-! ## The role is not overwritten -/

/-- C16. A profile's role is never overwritten by a routine sync. For every stored
profile that has a role (a non-empty string), whatever the calls answer: after
`syncEmailVerification` (with either kind of argument), after `loginUser` and after
`loginWithGoogle` the profile is still stored with that role; every store write of
`syncEmailVerification` is an `updateDoc` that gives no field other than `emailVerified`,
`isVerified` and `updatedAt`, and so does every `updateDoc` call of `loginUser`. -/
theorem role_never_overwritten (env : Env) (w : World) (uid : String) (p : UserDoc)
    (r : String) (hp : w.users.lookup uid = some p) (hr : p.role = some r) (hne : r ≠ "") :
    (∀ arg,
      (∃ p', (syncEmailVerification env arg w).2.users.lookup uid = some p' ∧
        p'.role = some r) ∧
      ∀ c ∈ writesSince w (syncEmailVerification env arg w).2,
        ∃ k fields, c = .updateDoc k fields ∧ fields.OnlyVerification) ∧
    (∀ email password,
      (∃ p', (loginUser env email password w).2.users.lookup uid = some p' ∧
        p'.role = some r) ∧
      ∀ k fields, Call.updateDoc k fields ∈ callsSince w (loginUser env email password w).2 →
        fields.OnlyVerification) ∧
    (∃ p', (loginWithGoogle env w).2.users.lookup uid = some p' ∧ p'.role = some r) := by
  refine ⟨fun arg => ?_, fun email password => ?_, ?_⟩
  · obtain ⟨hroles, calls, hlog, hcalls⟩ := syncEmailVerification_routine env arg w
    obtain ⟨p', hp', hr'⟩ := hroles uid p hp
    refine ⟨⟨p', hp', hr'.trans hr⟩, ?_⟩
    intro c hc
    rw [writesSince, callsSince_append _ _ _ hlog, List.mem_filter] at hc
    exact hcalls c hc.1 hc.2
  · obtain ⟨hroles, calls, hlog, hcalls⟩ := loginUser_routine env email password w
    obtain ⟨p', hp', hr'⟩ := hroles uid p hp
    refine ⟨⟨p', hp', hr'.trans hr⟩, ?_⟩
    intro k fields hc
    rw [callsSince_append _ _ _ hlog] at hc
    exact hcalls _ hc rfl k fields rfl
  · exact loginWithGoogle_namedRolesKept env w uid p r hp hr hne

/-- C16 at a concrete input: the stored profile of `sampleUser` has the role `admin` and
its verification flags are stale, so that each of the three routines writes to it. -/
theorem role_never_overwritten_witness :
    (∀ arg,
      (∃ p', (syncEmailVerification (calmEnv true) arg
          (sampleWorld [("u1", sampleProfile "admin" false false true)])).2.users.lookup "u1"
            = some p' ∧ p'.role = some "admin") ∧
      ∀ c ∈ writesSince (sampleWorld [("u1", sampleProfile "admin" false false true)])
          (syncEmailVerification (calmEnv true) arg
            (sampleWorld [("u1", sampleProfile "admin" false false true)])).2,
        ∃ k fields, c = .updateDoc k fields ∧ fields.OnlyVerification) ∧
    (∀ email password,
      (∃ p', (loginUser (calmEnv true) email password
          (sampleWorld [("u1", sampleProfile "admin" false false true)])).2.users.lookup "u1"
            = some p' ∧ p'.role = some "admin") ∧
      ∀ k fields, Call.updateDoc k fields ∈
          callsSince (sampleWorld [("u1", sampleProfile "admin" false false true)])
            (loginUser (calmEnv true) email password
              (sampleWorld [("u1", sampleProfile "admin" false false true)])).2 →
        fields.OnlyVerification) ∧
    (∃ p', (loginWithGoogle (calmEnv true)
        (sampleWorld [("u1", sampleProfile "admin" false false true)])).2.users.lookup "u1"
          = some p' ∧ p'.role = some "admin") :=
  role_never_overwritten (calmEnv true)
    (sampleWorld [("u1", sampleProfile "admin" false false true)]) "u1"
    (sampleProfile "admin" false false true) "admin" (by decide) rfl (by decide)

/-! ## Lemmas on the dispatches of the handler -/

/-- A relation between apps that is transitive holds across `m >>= f` when it holds
across `m` and, from every app `m` returns in, across the continuation. -/
theorem handler_rel_bind {α β : Type} (R : App → App → Prop)
    (htrans : ∀ a b c, R a b → R b c → R a c) (m : Handler α) (f : α → Handler β)
    (app : App) (hm : R app (m app).2)
    (hf : ∀ a app1, m app = (.ok a, app1) → R app1 (f a app1).2) :
    R app ((m >>= f) app).2 := by
  show R app (Handler.andThen m f app).2
  unfold Handler.andThen
  rcases hmw : m app with ⟨r, app1⟩
  rw [hmw] at hm
  cases r with
  | error e => exact hm
  | ok a => exact htrans _ _ _ hm (hf a app1 hmw)

theorem handler_rel_tryCatch {α : Type} (R : App → App → Prop)
    (htrans : ∀ a b c, R a b → R b c → R a c) (body : Handler α)
    (handler : JsError → Handler α) (app : App) (hb : R app (body app).2)
    (hh : ∀ e app1, body app = (.error e, app1) → R app1 (handler e app1).2) :
    R app (Handler.tryCatch body handler app).2 := by
  unfold Handler.tryCatch
  rcases hbw : body app with ⟨r, app1⟩
  rw [hbw] at hb
  cases r with
  | error e => exact htrans _ _ _ hb (hh e app1 hbw)
  | ok a => exact hb

theorem dispatchesGuarded_of_eq {app app' : App} (h : app'.dispatched = app.dispatched) :
    DispatchesGuarded app app' :=
  ⟨[], by simp [h], fun _ hx => by cases hx⟩

theorem dispatchesGuarded_refl (app : App) : DispatchesGuarded app app := dispatchesGuarded_of_eq rfl

theorem dispatchesGuarded_trans (a b c : App) (h1 : DispatchesGuarded a b)
    (h2 : DispatchesGuarded b c) : DispatchesGuarded a c := by
  obtain ⟨l1, e1, g1⟩ := h1
  obtain ⟨l2, e2, g2⟩ := h2
  refine ⟨l1 ++ l2, by rw [e2, e1, List.append_assoc], ?_⟩
  intro x hx
  rcases List.mem_append.mp hx with h | h
  · exact g1 x h
  · exact g2 x h

theorem pure_guarded {α : Type} (a : α) (app : App) :
    DispatchesGuarded app ((pure a : Handler α) app).2 := dispatchesGuarded_refl app

theorem await_guarded {α : Type} (teardownAt : Option Nat) (call : Eff α) (app : App) :
    DispatchesGuarded app (await teardownAt call app).2 := dispatchesGuarded_of_eq rfl

theorem toastError_guarded (message : String) (app : App) :
    DispatchesGuarded app (toastError message app).2 := dispatchesGuarded_of_eq rfl

theorem navigate_guarded (path : String) (app : App) :
    DispatchesGuarded app (navigate path app).2 := dispatchesGuarded_of_eq rfl

theorem clearAllRateLimitsCall_guarded (app : App) :
    DispatchesGuarded app (clearAllRateLimitsCall app).2 := by
  unfold clearAllRateLimitsCall
  split <;> exact dispatchesGuarded_of_eq rfl

/-- A dispatch made while `isMounted` is true is guarded. -/
theorem dispatch_guarded (action : AuthAction) (app : App) (hm : app.isMounted = true) :
    DispatchesGuarded app (dispatch action app).2 :=
  ⟨[(action, app.isMounted)], rfl, fun x hx h => by
    rw [List.mem_singleton] at hx
    subst hx
    rw [hm] at h
    cases h⟩

/-- The dispatch of `resetAuth` is guarded whatever `isMounted` is. -/
theorem dispatch_resetAuth_guarded (app : App) :
    DispatchesGuarded app (dispatch .resetAuth app).2 :=
  ⟨[(.resetAuth, app.isMounted)], rfl, fun x hx _ => by
    rw [List.mem_singleton] at hx
    subst hx
    rfl⟩

theorem dispatch_isMounted (action : AuthAction) (app app1 : App) (u : Unit)
    (h : dispatch action app = (.ok u, app1)) : app1.isMounted = app.isMounted := by
  simp only [dispatch, Prod.mk.injEq] at h
  rw [← h.2]

/-- What follows `if (!isMounted) return;` is run only while `isMounted` is true. -/
theorem whenMounted_guarded (rest : Handler Unit) (app : App)
    (h : app.isMounted = true → DispatchesGuarded app (rest app).2) :
    DispatchesGuarded app (whenMounted rest app).2 := by
  unfold whenMounted
  split
  · rename_i hm
    exact h hm
  · exact dispatchesGuarded_refl app

theorem syncIfNeeded_guarded (teardownAt : Option Nat) (env : Env) (user : FirebaseUser)
    (userData : UserDoc) (v : Bool) (app : App) :
    DispatchesGuarded app (syncIfNeeded teardownAt env user userData v app).2 := by
  unfold syncIfNeeded
  dsimp only
  split
  · apply handler_rel_bind _ dispatchesGuarded_trans
    · exact await_guarded _ _ _
    · intro _ app1 _
      apply handler_rel_bind _ dispatchesGuarded_trans
      · exact await_guarded _ _ _
      · intro r app2 _
        generalize (if r.success then r.data else none) = fetched
        cases fetched <;> exact pure_guarded _ _
  · exact pure_guarded _ _

/-- The steps of a branch that ends the session: after `await logoutUser()` the only
dispatch is `resetAuth`. -/
theorem endSession_guarded (teardownAt : Option Nat) (env : Env) (message : String)
    (app : App) :
    DispatchesGuarded app
      ((do
        let _ ← await teardownAt (logoutUser env)
        dispatch .resetAuth
        clearAllRateLimitsCall
        toastError message
        whenMounted (navigate "/login") : Handler Unit) app).2 := by
  apply handler_rel_bind _ dispatchesGuarded_trans
  · exact await_guarded _ _ _
  · intro _ app1 _
    apply handler_rel_bind _ dispatchesGuarded_trans
    · exact dispatch_resetAuth_guarded _
    · intro _ app2 _
      apply handler_rel_bind _ dispatchesGuarded_trans
      · exact clearAllRateLimitsCall_guarded _
      · intro _ app3 _
        apply handler_rel_bind _ dispatchesGuarded_trans
        · exact toastError_guarded _ _
        · intro _ app4 _
          exact whenMounted_guarded _ _ (fun _ => navigate_guarded _ _)

theorem reconcileFlags_guarded (teardownAt : Option Nat) (env : Env) (userData : UserDoc)
    (v : Bool) (app : App) (hm : app.isMounted = true) :
    DispatchesGuarded app (reconcileFlags teardownAt env userData v app).2 := by
  unfold reconcileFlags
  dsimp only
  split
  · exact endSession_guarded _ _ _ _
  · split
    · exact endSession_guarded _ _ _ _
    · exact dispatch_guarded _ _ hm

/-- Every dispatch of a run of the handler is made while `isMounted` is true, or is
`resetAuth`. -/
theorem authStateChanged_guarded (teardownAt : Option Nat) (env : Env)
    (firebaseUser : Option FirebaseUser) (app : App) :
    DispatchesGuarded app (authStateChanged teardownAt env firebaseUser app).2 := by
  unfold authStateChanged
  apply whenMounted_guarded
  intro hm
  cases firebaseUser with
  | none =>
    apply handler_rel_bind _ dispatchesGuarded_trans
    · exact dispatch_guarded _ _ hm
    · intro u app1 h1
      exact dispatch_guarded _ _ ((dispatch_isMounted _ _ _ _ h1).trans hm)
  | some user =>
    apply handler_rel_tryCatch _ dispatchesGuarded_trans
    · apply handler_rel_bind _ dispatchesGuarded_trans
      · exact dispatch_guarded _ _ hm
      · intro _ app1 _
        apply handler_rel_bind _ dispatchesGuarded_trans
        · exact await_guarded _ _ _
        · intro result app2 _
          apply whenMounted_guarded
          intro hm2
          generalize (if result.success then result.data else none) = fetched
          cases fetched with
          | some userData =>
            apply handler_rel_bind _ dispatchesGuarded_trans
            · exact await_guarded _ _ _
            · intro v app3 _
              apply whenMounted_guarded
              intro hm3
              apply handler_rel_bind _ dispatchesGuarded_trans
              · exact syncIfNeeded_guarded _ _ _ _ _ _
              · intro u app4 _
                apply whenMounted_guarded
                intro hm4
                exact reconcileFlags_guarded _ _ _ _ _ hm4
          | none =>
            apply handler_rel_bind _ dispatchesGuarded_trans
            · exact await_guarded _ _ _
            · intro v app3 _
              apply whenMounted_guarded
              intro hm3
              exact dispatch_guarded _ _ hm3
    · intro e app1 _
      apply whenMounted_guarded
      intro hm1
      exact dispatch_guarded _ _ hm1

/-- C20 fails as stated: when the effect cleanup runs while the handler is suspended in
`await logoutUser()` (here the third `await` of the run, for a disabled profile), the
handler resumes with `isMounted = false` and still dispatches `resetAuth`, clears the
rate limits and shows the message; only the navigation is skipped. -/
theorem resetAuth_dispatched_after_teardown :
    (authStateChanged (some 2) (calmEnv false) (some sampleUser)
        (signedInApp sampleUser [("u1", sampleProfile "user" false false false)])).1
      = .ok () ∧
    (authStateChanged (some 2) (calmEnv false) (some sampleUser)
        (signedInApp sampleUser
          [("u1", sampleProfile "user" false false false)])).2.world.log
      = [.getDoc "u1", .reload "u1", .signOut] ∧
    (authStateChanged (some 2) (calmEnv false) (some sampleUser)
        (signedInApp sampleUser
          [("u1", sampleProfile "user" false false false)])).2.isMounted = false ∧
    (authStateChanged (some 2) (calmEnv false) (some sampleUser)
        (signedInApp sampleUser
          [("u1", sampleProfile "user" false false false)])).2.dispatched
      = [(.setUser (some sampleUser), true), (.resetAuth, false)] ∧
    (authStateChanged (some 2) (calmEnv false) (some sampleUser)
        (signedInApp sampleUser [("u1", sampleProfile "user" false false false)])).2.toasts
      = ["Your account has been disabled. Please contact support."] ∧
    (authStateChanged (some 2) (calmEnv false) (some sampleUser)
        (signedInApp sampleUser
          [("u1", sampleProfile "user" false false false)])).2.navigations = [] :=
  ⟨rfl, rfl, rfl, rfl, rfl, rfl⟩

/-- C20 as amended. In every run of the `onAuthStateChange` handler, whenever the effect
cleanup runs (during any `await`, or not at all) and whatever the calls answer, every
action dispatched by the run while `isMounted` is false is `resetAuth`: no `setUser` and
no `setUserData` is dispatched after the teardown. -/
theorem no_user_dispatch_after_teardown (teardownAt : Option Nat) (env : Env)
    (firebaseUser : Option FirebaseUser) (app : App) :
    ∃ added,
      (authStateChanged teardownAt env firebaseUser app).2.dispatched
        = app.dispatched ++ added ∧
      ∀ x ∈ added, x.2 = false → x.1 = AuthAction.resetAuth :=
  authStateChanged_guarded teardownAt env firebaseUser app

/-- C20 as amended, at a concrete input: the cleanup runs during the `await` of
`checkEmailVerification` (the second of the run). -/
theorem no_user_dispatch_after_teardown_witness :
    ∃ added,
      (authStateChanged (some 1) (calmEnv true) (some verifiedUser)
          (signedInApp verifiedUser
            [("u1", sampleProfile "user" true true true)])).2.dispatched
        = (signedInApp verifiedUser
            [("u1", sampleProfile "user" true true true)]).dispatched ++ added ∧
      ∀ x ∈ added, x.2 = false → x.1 = AuthAction.resetAuth :=
  no_user_dispatch_after_teardown (some 1) (calmEnv true) (some verifiedUser)
    (signedInApp verifiedUser [("u1", sampleProfile "user" true true true)])

/-! ## The route guards -/

/-- C21. `ProtectedRoute` is a function of `loading`, `isAuthenticated`, `isAdmin`,
`userData.role` and `requireAdmin`: two auth states that agree on these give the same
result. It yields the loading view (and no redirect) whenever `loading` is true;
otherwise a redirect to the login route when `isAuthenticated` is false; otherwise a
redirect to the home route when `requireAdmin` is true and the user is not an admin
(neither `isAdmin` nor a `userData.role` equal to `admin`); otherwise the children. -/
theorem protectedRoute_decides (auth other : AuthState) (requireAdmin : Bool) :
    (auth.loading = other.loading → auth.isAuthenticated = other.isAuthenticated →
      auth.isAdmin = other.isAdmin →
      auth.userData.bind (fun d => d.role) = other.userData.bind (fun d => d.role) →
      ProtectedRoute auth requireAdmin = ProtectedRoute other requireAdmin) ∧
    (auth.loading = true → ProtectedRoute auth requireAdmin = .loadingView) ∧
    (auth.loading = false → auth.isAuthenticated = false →
      ProtectedRoute auth requireAdmin = .navigateTo ROUTES.LOGIN) ∧
    (auth.loading = false → auth.isAuthenticated = true → requireAdmin = true →
      auth.isAdmin = false → (¬ ∃ d, auth.userData = some d ∧ d.role = some "admin") →
      ProtectedRoute auth requireAdmin = .navigateTo ROUTES.HOME) ∧
    (auth.loading = false → auth.isAuthenticated = true →
      (requireAdmin = false ∨ auth.isAdmin = true ∨
        ∃ d, auth.userData = some d ∧ d.role = some "admin") →
      ProtectedRoute auth requireAdmin = .children) := by
  refine ⟨?_, ?_, ?_, ?_, ?_⟩
  · intro h1 h2 h3 h4
    have hrole : roleIsAdmin auth.userData = roleIsAdmin other.userData := by
      cases ha : auth.userData <;> cases ho : other.userData <;>
        simp [roleIsAdmin, ha, ho] at h4 ⊢
      · rw [← h4]; simp
      · rw [h4]; simp
      · rw [h4]
    simp [ProtectedRoute, h1, h2, h3, hrole]
  · intro h
    simp [ProtectedRoute, h]
  · intro h1 h2
    simp [ProtectedRoute, h1, h2]
  · intro h1 h2 h3 h4 h5
    have hrole : roleIsAdmin auth.userData = false := by
      rw [Bool.eq_false_iff]
      intro hr
      exact h5 ((roleIsAdmin_iff _).mp hr)
    simp [ProtectedRoute, h1, h2, h3, h4, hrole]
  · intro h1 h2 h3
    rcases h3 with h3 | h3 | h3
    · simp [ProtectedRoute, h1, h2, h3]
    · simp [ProtectedRoute, h1, h2, h3]
    · have hrole : roleIsAdmin auth.userData = true := (roleIsAdmin_iff _).mpr h3
      simp [ProtectedRoute, h1, h2, hrole]

/-- C21 at a concrete input: a loaded, authenticated user with the role `user` on a route
that requires an admin is sent to the home route. -/
theorem protectedRoute_decides_witness :
    ProtectedRoute (loadedAuth "user") true = .navigateTo ROUTES.HOME :=
  (protectedRoute_decides (loadedAuth "user") (loadedAuth "user") true).2.2.2.1
    rfl rfl rfl rfl (by decide)

/-- C22 fails as stated: a run of the effect with `loading = false`,
`isAuthenticated = true`, an admin user and the home path does not navigate when the
latch `hasRedirected` is set. An admin who has been redirected from the home path to the
dashboard and then returns to the home path stays there: of the three effect runs only
the first navigates. -/
theorem authRedirect_latched_run_stays :
    (loadedAuth "admin").loading = false ∧ (loadedAuth "admin").isAuthenticated = true ∧
    (loadedAuth "admin").isAdmin = true ∧
    AuthRedirect.effect (loadedAuth "admin") ROUTES.HOME
        { hasRedirected := true, navigations := [ROUTES.ADMIN_DASHBOARD] }
      = { hasRedirected := true, navigations := [ROUTES.ADMIN_DASHBOARD] } ∧
    AuthRedirect.effects
        [(loadedAuth "admin", ROUTES.HOME), (loadedAuth "admin", ROUTES.ADMIN_DASHBOARD),
         (loadedAuth "admin", ROUTES.HOME)] AuthRedirect.mounted
      = { hasRedirected := true, navigations := [ROUTES.ADMIN_DASHBOARD] } := by
  decide

/-- C22 as amended. For every run of the `AuthRedirect` effect with `loading = false`
and `isAuthenticated = true` in which the latch `hasRedirected` is not set: if the user is
an admin (`isAdmin`, or a `userData.role` equal to `admin`) and the current path is the
home path, it navigates to the admin dashboard; if the user is not an admin and the
current path starts with `/admin`, it navigates to home; either way it navigates once and
sets the latch. -/
theorem authRedirect_navigates_when_unlatched (auth : AuthState) (pathname : String)
    (ref : AuthRedirect) (hl : auth.loading = false) (ha : auth.isAuthenticated = true)
    (hr : ref.hasRedirected = false) :
    ((auth.isAdmin = true ∨ ∃ d, auth.userData = some d ∧ d.role = some "admin") →
      pathname = ROUTES.HOME →
      AuthRedirect.effect auth pathname ref
        = { hasRedirected := true,
            navigations := ref.navigations ++ [ROUTES.ADMIN_DASHBOARD] }) ∧
    (auth.isAdmin = false → (¬ ∃ d, auth.userData = some d ∧ d.role = some "admin") →
      startsWith pathname "/admin" = true →
      AuthRedirect.effect auth pathname ref
        = { hasRedirected := true, navigations := ref.navigations ++ [ROUTES.HOME] }) := by
  refine ⟨?_, ?_⟩
  · intro hadmin hp
    have h : (auth.isAdmin || roleIsAdmin auth.userData) = true := by
      rcases hadmin with h | h
      · simp [h]
      · simp [(roleIsAdmin_iff _).mpr h]
    simp [AuthRedirect.effect, hl, ha, hr, h, hp]
  · intro h1 h2 hp
    have hrole : roleIsAdmin auth.userData = false := by
      rw [Bool.eq_false_iff]
      intro hr
      exact h2 ((roleIsAdmin_iff _).mp hr)
    simp [AuthRedirect.effect, hl, ha, hr, h1, hrole, hp]

/-- C22 as amended, at a concrete input: a freshly mounted instance, an admin on the
home path. -/
theorem authRedirect_navigates_when_unlatched_witness :
    AuthRedirect.effect (loadedAuth "admin") ROUTES.HOME AuthRedirect.mounted
      = { hasRedirected := true,
          navigations := AuthRedirect.mounted.navigations ++ [ROUTES.ADMIN_DASHBOARD] } :=
  (authRedirect_navigates_when_unlatched (loadedAuth "admin") ROUTES.HOME
    AuthRedirect.mounted rfl rfl rfl).1 (Or.inl rfl) rfl

/-- A run of the effect with `loading = false` and `isAuthenticated = true` on a set
latch changes nothing. -/
theorem authRedirect_effect_latched (auth : AuthState) (pathname : String)
    (ref : AuthRedirect) (hl : auth.loading = false) (ha : auth.isAuthenticated = true)
    (hr : ref.hasRedirected = true) : AuthRedirect.effect auth pathname ref = ref := by
  simp [AuthRedirect.effect, hl, ha, hr]

/-- C23. The `AuthRedirect` navigation fires at most once per auth-state transition.
A run of the effect navigates at most once, and when it does it sets the latch; from a
set latch, any number of runs with `loading = false` and `isAuthenticated = true`
navigates nowhere and leaves the latch set; a run resets a set latch exactly when it has
`loading = true` or `isAuthenticated = false`; and a run with `loading = true` does not
navigate. -/
theorem authRedirect_fires_once (auth : AuthState) (pathname : String)
    (ref : AuthRedirect) :
    ((AuthRedirect.effect auth pathname ref).navigations = ref.navigations ∨
      ((AuthRedirect.effect auth pathname ref).hasRedirected = true ∧
        ∃ path, (AuthRedirect.effect auth pathname ref).navigations
          = ref.navigations ++ [path])) ∧
    (∀ runs : List (AuthState × String), ref.hasRedirected = true →
      (∀ run ∈ runs, run.1.loading = false ∧ run.1.isAuthenticated = true) →
      AuthRedirect.effects runs ref = ref) ∧
    (ref.hasRedirected = true →
      ((AuthRedirect.effect auth pathname ref).hasRedirected = false ↔
        (auth.loading = true ∨ auth.isAuthenticated = false))) ∧
    (auth.loading = true →
      (AuthRedirect.effect auth pathname ref).navigations = ref.navigations) := by
  refine ⟨?_, ?_, ?_, ?_⟩
  · unfold AuthRedirect.effect
    dsimp only
    split
    · exact Or.inl rfl
    · split
      · exact Or.inl rfl
      · split
        · exact Or.inl rfl
        · split
          · exact Or.inr ⟨rfl, _, rfl⟩
          · split
            · exact Or.inr ⟨rfl, _, rfl⟩
            · exact Or.inl rfl
  · intro runs
    induction runs with
    | nil => intro _ _; rfl
    | cons run rest ih =>
      intro hr hall
      obtain ⟨a, p⟩ := run
      have h1 := hall (a, p) (List.mem_cons_self _ _)
      simp only [AuthRedirect.effects]
      rw [authRedirect_effect_latched a p ref h1.1 h1.2 hr]
      exact ih hr (fun run hrun => hall run (List.mem_cons_of_mem _ hrun))
  · intro hr
    cases hl : auth.loading <;> cases ha : auth.isAuthenticated <;>
      simp [AuthRedirect.effect, hl, ha, hr]
  · intro hl
    simp [AuthRedirect.effect, hl]

/-- C23 at a concrete input: an admin is redirected from the home path, then the effect
runs again for the dashboard and once more for the home path. -/
theorem authRedirect_fires_once_witness :
    AuthRedirect.effects
        [(loadedAuth "admin", ROUTES.ADMIN_DASHBOARD), (loadedAuth "admin", ROUTES.HOME)]
        (AuthRedirect.effect (loadedAuth "admin") ROUTES.HOME AuthRedirect.mounted)
      = AuthRedirect.effect (loadedAuth "admin") ROUTES.HOME AuthRedirect.mounted :=
  (authRedirect_fires_once (loadedAuth "admin") ROUTES.HOME
    (AuthRedirect.effect (loadedAuth "admin") ROUTES.HOME AuthRedirect.mounted)).2.1
    [(loadedAuth "admin", ROUTES.ADMIN_DASHBOARD), (loadedAuth "admin", ROUTES.HOME)]
    (by decide) (by decide)

/-! ## The results of the auth services -/

/-- A property of the values `m >>= f` returns holds when it holds of the values every
continuation returns. -/
theorem eff_yields_bind {α β : Type} (P : β → Prop) (m : Eff α) (f : α → Eff β) (w : World)
    (hf : ∀ a w1, m w = (.ok a, w1) → ∀ b w2, f a w1 = (.ok b, w2) → P b) :
    ∀ b w2, (m >>= f) w = (.ok b, w2) → P b := by
  intro b w2 h
  change Eff.andThen m f w = (.ok b, w2) at h
  unfold Eff.andThen at h
  rcases hmw : m w with ⟨r, w1⟩
  rw [hmw] at h
  cases r with
  | error e => cases h
  | ok a => exact hf a w1 hmw b w2 h

theorem eff_yields_pure {α : Type} (P : α → Prop) (a : α) (w : World) (h : P a) :
    ∀ b w2, (pure a : Eff α) w = (.ok b, w2) → P b := by
  intro b w2 hb
  cases hb
  exact h

/-- A `try` block whose `catch` returns a value never throws, and a property of the
values it returns holds when it holds of the values of the body and of the `catch`. -/
theorem eff_tryCatch_returns {α : Type} (P : α → Prop) (body : Eff α) (g : JsError → α)
    (w : World) (hb : ∀ a w1, body w = (.ok a, w1) → P a) (hg : ∀ e, P (g e)) :
    ∃ a w', Eff.tryCatch body (fun e => pure (g e)) w = (.ok a, w') ∧ P a := by
  unfold Eff.tryCatch
  rcases hbw : body w with ⟨r, w1⟩
  cases r with
  | error e => exact ⟨g e, w1, rfl, hg e⟩
  | ok a => exact ⟨a, w1, rfl, hb a w1 hbw⟩

theorem caughtResult_structured (e : JsError) : (caughtResult e).Structured :=
  fun _ => ⟨rfl, Or.inl rfl⟩

theorem loginUserChecks_structured (env : Env) (user : FirebaseUser) (w : World) :
    ∀ res w', loginUserChecks env user w = (.ok res, w') → res.Structured := by
  have out : ∀ (r : AuthResult) (w1 : World), r.Structured →
      ∀ res w', (do signOut env; pure r : Eff AuthResult) w1 = (.ok res, w') →
        res.Structured := by
    intro r w1 hr
    apply eff_yields_bind
    intro _ w2 _
    exact eff_yields_pure _ _ _ hr
  unfold loginUserChecks
  split
  · apply eff_yields_bind
    intro _ w1 _
    exact out _ _ (fun _ => ⟨rfl, Or.inr (Or.inr (Or.inl rfl))⟩)
  · apply eff_yields_bind
    intro d w1 _
    dsimp only
    split
    · apply eff_yields_bind
      intro _ w2 _
      exact out _ _ (fun _ => ⟨rfl, Or.inr (Or.inr (Or.inr rfl))⟩)
    · split
      · exact out _ _ (fun _ => ⟨rfl, Or.inr (Or.inl rfl)⟩)
      · exact eff_yields_pure _ _ _ (fun h => by cases h)

theorem loginWithGoogleChecks_structured (env : Env) (user : FirebaseUser)
    (userData : UserDoc) (w : World) :
    ∀ res w', loginWithGoogleChecks env user userData w = (.ok res, w') →
      res.Structured := by
  have out : ∀ (r : AuthResult) (w1 : World), r.Structured →
      ∀ res w', (do signOut env; pure r : Eff AuthResult) w1 = (.ok res, w') →
        res.Structured := by
    intro r w1 hr
    apply eff_yields_bind
    intro _ w2 _
    exact eff_yields_pure _ _ _ hr
  unfold loginWithGoogleChecks
  split
  · exact out _ _ (fun _ => ⟨rfl, Or.inr (Or.inr (Or.inl rfl))⟩)
  · apply eff_yields_bind
    intro d w1 _
    dsimp only
    split
    · exact out _ _ (fun _ => ⟨rfl, Or.inr (Or.inr (Or.inr rfl))⟩)
    · exact eff_yields_pure _ _ _ (fun h => by cases h)

/-- `loginUser` never throws, and its result is structured. -/
theorem loginUser_structured (env : Env) (email password : String) (w : World) :
    ∃ res w', loginUser env email password w = (.ok res, w') ∧ res.Structured := by
  unfold loginUser
  apply eff_tryCatch_returns _ _ caughtResult
  · apply eff_yields_bind
    intro user w1 _
    apply eff_yields_bind
    intro user2 w2 _
    apply eff_yields_bind
    intro d w3 _
    cases d with
    | none =>
      apply eff_yields_bind
      intro _ w4 _
      exact loginUserChecks_structured _ _ _
    | some userData =>
      dsimp only
      split
      · apply eff_yields_bind
        intro _ w4 _
        exact eff_yields_pure _ _ _ (fun _ => ⟨rfl, Or.inr (Or.inl rfl)⟩)
      · split
        · apply eff_yields_bind
          intro _ w4 _
          exact loginUserChecks_structured _ _ _
        · apply eff_yields_bind
          intro _ w4 _
          exact loginUserChecks_structured _ _ _
  · exact caughtResult_structured

/-- `loginWithGoogle` never throws, and its result is structured. -/
theorem loginWithGoogle_structured (env : Env) (w : World) :
    ∃ res w', loginWithGoogle env w = (.ok res, w') ∧ res.Structured := by
  unfold loginWithGoogle
  apply eff_tryCatch_returns _ _ caughtResult
  · apply eff_yields_bind
    intro user w1 _
    apply eff_yields_bind
    intro user2 w2 _
    apply eff_yields_bind
    intro d w3 _
    cases d with
    | none =>
      apply eff_yields_bind
      intro _ w4 _
      exact loginWithGoogleChecks_structured _ _ _ _
    | some existingData =>
      dsimp only
      split
      · apply eff_yields_bind
        intro _ w4 _
        exact eff_yields_pure _ _ _ (fun _ => ⟨rfl, Or.inr (Or.inl rfl)⟩)
      · apply eff_yields_bind
        intro _ w4 _
        exact loginWithGoogleChecks_structured _ _ _ _
  · exact caughtResult_structured

/-- `registerUser` never throws; a failure it reports is the result of its `catch`
block, which has an error message and no code. -/
theorem registerUser_structured (env : Env) (email password : String)
    (input : RegisterInput) (w : World) :
    ∃ res w', registerUser env email password input w = (.ok res, w') ∧
      (res.success = false → ∃ e, res = caughtResult e) := by
  unfold registerUser
  apply eff_tryCatch_returns _ _ caughtResult
  · apply eff_yields_bind
    intro user w1 _
    generalize orString input.displayName none = name
    cases name <;>
    · apply eff_yields_bind
      intro user2 w2 _
      apply eff_yields_bind
      intro _ w3 _
      dsimp only
      apply eff_yields_bind
      intro _ w4 _
      apply eff_yields_bind
      intro _ w5 _
      exact eff_yields_pure _ _ _ (fun h => by cases h)
  · exact fun e _ => ⟨e, rfl⟩

/-- C24 fails as stated: the failures that come from the `catch` blocks carry no code.
When the sign-in throws `auth/wrong-password`, and when the profile read throws after a
successful sign-in, `loginUser` returns `success = false` with an error message and no
`code`; so do `loginWithGoogle` when the popup sign-in throws and `registerUser` when the
account creation throws. -/
theorem caught_failure_has_no_code :
    (loginUser { calmEnv true with signIn := fun _ _ => .error wrongPassword }
        "a@b.com" "pw" (sampleWorld [])).1
      = .ok { AuthResult.bare false with error := some "Incorrect password" } ∧
    (loginUser { calmEnv true with getDoc := fun _ => some storeUnavailable }
        "a@b.com" "pw" (sampleWorld [])).1
      = .ok { AuthResult.bare false with
              error := some "An error occurred. Please try again." } ∧
    (loginWithGoogle { calmEnv true with signInPopup := .error wrongPassword }
        (sampleWorld [])).1
      = .ok { AuthResult.bare false with error := some "Incorrect password" } ∧
    (registerUser { calmEnv true with createUser := fun _ _ => .error wrongPassword }
        "a@b.com" "pw" sampleInput (sampleWorld [])).1
      = .ok { AuthResult.bare false with error := some "Incorrect password" } ∧
    ({ AuthResult.bare false with error := some "Incorrect password" } : AuthResult).code
      = none :=
  ⟨rfl, rfl, rfl, rfl, rfl⟩

/-- C24 as amended. `loginUser`, `loginWithGoogle` and `registerUser` never throw,
whatever the provider and the store answer: each returns a result, and a result with
`success = false` carries an error message. A code is present only on the gate failures
(`auth/account-disabled`, `auth/email-not-verified`, `auth/account-not-verified`);
`registerUser` never returns a code, and when the first provider call throws the
result is the one of the `catch` block, `{ success: false, error }` with no code. -/
theorem auth_services_return_structured (env : Env) (w : World) :
    (∀ email password,
      (∃ res w', loginUser env email password w = (.ok res, w') ∧
        (res.success = false →
          res.error.isSome = true ∧ (res.code = none ∨ isGateCode res.code))) ∧
      ∀ e, env.signIn email password = .error e →
        (loginUser env email password w).1 = .ok (caughtResult e)) ∧
    ((∃ res w', loginWithGoogle env w = (.ok res, w') ∧
        (res.success = false →
          res.error.isSome = true ∧ (res.code = none ∨ isGateCode res.code))) ∧
      ∀ e, env.signInPopup = .error e →
        (loginWithGoogle env w).1 = .ok (caughtResult e)) ∧
    (∀ email password input,
      (∃ res w', registerUser env email password input w = (.ok res, w') ∧
        (res.success = false → res.error.isSome = true ∧ res.code = none)) ∧
      ∀ e, env.createUser email password = .error e →
        (registerUser env email password input w).1 = .ok (caughtResult e)) := by
  refine ⟨fun email password => ⟨loginUser_structured env email password w, ?_⟩,
    ⟨loginWithGoogle_structured env w, ?_⟩, fun email password input => ⟨?_, ?_⟩⟩
  · intro e he
    simp [loginUser, Eff.tryCatch, bind, Eff.andThen, pure, Eff.ret,
      signInWithEmailAndPassword, logCall, he]
  · intro e he
    simp [loginWithGoogle, Eff.tryCatch, bind, Eff.andThen, pure, Eff.ret,
      signInWithPopup, logCall, he]
  · obtain ⟨res, w', h, hres⟩ := registerUser_structured env email password input w
    refine ⟨res, w', h, fun hf => ?_⟩
    obtain ⟨e, he⟩ := hres hf
    subst he
    exact ⟨rfl, rfl⟩
  · intro e he
    simp [registerUser, Eff.tryCatch, bind, Eff.andThen, pure, Eff.ret,
      createUserWithEmailAndPassword, logCall, he]

/-- C24 as amended, at a concrete input: the sign-in throws `auth/wrong-password`. -/
theorem auth_services_return_structured_witness :
    (loginUser { calmEnv true with signIn := fun _ _ => .error wrongPassword }
        "a@b.com" "pw" (sampleWorld [])).1 = .ok (caughtResult wrongPassword) :=
  ((auth_services_return_structured
      { calmEnv true with signIn := fun _ _ => .error wrongPassword } (sampleWorld [])).1
    "a@b.com" "pw").2 wrongPassword rfl

/-! ## The keys of the rate limiter -/

theorem configured_action {action : String} {config : RateLimitConfig}
    (h : RATE_LIMITS action = .entry config) :
    action = "login" ∨ action = "register" ∨ action = "passwordReset" ∨
      action = "resendVerification" := by
  unfold RATE_LIMITS at h
  by_cases h1 : action = "login"
  · exact Or.inl h1
  · by_cases h2 : action = "register"
    · exact Or.inr (Or.inl h2)
    · by_cases h3 : action = "passwordReset"
      · exact Or.inr (Or.inr (Or.inl h3))
      · by_cases h4 : action = "resendVerification"
        · exact Or.inr (Or.inr (Or.inr h4))
        · by_cases h5 : action ∈ objectPrototypeNames <;> simp [h1, h2, h3, h4, h5] at h

/-- Two pairs of a configured action and an identifier that have the same storage key
are the same pair. -/
theorem storageKey_injective {a1 i1 a2 i2 : String} {c1 c2 : RateLimitConfig}
    (h1 : RATE_LIMITS a1 = .entry c1) (h2 : RATE_LIMITS a2 = .entry c2)
    (hk : storageKey a1 i1 = storageKey a2 i2) : a1 = a2 ∧ i1 = i2 := by
  have hd := congrArg String.data hk
  simp only [storageKey, String.data_append, List.append_assoc] at hd
  have hd2 := List.append_cancel_left (List.append_cancel_left hd)
  have key : ∀ i j : String, i.data = j.data → i = j := fun i j h => String.ext h
  rcases configured_action h1 with rfl | rfl | rfl | rfl <;>
    rcases configured_action h2 with rfl | rfl | rfl | rfl <;>
    first
    | exact ⟨rfl, key _ _ (List.append_cancel_left (List.append_cancel_left hd2))⟩
    | (exfalso; revert hd2; simp [String.data])

theorem inherited_action {action : String} (h : RATE_LIMITS action = .inherited) :
    action ∈ objectPrototypeNames := by
  unfold RATE_LIMITS at h
  by_cases h5 : action ∈ objectPrototypeNames
  · exact h5
  · exfalso
    revert h
    split
    · simp
    · split
      · simp
      · split
        · simp
        · split
          · simp
          · simp [h5]

/-- The storage key of a configured action is not the storage key of a property name
inherited from `Object.prototype`. -/
theorem storageKey_ne_inherited {a1 i1 a2 i2 : String} {c1 : RateLimitConfig}
    (h1 : RATE_LIMITS a1 = .entry c1) (h2 : RATE_LIMITS a2 = .inherited) :
    storageKey a1 i1 ≠ storageKey a2 i2 := by
  intro hk
  have hd := congrArg String.data hk
  simp only [storageKey, String.data_append, List.append_assoc] at hd
  have hd2 := List.append_cancel_left (List.append_cancel_left hd)
  have hmem := inherited_action h2
  simp only [objectPrototypeNames, List.mem_cons, List.mem_singleton, List.mem_nil_iff,
    or_false] at hmem
  rcases configured_action h1 with rfl | rfl | rfl | rfl <;>
    rcases hmem with rfl | rfl | rfl | rfl | rfl | rfl | rfl | rfl | rfl | rfl | rfl | rfl <;>
    (revert hd2; simp [String.data])

theorem lookup_put_other (ls : LocalStorage) (key other : String) (value : StoredText)
    (h : other ≠ key) : (ls.put key value).lookup other = ls.lookup other := by
  simp [LocalStorage.lookup, LocalStorage.put, lookup_replace, h]

theorem lookup_erase_other (ls : LocalStorage) (key other : String) (h : other ≠ key) :
    (ls.erase key).lookup other = ls.lookup other := by
  simp [LocalStorage.lookup, LocalStorage.erase, lookup_filter_ne _ _ _ h]

/-- The storage `checkRateLimit` returns is the one it was given, or that one with the
key of the pair removed or rewritten. -/
theorem checkRateLimit_storage {now : Nat} {action identifier : String}
    {ls ls' : LocalStorage} {status : RateLimitStatus}
    (h : checkRateLimit now action identifier ls = .ok (status, ls')) :
    ls' = ls ∨ ls' = ls.erase (storageKey action identifier) ∨
      ∃ value, ls' = ls.put (storageKey action identifier) value := by
  unfold checkRateLimit at h
  cases hc : RATE_LIMITS action with
  | undefined =>
    simp [hc] at h
    exact Or.inl h.2.symm
  | inherited =>
    cases hd : ls.accessDenied with
    | true => simp [hc, LocalStorage.getItem, hd, bind, Except.bind] at h
    | false =>
      cases hl : ls.lookup (storageKey action identifier) with
      | none =>
        simp [hc, LocalStorage.getItem, hd, hl, bind, Except.bind, pure, Except.pure] at h
        exact Or.inl h.2.symm
      | some text =>
        cases text with
        | empty =>
          simp [hc, LocalStorage.getItem, hd, hl, bind, Except.bind, pure,
            Except.pure] at h
          exact Or.inl h.2.symm
        | malformed t =>
          simp [hc, LocalStorage.getItem, hd, hl, bind, Except.bind, jsonParse] at h
        | record data =>
          simp only [hc, LocalStorage.getItem, hd, hl, bind, Except.bind, jsonParse, pure,
            Except.pure, Bool.false_eq_true, if_false] at h
          split at h
          · cases h
            exact Or.inl rfl
          · split at h
            · simp only [LocalStorage.removeItem, hd, Bool.false_eq_true, if_false] at h
              cases h
              exact Or.inr (Or.inl rfl)
            · cases h
              exact Or.inl rfl
  | entry config =>
    cases hd : ls.accessDenied with
    | true => simp [hc, LocalStorage.getItem, hd, bind, Except.bind] at h
    | false =>
      cases hl : ls.lookup (storageKey action identifier) with
      | none =>
        simp [hc, LocalStorage.getItem, hd, hl, bind, Except.bind, pure, Except.pure] at h
        exact Or.inl h.2.symm
      | some text =>
        cases text with
        | empty =>
          simp [hc, LocalStorage.getItem, hd, hl, bind, Except.bind, pure,
            Except.pure] at h
          exact Or.inl h.2.symm
        | malformed t =>
          simp [hc, LocalStorage.getItem, hd, hl, bind, Except.bind, jsonParse] at h
        | record data =>
          simp only [hc, LocalStorage.getItem, hd, hl, bind, Except.bind, jsonParse, pure,
            Except.pure, Bool.false_eq_true, if_false] at h
          split at h
          · cases h
            exact Or.inl rfl
          · split at h
            · simp only [LocalStorage.removeItem, hd, Bool.false_eq_true, if_false] at h
              cases h
              exact Or.inr (Or.inl rfl)
            · split at h
              · simp only [LocalStorage.setItem, hd, Bool.false_eq_true, if_false] at h
                split at h
                · cases h
                · rename_i heq
                  cases h
                  split at heq
                  · cases heq
                  · cases heq
                    exact Or.inr (Or.inr ⟨_, rfl⟩)
              · cases h
                exact Or.inl rfl

/-- The storage `recordFailedAttempt` returns is the one it was given, or that one with
the key of the pair rewritten. -/
theorem recordFailedAttempt_storage {now : Nat} {action identifier : String}
    {ls ls' : LocalStorage}
    (h : recordFailedAttempt now action identifier ls = .ok ls') :
    ls' = ls ∨ ∃ value, ls' = ls.put (storageKey action identifier) value := by
  have put : ∀ value, ls.setItem (storageKey action identifier) value = .ok ls' →
      ∃ value, ls' = ls.put (storageKey action identifier) value := by
    intro value hs
    unfold LocalStorage.setItem at hs
    split at hs
    · cases hs
    · split at hs
      · cases hs
      · cases hs
        exact ⟨_, rfl⟩
  have run : ∀ config : ConfigValue, RATE_LIMITS action = config → config ≠ .undefined →
      ∃ value, ls' = ls.put (storageKey action identifier) value := by
    intro config hc hne
    have hne2 : RATE_LIMITS action ≠ .undefined := fun e => hne (hc ▸ e)
    cases hd : ls.accessDenied with
    | true => rw [recordFailedAttempt_denied_of_defined hne2 hd] at h; cases h
    | false =>
      unfold recordFailedAttempt at h
      cases hl : ls.lookup (storageKey action identifier) with
      | none =>
        cases config with
        | undefined => exact absurd rfl hne
        | entry c =>
          simp only [hc, LocalStorage.getItem, hd, hl, bind, Except.bind,
            Bool.false_eq_true, if_false] at h
          exact put _ h
        | inherited =>
          simp only [hc, LocalStorage.getItem, hd, hl, bind, Except.bind,
            Bool.false_eq_true, if_false] at h
          exact put _ h
      | some text =>
        cases text with
        | empty =>
          cases config with
          | undefined => exact absurd rfl hne
          | entry c =>
            simp only [hc, LocalStorage.getItem, hd, hl, bind, Except.bind,
              Bool.false_eq_true, if_false] at h
            exact put _ h
          | inherited =>
            simp only [hc, LocalStorage.getItem, hd, hl, bind, Except.bind,
              Bool.false_eq_true, if_false] at h
            exact put _ h
        | malformed t =>
          cases config with
          | undefined => exact absurd rfl hne
          | entry c =>
            simp [hc, LocalStorage.getItem, hd, hl, bind, Except.bind, jsonParse] at h
          | inherited =>
            simp [hc, LocalStorage.getItem, hd, hl, bind, Except.bind, jsonParse] at h
        | record data =>
          cases config with
          | undefined => exact absurd rfl hne
          | entry c =>
            simp only [hc, LocalStorage.getItem, hd, hl, bind, Except.bind, jsonParse,
              Bool.false_eq_true, if_false] at h
            split at h
            · exact put _ h
            · exact put _ h
          | inherited =>
            simp only [hc, LocalStorage.getItem, hd, hl, bind, Except.bind, jsonParse,
              Bool.false_eq_true, if_false] at h
            split at h
            · exact put _ h
            · exact put _ h
  by_cases hc : RATE_LIMITS action = .undefined
  · rw [recordFailedAttempt_unconfigured hc] at h
    cases h
    exact Or.inl rfl
  · exact Or.inr (run _ rfl hc)

/-- C25. Rate-limit records are isolated per (action, identifier). For every two distinct
pairs of a configured action and an identifier the storage keys differ; a
`checkRateLimit`, `recordFailedAttempt` or `clearRateLimit` call on one pair leaves what
is stored for the other pair as it is (a call that throws writes nothing); and on a
storage that can be accessed `clearRateLimit(a, i)` returns, nothing is stored for
`(a, i)` afterwards, and `checkRateLimit(a, i)` then returns `{ allowed: true }`. -/
theorem rate_limit_records_isolated (now : Nat) (a1 i1 a2 i2 : String)
    (c1 c2 : RateLimitConfig) (ls : LocalStorage)
    (h1 : RATE_LIMITS a1 = .entry c1) (h2 : RATE_LIMITS a2 = .entry c2)
    (hne : (a1, i1) ≠ (a2, i2)) :
    storageKey a1 i1 ≠ storageKey a2 i2 ∧
    (∀ status ls', checkRateLimit now a1 i1 ls = .ok (status, ls') →
      ls'.lookup (storageKey a2 i2) = ls.lookup (storageKey a2 i2)) ∧
    (∀ ls', recordFailedAttempt now a1 i1 ls = .ok ls' →
      ls'.lookup (storageKey a2 i2) = ls.lookup (storageKey a2 i2)) ∧
    (∀ ls', clearRateLimit a1 i1 ls = .ok ls' →
      ls'.lookup (storageKey a2 i2) = ls.lookup (storageKey a2 i2)) ∧
    (ls.accessDenied = false →
      clearRateLimit a1 i1 ls = .ok (ls.erase (storageKey a1 i1)) ∧
      (ls.erase (storageKey a1 i1)).lookup (storageKey a1 i1) = none ∧
      checkRateLimit now a1 i1 (ls.erase (storageKey a1 i1))
        = .ok (statusAllowed, ls.erase (storageKey a1 i1))) := by
  have hkey : storageKey a2 i2 ≠ storageKey a1 i1 := by
    intro hk
    obtain ⟨ha, hi⟩ := storageKey_injective h2 h1 hk
    exact hne (by rw [ha, hi])
  refine ⟨fun h => hkey h.symm, ?_, ?_, ?_, ?_⟩
  · intro status ls' h
    rcases checkRateLimit_storage h with rfl | rfl | ⟨value, rfl⟩
    · rfl
    · exact lookup_erase_other _ _ _ hkey
    · exact lookup_put_other _ _ _ _ hkey
  · intro ls' h
    rcases recordFailedAttempt_storage h with rfl | ⟨value, rfl⟩
    · rfl
    · exact lookup_put_other _ _ _ _ hkey
  · intro ls' h
    unfold clearRateLimit LocalStorage.removeItem at h
    split at h
    · cases h
    · cases h
      exact lookup_erase_other _ _ _ hkey
  · intro hd
    refine ⟨by simp [clearRateLimit, LocalStorage.removeItem, hd],
      LocalStorage.lookup_erase_self _ _, ?_⟩
    exact checkRateLimit_absent (by simpa [LocalStorage.erase] using hd)
      (LocalStorage.lookup_erase_self _ _)

/-- C25 at a concrete input: the records of `login` for `a@b.com` and for `c@d.com` in a
storage that holds the first. -/
theorem rate_limit_records_isolated_witness :
    storageKey "login" "a@b.com" ≠ storageKey "login" "c@d.com" ∧
    (∀ status ls', checkRateLimit 1000 "login" "a@b.com" lockedOutStorage = .ok (status, ls') →
      ls'.lookup (storageKey "login" "c@d.com")
        = lockedOutStorage.lookup (storageKey "login" "c@d.com")) ∧
    (∀ ls', recordFailedAttempt 1000 "login" "a@b.com" lockedOutStorage = .ok ls' →
      ls'.lookup (storageKey "login" "c@d.com")
        = lockedOutStorage.lookup (storageKey "login" "c@d.com")) ∧
    (∀ ls', clearRateLimit "login" "a@b.com" lockedOutStorage = .ok ls' →
      ls'.lookup (storageKey "login" "c@d.com")
        = lockedOutStorage.lookup (storageKey "login" "c@d.com")) ∧
    (lockedOutStorage.accessDenied = false →
      clearRateLimit "login" "a@b.com" lockedOutStorage
        = .ok (lockedOutStorage.erase (storageKey "login" "a@b.com")) ∧
      (lockedOutStorage.erase (storageKey "login" "a@b.com")).lookup
        (storageKey "login" "a@b.com") = none ∧
      checkRateLimit 1000 "login" "a@b.com"
          (lockedOutStorage.erase (storageKey "login" "a@b.com"))
        = .ok (statusAllowed, lockedOutStorage.erase (storageKey "login" "a@b.com"))) :=
  rate_limit_records_isolated 1000 "login" "a@b.com" "login" "c@d.com" _ _ lockedOutStorage
    RATE_LIMITS_login RATE_LIMITS_login (by decide)

/-- The value under a key that the filter keeps is found as before. -/
theorem lookup_filter_keep {α : Type} (items : List (String × α)) (keep : String → Bool)
    (key : String) (h : keep key = true) :
    List.lookup key (items.filter (fun p => keep p.1)) = List.lookup key items := by
  induction items with
  | nil => rfl
  | cons x rest ih =>
    obtain ⟨k, d⟩ := x
    by_cases hk : keep k = true
    · simp only [List.filter, hk, List.lookup]
      cases key == k <;> simp [ih]
    · have hne : (key == k) = false := by
        simp only [beq_eq_false_iff_ne, ne_eq]
        intro e
        rw [e] at h
        exact hk h
      simp [List.filter, hk, List.lookup, hne, ih]

/-- The keys of the resend-verification cooldown do not start with
`RATE_LIMIT_STORAGE_KEY`. -/
theorem startsWith_cooldownKey (email : String) :
    startsWith ("resend_verification_" ++ email) RATE_LIMIT_STORAGE_KEY = false := by
  simp [startsWith, RATE_LIMIT_STORAGE_KEY, String.data_append, String.data,
    List.isPrefixOf]

/-- C26. On a storage that can be accessed, `clearAllRateLimits` returns and removes
exactly the storage keys that start with `rate_limit_attempts`: afterwards nothing is
stored under such a key, `checkRateLimit` returns `{ allowed: true }` for every action
and identifier, and every key without that prefix, the resend-verification cooldown keys
`resend_verification_<email>` among them, keeps its value. -/
theorem clearAllRateLimits_removes_exactly (ls : LocalStorage)
    (hd : ls.accessDenied = false) :
    ∃ ls', clearAllRateLimits ls = .ok ls' ∧
      (∀ key, startsWith key RATE_LIMIT_STORAGE_KEY = true → ls'.lookup key = none) ∧
      (∀ key, startsWith key RATE_LIMIT_STORAGE_KEY = false →
        ls'.lookup key = ls.lookup key) ∧
      (∀ now action identifier,
        checkRateLimit now action identifier ls' = .ok (statusAllowed, ls')) ∧
      (∀ email, ls'.lookup ("resend_verification_" ++ email)
        = ls.lookup ("resend_verification_" ++ email)) := by
  have hremoved : ∀ key, startsWith key RATE_LIMIT_STORAGE_KEY = true →
      List.lookup key (ls.items.filter
        (fun p => !startsWith p.1 RATE_LIMIT_STORAGE_KEY)) = none :=
    fun key hk => lookup_filter_none _ (fun k => !startsWith k RATE_LIMIT_STORAGE_KEY) _
      (by simp [hk])
  have hkept : ∀ key, startsWith key RATE_LIMIT_STORAGE_KEY = false →
      List.lookup key (ls.items.filter
        (fun p => !startsWith p.1 RATE_LIMIT_STORAGE_KEY)) = List.lookup key ls.items :=
    fun key hk => lookup_filter_keep _ (fun k => !startsWith k RATE_LIMIT_STORAGE_KEY) _
      (by simp [hk])
  refine ⟨_, clearAllRateLimits_ok ls hd, hremoved, hkept, ?_,
    fun email => hkept _ (startsWith_cooldownKey email)⟩
  intro now action identifier
  exact checkRateLimit_absent hd (hremoved _ (startsWith_storageKey action identifier))

/-- C26 at a concrete input: a storage that holds a rate-limit record of `login` and an
item of another feature; afterwards only the other item is left. -/
theorem clearAllRateLimits_removes_exactly_witness :
    ∃ ls', clearAllRateLimits lockedOutStorage = .ok ls' ∧
      ls'.items = [("theme", .malformed "dark")] ∧
      (∀ now action identifier,
        checkRateLimit now action identifier ls' = .ok (statusAllowed, ls')) := by
  obtain ⟨ls', h1, _, _, h4, _⟩ := clearAllRateLimits_removes_exactly lockedOutStorage rfl
  refine ⟨ls', h1, ?_, h4⟩
  rw [clearAllRateLimits_ok lockedOutStorage rfl] at h1
  cases h1
  decide

/-! ## The validators -/

theorem take_succ_reverse (cleaned : List Char) (n : Nat) (h : n < cleaned.length) :
    (cleaned.take (n + 1)).reverse = cleaned.getD n '0' :: (cleaned.take n).reverse := by
  rw [List.take_succ, List.reverse_append]
  simp [List.getElem?_eq_getElem h, List.getD_eq_getElem?_getD]

/-- The loop of `validateCreditCard`, started at index `n - 1` with the flag `isEven`,
adds to `sum` the Luhn terms of the first `n` digits taken from the right, the positions
counted from any `k` whose parity is the flag. -/
theorem validateCreditCard_loop_eq (cleaned : List Char) (n : Nat) :
    ∀ (sum k : Nat) (isEven : Bool), n ≤ cleaned.length → (k % 2 = 1 ↔ isEven = true) →
      validateCreditCard.loop cleaned n sum isEven
        = sum + ((List.enumFrom k ((cleaned.take n).reverse.map parseDigit)).map
            (fun p => Spec.luhnTerm p.1 p.2)).sum := by
  induction n with
  | zero =>
    intro sum k isEven _ _
    simp [validateCreditCard.loop]
  | succ n ih =>
    intro sum k isEven hn hk
    have hlt : n < cleaned.length := hn
    rw [validateCreditCard.loop, take_succ_reverse cleaned n hlt]
    have hk2 : ((k + 1) % 2 = 1 ↔ (!isEven) = true) := by
      cases isEven
      · have : ¬ k % 2 = 1 := fun h => by simpa using hk.mp h
        simp only [Bool.not_false, iff_true]
        omega
      · have : k % 2 = 1 := hk.mpr rfl
        simp only [Bool.not_true, Bool.false_eq_true, iff_false]
        omega
    rw [ih _ (k + 1) (!isEven) (Nat.le_of_lt hlt) hk2]
    simp only [List.map_cons, List.enumFrom_cons, List.sum_cons, Spec.luhnTerm]
    cases isEven
    · have : ¬ k % 2 = 1 := fun h => by simpa using hk.mp h
      simp only [Bool.false_eq_true, if_false, this]
      omega
    · have : k % 2 = 1 := hk.mpr rfl
      simp only [if_true, this, Nat.mul_comm (parseDigit _) 2]
      omega

/-- The sum the loop of `validateCreditCard` computes is the Luhn sum of the digits. -/
theorem validateCreditCard_loop_luhnSum (text : String) :
    validateCreditCard.loop (text.data.filter Char.isDigit)
        (text.data.filter Char.isDigit).length 0 false
      = Spec.luhnSum (Spec.digitsOf text) := by
  rw [validateCreditCard_loop_eq _ _ 0 0 false (Nat.le_refl _) (by simp)]
  simp only [List.take_length, Nat.zero_add, Spec.luhnSum, Spec.digitsOf, List.enum,
    List.map_reverse]
  rfl

/-- C27. `validateCreditCard` implements the Luhn check: for every string it returns
true exactly when the digits of the string (every other character removed) number
between 13 and 19 and their Luhn sum (every second digit counted from the right doubled,
9 subtracted from a doubled value above 9) is divisible by 10. -/
theorem validateCreditCard_is_luhn (text : String) :
    validateCreditCard text = true ↔ Spec.luhnValid text := by
  have hlen : (Spec.digitsOf text).length = (text.data.filter Char.isDigit).length := by
    simp [Spec.digitsOf]
  unfold validateCreditCard Spec.luhnValid
  rw [hlen, ← validateCreditCard_loop_luhnSum]
  dsimp only
  split
  · rename_i h
    simp only [Bool.or_eq_true, decide_eq_true_eq] at h
    constructor
    · intro hf
      cases hf
    · intro hv
      omega
  · rename_i h
    simp only [Bool.or_eq_true, decide_eq_true_eq, not_or, Nat.not_lt] at h
    simp only [beq_iff_eq]
    constructor
    · intro hs
      exact ⟨h.1, h.2, hs⟩
    · intro hv
      exact hv.2.2

/-- C27 at concrete inputs: a card number that passes the Luhn check, written with
spaces, and the same number with its last digit changed. -/
theorem validateCreditCard_is_luhn_witness :
    validateCreditCard "4539 1488 0343 6467" = true ∧
    Spec.luhnValid "4539 1488 0343 6467" ∧
    validateCreditCard "4539 1488 0343 6468" = false :=
  ⟨by decide, (validateCreditCard_is_luhn "4539 1488 0343 6467").mp (by decide),
    by decide⟩

theorem passwordChar_not_lineTerminator (c : Char) (h : passwordChar c = true) :
    isLineTerminator c = false := by
  rw [Bool.eq_false_iff]
  intro ht
  simp only [isLineTerminator, Bool.or_eq_true, beq_iff_eq] at ht
  rcases ht with ((rfl | rfl) | rfl) | rfl <;> revert h <;> decide

/-- Over characters that `.` matches, the lookahead `(?=.*[class])` succeeds exactly when
some character is in the class. -/
theorem lookahead_iff (charClass : Char → Bool) (chars : List Char)
    (h : ∀ c ∈ chars, isLineTerminator c = false) :
    lookahead charClass chars = true ↔ ∃ c ∈ chars, charClass c = true := by
  induction chars with
  | nil => simp [lookahead]
  | cons c rest ih =>
    have hc := h c (List.mem_cons_self _ _)
    have ih2 := ih (fun d hd => h d (List.mem_cons_of_mem _ hd))
    simp [lookahead, hc, ih2]

/-- What `validatePassword` accepts: the passwords its comment describes that, in
addition, are made of letters `a-z`, `A-Z`, digits and the characters `@$!%*?&` only. -/
theorem validatePassword_iff (password : String) :
    validatePassword password = true ↔
      Spec.strongPassword password ∧ ∀ c ∈ password.data, passwordChar c = true := by
  unfold validatePassword Spec.strongPassword
  simp only [Bool.and_eq_true, List.all_eq_true, decide_eq_true_eq, String.length]
  constructor
  · rintro ⟨⟨⟨h1, h2⟩, h3⟩, hall, hlen⟩
    have hterm : ∀ c ∈ password.data, isLineTerminator c = false :=
      fun c hc => passwordChar_not_lineTerminator c (hall c hc)
    exact ⟨⟨hlen, (lookahead_iff _ _ hterm).mp h2, (lookahead_iff _ _ hterm).mp h1,
      (lookahead_iff _ _ hterm).mp h3⟩, hall⟩
  · rintro ⟨⟨hlen, h2, h1, h3⟩, hall⟩
    have hterm : ∀ c ∈ password.data, isLineTerminator c = false :=
      fun c hc => passwordChar_not_lineTerminator c (hall c hc)
    exact ⟨⟨⟨(lookahead_iff _ _ hterm).mpr h1, (lookahead_iff _ _ hterm).mpr h2⟩,
      (lookahead_iff _ _ hterm).mpr h3⟩, hall, hlen⟩

/-- C28 fails on the code: `Passw0rd#` has 9 characters, an uppercase letter, a lowercase
letter and a digit, as the comment of `validatePassword` asks, and `validatePassword`
rejects it, because `#` is not in the character class of the regular expression; the
same password with `!` in place of `#` is accepted. -/
theorem validatePassword_rejects_described_password :
    Spec.strongPassword "Passw0rd#" ∧ validatePassword "Passw0rd#" = false ∧
    passwordChar '#' = false ∧ validatePassword "Passw0rd!" = true := by
  refine ⟨⟨by decide, ⟨'P', by decide, by decide⟩, ⟨'a', by decide, by decide⟩,
    ⟨'0', by decide, by decide⟩⟩, by decide, by decide, by decide⟩

/-! ## Lockouts -/

/-- C29 fails as stated: `recordFailedAttempt` removes an active lockout when the window
of the record has ended. Five failed logins and a check arm a lockout until 2100000 on a
window that ends at 900000; at 1000000 the check still reports the lockout, a failure
recorded then starts a new window with `lockUntil: null`, and the next check at the same
time returns `allowed: true`. -/
theorem recordFailedAttempt_drops_lockout :
    (do
      let ls ← recordFailedAttemptMany "login" "a@b.com"
        [0, 60000, 120000, 180000, 240000] LocalStorage.empty
      let (armed, ls) ← checkRateLimit 300000 "login" "a@b.com" ls
      let (before, ls) ← checkRateLimit 1000000 "login" "a@b.com" ls
      let lockUntil := ls.lookup (storageKey "login" "a@b.com")
      let ls ← recordFailedAttempt 1000000 "login" "a@b.com" ls
      let (after, ls) ← checkRateLimit 1000000 "login" "a@b.com" ls
      pure (armed.allowed, before.allowed, before.locked, lockUntil,
        ls.lookup (storageKey "login" "a@b.com"), after.allowed, after.locked) :
      Except JsError _)
      = .ok (false, false, some true,
          some (.record { attempts := 5, windowStart := 0, windowEnd := some 900000,
                          lockUntil := some 2100000 }),
          some (.record { attempts := 1, windowStart := 1000000, windowEnd := some 1900000,
                          lockUntil := none }),
          true, none) := by
  rfl

/-- C29 as amended. For every configured action, on a working storage, and every stored
record with `lockUntil` in the future: while the window of the record has not ended
(`now <= windowEnd`), `recordFailedAttempt` stores the record with one more attempt and
the same `lockUntil`, and the next `checkRateLimit` at the same time still returns
`allowed: false, locked: true`; once the window has ended (`now > windowEnd`) it stores a
new record with `lockUntil: null`, and the next `checkRateLimit` at the same time returns
`{ allowed: true, attemptsRemaining }`. -/
theorem recordFailedAttempt_keeps_lockout_in_window (now lockUntil : Nat)
    (action identifier : String) (config : RateLimitConfig) (ls : LocalStorage)
    (data : RateLimitRecord) (hc : RATE_LIMITS action = .entry config) (hw : ls.Working)
    (hl : ls.lookup (storageKey action identifier) = some (.record data))
    (hlock : data.lockUntil = some lockUntil) (hfut : now < lockUntil) :
    (now ≤ toNumber data.windowEnd →
      ∃ ls', recordFailedAttempt now action identifier ls = .ok ls' ∧
        ls'.lookup (storageKey action identifier)
          = some (.record { data with attempts := data.attempts + 1 }) ∧
        checkRateLimit now action identifier ls'
          = .ok (statusLocked (ceilMinutes (lockUntil - now)), ls') ∧
        (statusLocked (ceilMinutes (lockUntil - now))).allowed = false ∧
        (statusLocked (ceilMinutes (lockUntil - now))).locked = some true) ∧
    (toNumber data.windowEnd < now →
      ∃ ls', recordFailedAttempt now action identifier ls = .ok ls' ∧
        ls'.lookup (storageKey action identifier)
          = some (.record (freshRecord now (.entry config))) ∧
        (freshRecord now (.entry config)).lockUntil = none ∧
        checkRateLimit now action identifier ls'
          = .ok ({ statusAllowed with
                   attemptsRemaining := some (.nat (config.maxAttempts - 1)) }, ls')) := by
  refine ⟨fun hx => ?_, fun hx => ?_⟩
  · refine ⟨_, recordFailedAttempt_increment hc hw hl hx,
      LocalStorage.lookup_put_self _ _ _, ?_, rfl, rfl⟩
    exact checkRateLimit_locked hc (LocalStorage.working_put hw _ _).1
      (LocalStorage.lookup_put_self _ _ _) hlock hfut
  · by_cases h1 : 1 < config.maxAttempts
    · refine ⟨_, recordFailedAttempt_expired hc hw hl hx,
        LocalStorage.lookup_put_self _ _ _, rfl, ?_⟩
      exact checkRateLimit_below hc (LocalStorage.working_put hw _ _).1
        (LocalStorage.lookup_put_self _ _ _) (lockedAt_of_none rfl)
        (by simp [freshRecord, toNumber]) (by simpa [freshRecord] using h1)
    · exfalso
      rcases configured_action hc with rfl | rfl | rfl | rfl <;>
        (simp [RATE_LIMITS] at hc; subst hc; simp at h1)

/-- C29 as amended, at a concrete input: the record of a lockout until 1800000 on a
window that ends at 900000, at the clock value 600000. -/
theorem recordFailedAttempt_keeps_lockout_in_window_witness :
    ∃ ls', recordFailedAttempt 600000 "login" "a@b.com" lockedOutStorage = .ok ls' ∧
      ls'.lookup (storageKey "login" "a@b.com")
        = some (.record { attempts := 6, windowStart := 0, windowEnd := some 900000,
                          lockUntil := some 1800000 }) ∧
      checkRateLimit 600000 "login" "a@b.com" ls'
        = .ok (statusLocked (ceilMinutes (1800000 - 600000)), ls') ∧
      (statusLocked (ceilMinutes (1800000 - 600000))).allowed = false ∧
      (statusLocked (ceilMinutes (1800000 - 600000))).locked = some true :=
  (recordFailedAttempt_keeps_lockout_in_window 600000 1800000 "login" "a@b.com" _
    lockedOutStorage
    { attempts := 5, windowStart := 0, windowEnd := some 900000, lockUntil := some 1800000 }
    RATE_LIMITS_login ⟨rfl, rfl⟩ (by decide) rfl (by decide)).1 (by decide)

theorem recordSound_mono {now next : Nat} {config : RateLimitConfig}
    {data : RateLimitRecord} (h : RecordSound now config data) (hle : now ≤ next) :
    RecordSound next config data :=
  ⟨Nat.le_trans h.1 hle, h.2.1, h.2.2⟩

theorem storageSound_mono {now next : Nat} {ls : LocalStorage}
    (h : StorageSound now ls) (hle : now ≤ next) : StorageSound next ls :=
  ⟨h.1, fun action identifier config stored hc hl => by
    obtain ⟨data, hd, hs⟩ := h.2 action identifier config stored hc hl
    exact ⟨data, hd, recordSound_mono hs hle⟩⟩

theorem storageSound_erase {now : Nat} {ls : LocalStorage} (h : StorageSound now ls)
    (key : String) : StorageSound now (ls.erase key) := by
  refine ⟨LocalStorage.working_erase h.1 key, ?_⟩
  intro action identifier config stored hc hl
  by_cases hk : storageKey action identifier = key
  · rw [hk, LocalStorage.lookup_erase_self] at hl
    cases hl
  · rw [lookup_erase_other _ _ _ hk] at hl
    exact h.2 action identifier config stored hc hl

theorem storageSound_put {now : Nat} {ls : LocalStorage} (h : StorageSound now ls)
    {action identifier : String} {config : RateLimitConfig} {data : RateLimitRecord}
    (hc : RATE_LIMITS action = .entry config) (hd : RecordSound now config data) :
    StorageSound now (ls.put (storageKey action identifier) (.record data)) := by
  refine ⟨LocalStorage.working_put h.1 _ _, ?_⟩
  intro a2 i2 c2 stored hc2 hl
  by_cases hk : storageKey a2 i2 = storageKey action identifier
  · obtain ⟨ha, _⟩ := storageKey_injective hc2 hc hk
    subst ha
    rw [hc] at hc2
    cases hc2
    rw [hk, LocalStorage.lookup_put_self] at hl
    cases hl
    exact ⟨data, rfl, hd⟩
  · rw [lookup_put_other _ _ _ _ hk] at hl
    exact h.2 a2 i2 c2 stored hc2 hl

theorem storageSound_put_inherited {now : Nat} {ls : LocalStorage}
    (h : StorageSound now ls) {action identifier : String}
    (hc : RATE_LIMITS action = .inherited) (value : StoredText) :
    StorageSound now (ls.put (storageKey action identifier) value) := by
  refine ⟨LocalStorage.working_put h.1 _ _, ?_⟩
  intro a2 i2 c2 stored hc2 hl
  rw [lookup_put_other _ _ _ _ (storageKey_ne_inherited hc2 hc)] at hl
  exact h.2 a2 i2 c2 stored hc2 hl

/-- Every storage the rate limiter can reach is sound. -/
theorem reachable_sound {now : Nat} {ls : LocalStorage} (h : ReachableStorage now ls) :
    StorageSound now ls := by
  induction h with
  | empty now => exact ⟨LocalStorage.working_empty, fun _ _ _ _ _ hl => by cases hl⟩
  | check now next action identifier ls ls' status _ hle hrun ih =>
    have hs := storageSound_mono ih hle
    cases hc : RATE_LIMITS action with
    | undefined =>
      rw [checkRateLimit_unconfigured hc] at hrun
      cases hrun
      exact hs
    | inherited =>
      rcases checkRateLimit_storage hrun with rfl | rfl | ⟨value, rfl⟩
      · exact hs
      · exact storageSound_erase hs _
      · exact storageSound_put_inherited hs hc value
    | entry config =>
      cases hl : ls.lookup (storageKey action identifier) with
      | none =>
        rw [checkRateLimit_absent hs.1.1 hl] at hrun
        cases hrun
        exact hs
      | some stored =>
        obtain ⟨data, rfl, hd⟩ := hs.2 action identifier config stored hc hl
        cases hlock : lockedAt next data with
        | true =>
          obtain ⟨l, hl1, hl2⟩ := lockedAt_eq_true_iff.mp hlock
          rw [checkRateLimit_locked hc hs.1.1 hl hl1 hl2] at hrun
          cases hrun
          exact hs
        | false =>
          by_cases hx : toNumber data.windowEnd < next
          · rw [checkRateLimit_expired hc hs.1 hl hlock hx] at hrun
            cases hrun
            exact storageSound_erase hs _
          · by_cases hmax : config.maxAttempts ≤ data.attempts
            · rw [checkRateLimit_rearm hc hs.1 hl hlock (Nat.not_lt.mp hx) hmax] at hrun
              cases hrun
              refine storageSound_put hs hc ⟨hd.1, hd.2.1, ?_⟩
              intro hcfg l hl1
              cases hl1
              have h1 := hd.1
              have h2 := hd.2.1
              have h3 : next ≤ data.windowStart + config.windowMs := by
                have := Nat.not_lt.mp hx
                rw [h2] at this
                exact this
              show data.windowStart + config.windowMs ≤ next + config.lockoutMs
              omega
            · rw [checkRateLimit_below hc hs.1.1 hl hlock (Nat.not_lt.mp hx)
                (Nat.not_le.mp hmax)] at hrun
              cases hrun
              exact hs
  | record now next action identifier ls ls' _ hle hrun ih =>
    have hs := storageSound_mono ih hle
    cases hc : RATE_LIMITS action with
    | undefined =>
      rw [recordFailedAttempt_unconfigured hc] at hrun
      cases hrun
      exact hs
    | inherited =>
      rcases recordFailedAttempt_storage hrun with rfl | ⟨value, rfl⟩
      · exact hs
      · exact storageSound_put_inherited hs hc value
    | entry config =>
      have hfresh : RecordSound next config (freshRecord next (.entry config)) :=
        ⟨Nat.le_refl _, rfl, fun _ l hl1 => by cases hl1⟩
      cases hl : ls.lookup (storageKey action identifier) with
      | none =>
        rw [recordFailedAttempt_absent hc hs.1 hl] at hrun
        cases hrun
        exact storageSound_put hs hc hfresh
      | some stored =>
        obtain ⟨data, rfl, hd⟩ := hs.2 action identifier config stored hc hl
        by_cases hx : toNumber data.windowEnd < next
        · rw [recordFailedAttempt_expired hc hs.1 hl hx] at hrun
          cases hrun
          exact storageSound_put hs hc hfresh
        · rw [recordFailedAttempt_increment hc hs.1 hl (Nat.not_lt.mp hx)] at hrun
          cases hrun
          exact storageSound_put hs hc ⟨hd.1, hd.2.1, hd.2.2⟩

/-- C30. For the actions whose lockout is at least as long as their window (`login`,
`register`, `passwordReset`), a lockout always ends. In every storage reachable from the
empty one through `checkRateLimit` and `recordFailedAttempt` calls under a clock that
never goes back, what is stored for such an action and an identifier is a record whose
`windowEnd` is a time, and
when its `lockUntil` is not null it is at least `windowEnd`; so every `checkRateLimit` at
a time after `lockUntil` finds the window ended, removes the record and returns
`{ allowed: true }`, without arming the lockout again. -/
theorem lockout_always_ends (now : Nat) (ls : LocalStorage) (action identifier : String)
    (stored : StoredText) (hreach : ReachableStorage now ls)
    (haction : action = "login" ∨ action = "register" ∨ action = "passwordReset")
    (hl : ls.lookup (storageKey action identifier) = some stored) :
    ∃ config data windowEnd, RATE_LIMITS action = .entry config ∧
      config.windowMs ≤ config.lockoutMs ∧ stored = .record data ∧
      data.windowEnd = some windowEnd ∧
      ∀ lockUntil, data.lockUntil = some lockUntil →
        windowEnd ≤ lockUntil ∧
        ∀ next, lockUntil < next →
          checkRateLimit next action identifier ls
            = .ok (statusAllowed, ls.erase (storageKey action identifier)) ∧
          (ls.erase (storageKey action identifier)).lookup (storageKey action identifier)
            = none := by
  have hs := reachable_sound hreach
  obtain ⟨config, hc, hcfg⟩ : ∃ config, RATE_LIMITS action = .entry config ∧
      config.windowMs ≤ config.lockoutMs := by
    rcases haction with rfl | rfl | rfl <;> exact ⟨_, rfl, by decide⟩
  obtain ⟨data, rfl, hd⟩ := hs.2 action identifier config stored hc hl
  refine ⟨config, data, _, hc, hcfg, rfl, hd.2.1, ?_⟩
  intro lockUntil hlock
  have hend := hd.2.2 hcfg lockUntil hlock
  have hnum : toNumber data.windowEnd = data.windowStart + config.windowMs := by
    rw [hd.2.1]; rfl
  refine ⟨hend, fun next hn => ⟨?_, LocalStorage.lookup_erase_self _ _⟩⟩
  have hnot : lockedAt next data = false := by
    rw [Bool.eq_false_iff]
    intro ht
    obtain ⟨l, hl1, hl2⟩ := lockedAt_eq_true_iff.mp ht
    rw [hlock] at hl1
    cases hl1
    omega
  exact checkRateLimit_expired hc hs.1 hl hnot (by omega)

theorem armedRegisterStorage_reachable : ReachableStorage 3000 armedRegisterStorage := by
  have h0 := ReachableStorage.empty 0
  have h1 := ReachableStorage.record 0 0 "register" "a@b.com" _
    (LocalStorage.empty.put (storageKey "register" "a@b.com")
      (.record { attempts := 1, windowStart := 0, windowEnd := some 3600000,
                 lockUntil := none }))
    h0 (Nat.le_refl _) (by rfl)
  have h2 := ReachableStorage.record 0 1000 "register" "a@b.com" _
    (LocalStorage.empty.put (storageKey "register" "a@b.com")
      (.record { attempts := 2, windowStart := 0, windowEnd := some 3600000,
                 lockUntil := none }))
    h1 (by decide) (by rfl)
  have h3 := ReachableStorage.record 1000 2000 "register" "a@b.com" _
    (LocalStorage.empty.put (storageKey "register" "a@b.com")
      (.record { attempts := 3, windowStart := 0, windowEnd := some 3600000,
                 lockUntil := none }))
    h2 (by decide) (by rfl)
  exact ReachableStorage.check 2000 3000 "register" "a@b.com" _ armedRegisterStorage
    (statusLocked (ceilMinutes (3000 + 3600000 - 3000))) h3 (by decide) (by rfl)

/-- C30 at a concrete input: the `register` lockout of `a@b.com` armed at 3000 lasts until
3603000, after the window end 3600000; the check at 4000000 removes the record and returns
`{ allowed: true }`. -/
theorem lockout_always_ends_witness :
    (3600000 : Nat) ≤ 3603000 ∧
    checkRateLimit 4000000 "register" "a@b.com" armedRegisterStorage
      = .ok (statusAllowed, armedRegisterStorage.erase (storageKey "register" "a@b.com")) ∧
    (armedRegisterStorage.erase (storageKey "register" "a@b.com")).lookup
      (storageKey "register" "a@b.com") = none := by
  obtain ⟨config, data, windowEnd, _, _, hst, hwe, h⟩ :=
    lockout_always_ends 3000 armedRegisterStorage "register" "a@b.com"
      (.record { attempts := 3, windowStart := 0, windowEnd := some 3600000,
                 lockUntil := some 3603000 })
      armedRegisterStorage_reachable (Or.inr (Or.inl rfl)) (by decide)
  cases hst
  cases hwe
  exact ⟨(h 3603000 rfl).1, (h 3603000 rfl).2 4000000 (by decide)⟩

end ECommerce
